import Mathlib

/-!
# flow_test_engine: task pipeline and stream monitor

A shallow embedding of the asynchronous task pipeline of `flow_test_engine`
(`internal/service/task.go`, `internal/service/langflow.go`,
`internal/assemble/task.go`, `internal/repo/task.go`), of its task listing and of the
case templates (`internal/service/case_template.go`), and theorems about them.

Conventions of the embedding

* The task table is followed for the row of one task (`Repo`). Every store call
  (`Create`, `Update`, `GetById`) consumes one entry of a fault script, so the
  `if err != nil` branches of the source are reachable.
* The remote engine and the clock are scripted by `Env`: what `uploadFile`,
  `client.Do`, `getFileList`, `time.Now` return.
* The `select` loop of `monitorWorkflowStatus` consumes a list of `Signal`s: the
  values it receives, in order, from `eventChan`, `errorChan` and `timeout.C`.
  `selectTrace` builds the lists the reader goroutine and the timer can produce.
* The local disk is a map from path to content (`Disk`) together with the directories known
  to exist; paths are joined and cleaned as `path/filepath` does with `/` as separator. A
  directory exists when it was created, or holds a file or a known directory; `os.Rename`
  fails when its source is missing and when the directory of its target does not exist.
  `DownloadEnv` scripts what the engine answers and whether `os.MkdirAll`, `os.Create` and
  `io.Copy` return an error during one artifact download.
* The reader goroutine is `readBody`: `scanLines` gives the lines of a response body, read to
  its end, as `bufio.Scanner` yields them, and `readerLoop` trims and decodes them, with
  `json.Unmarshal` as a parameter.
* Go `int` and `int64` values are integers; where the source computes with them, the result
  is wrapped to 64 bits (`wrapInt64`).
* The package `regexp` is modelled for the constructs the patterns of `case_template.go`
  use: `Regex.run` lists the matches at a position in the order of preference of a
  backtracking matcher, which is the leftmost-first rule of the package.
* Logging is not modelled.
-/

namespace FlowTestEngine

/-! ## Data model (`internal/repo/models/task.go`, `internal/dto`) -/

/-- Task status of `models/task.go`: Running = 0, Finished = 1, Failed = 2. -/
inductive TaskStatus where
  | TaskStatusRunning
  | TaskStatusFinished
  | TaskStatusFailed
  deriving DecidableEq, Repr

/-- The task row, `models.Task`. Times are Unix milliseconds; the timestamps
`CreatedAt` and `UpdatedAt` are maintained by the ORM and are carried unchanged here. -/
structure Task where
  ID : Nat
  OriginalFilename : String
  LocalFilePath : String
  FilePath : String
  Status : TaskStatus
  LangflowRunID : String
  OutputFile : String
  DownloadFile : String
  UploadFileID : String
  OutputFileID : String
  ErrorMessage : String
  FinishedAt : Option Nat
  CreatedAt : Nat
  UpdatedAt : Nat
  deriving DecidableEq, Repr

/-- A decoded JSON value, what Go stores in an `interface{}` after `json.Unmarshal`. -/
inductive JsonValue where
  | null
  | bool (b : Bool)
  | number (n : Int)
  | str (s : String)
  | array (xs : List JsonValue)
  | object (kvs : List (String × JsonValue))

/-- A Go `map[string]interface{}`, read with `List.lookup` and written with `mapSet`. -/
abbrev JsonMap := List (String × JsonValue)

/-- The map assignment `m[k] = v`: the old binding of `k`, if any, is replaced. -/
def mapSet (m : JsonMap) (k : String) (v : JsonValue) : JsonMap :=
  (k, v) :: m.filter (fun kv => kv.1 != k)

/-- The type assertion `v.(string)` on the result of a map index: `some s` when ok. -/
def asString : Option JsonValue → Option String
  | some (JsonValue.str s) => some s
  | _ => none

/-- Stream event, `dto.LangflowStreamEvent`. -/
structure LangflowStreamEvent where
  Event : String
  Data : JsonMap

/-- Entry of the engine file listing, `dto.LangflowFileInfo`. -/
structure LangflowFileInfo where
  ID : String
  Name : String
  Path : String
  Size : Int
  Provider : Option String
  deriving DecidableEq, Repr

/-- Run request body, `dto.LangflowRunRequest`. -/
structure LangflowRunRequest where
  InputValue : String
  InputType : String
  OutputType : String
  Tweaks : JsonMap

/-- Request of task creation, `dto.TaskCreateRequest`. -/
structure TaskCreateRequest where
  UploadFile : String
  FilePath : String
  DownloadFile : String
  TemplateID : Option Nat
  deriving DecidableEq, Repr

/-- Response of task creation, `dto.TaskCreateResponse` (code and message). -/
structure TaskCreateResponse where
  Code : Nat
  Message : String
  deriving DecidableEq, Repr

/-- Engine configuration, `common.CustomConfig`. -/
structure CustomConfig where
  BaseURL : String
  RunEndpoint : String
  FileEndpoint : String
  FlowID : String
  APIKey : String
  FileComponentID : String
  SaveFileComponentID : String
  PromptComponentID : String
  deriving DecidableEq, Repr

/-- The value of `errcodes.ParameterErrorCode`: `iota + serviceBaseCode` at index 0. -/
def ParameterErrorCode : Nat := 1020

/-- The value of `errcodes.ProcessErrorCode`: `iota + serviceBaseCode` at index 4. -/
def ProcessErrorCode : Nat := 1024

/-- The text of `errcodes.ErrParameterErrorCode`. -/
def ErrParameterErrorCode : String :=
  "Parameter error, code: " ++ toString ParameterErrorCode

/-! ## Task store (`internal/repo/task.go`) -/

/-- The task table seen through the row of one task.
`writes` lists, oldest first, every record the store has accepted;
`faults` scripts the coming store calls (`true`: the call returns an error). -/
structure Repo where
  row : Option Task
  nextID : Nat
  writes : List Task
  faults : List Bool
  deriving DecidableEq, Repr

/-- Consume one entry of the fault script: does this call fail, and the store afterwards. -/
def Repo.nextFault (r : Repo) : Bool × Repo :=
  match r.faults with
  | [] => (false, r)
  | b :: bs => (b, { r with faults := bs })

/-- The call `repo.Create`: on success the record gets its id and is stored.
Returns the store and the record as the caller sees it afterwards (`none` on error). -/
def Repo.Create (r : Repo) (task : Task) : Repo × Option Task :=
  let (failed, r) := r.nextFault
  if failed then (r, none)
  else
    let task := { task with ID := r.nextID }
    ({ r with row := some task, nextID := r.nextID + 1, writes := r.writes ++ [task] }, some task)

/-- The call `repo.Update` (`Save`): the whole record replaces the row.
Returns the store and whether the call returned an error. -/
def Repo.Update (r : Repo) (task : Task) : Repo × Bool :=
  let (failed, r) := r.nextFault
  if failed then (r, true)
  else ({ r with row := some task, writes := r.writes ++ [task] }, false)

/-- The call `repo.GetById`: the row with this id, `none` when the call returns an error. -/
def Repo.GetById (r : Repo) (id : Nat) : Repo × Option Task :=
  let (failed, r) := r.nextFault
  if failed then (r, none)
  else
    match r.row with
    | some task => if task.ID = id then (r, some task) else (r, none)
    | none => (r, none)

/-! ## Environment -/

/-- What the remote engine and the clock answer during one pipeline run. -/
structure Env where
  /-- Engine configuration, `s.config`. -/
  config : CustomConfig
  /-- Result of `uploadFile`: the engine path and file id, or the error text. -/
  uploadFile : Except String (String × String)
  /-- Reading of `time.Now().UnixMilli()` in `RunWorkflow`. -/
  timestamp : Nat
  /-- Error of `http.NewRequestWithContext` for the run request, if any. -/
  newRequestErr : Option String
  /-- Result of `s.client.Do` for the run request: HTTP status and body text, or the transport error. -/
  runResponse : Except String (Nat × String)
  /-- Result of `getFileList` when the monitor asks for it. -/
  getFileList : Except String (List LangflowFileInfo)
  /-- Reading of `time.Now()` when the monitor marks the task finished. -/
  now : Nat
  /-- Result of `BuildPromptWithTemplate` in the background unit of `TaskCreate`. -/
  buildPrompt : Except String String

/-! ## Stream monitor (`langflowService.monitorWorkflowStatus`) -/

/-- One value taken by the `select` of the monitor loop. -/
inductive Signal where
  /-- A decoded event received from `eventChan`. -/
  | event (e : LangflowStreamEvent)
  /-- The nil value received from the closed `eventChan`. -/
  | eventClosed
  /-- A non-nil error received from `errorChan`. -/
  | streamErr (msg : String)
  /-- The nil value received from the closed `errorChan`. -/
  | errorClosed
  /-- The timer value received from `timeout.C`. -/
  | timeout

/-- The five terminal branches of the monitor loop. -/
inductive Outcome where
  | endEvent
  | errorEvent
  | streamEnded
  | readError
  | timedOut
  deriving DecidableEq, Repr

/-- What the reader goroutine gets out of the response body: the events it decodes,
in line order, and the value of `scanner.Err()` after the scan loop. -/
structure Stream where
  events : List LangflowStreamEvent
  scanErr : Option String

/-- The choices left to the scheduler: at which iteration of the loop the timer case is
taken (if the loop is still running then), and how many times the closed `errorChan` is
picked before the closed `eventChan` once the reader has closed both. -/
structure Schedule where
  timeoutAt : Option Nat
  spins : Nat
  deriving DecidableEq, Repr

/-- Signals the reader goroutine makes available, in order: every event on the unbuffered
`eventChan`; then, if the scanner failed, the wrapped error on `errorChan`; otherwise both
channels are closed and yield nil values. -/
def readerSignals (s : Stream) (spins : Nat) : List Signal :=
  s.events.map Signal.event ++
    (match s.scanErr with
     | some e => [Signal.streamErr ("stream reading error: " ++ e)]
     | none => List.replicate spins Signal.errorClosed ++ [Signal.eventClosed])

/-- The sequence of values the `select` loop takes for a stream under a schedule. -/
def selectTrace (s : Stream) (sch : Schedule) : List Signal :=
  match sch.timeoutAt with
  | none => readerSignals s sch.spins
  | some n =>
    if n < (readerSignals s sch.spins).length then
      (readerSignals s sch.spins).take n ++ [Signal.timeout]
    else readerSignals s sch.spins

/-- The listing lookup `findFileIDByName`: id of the first entry with exactly this name. -/
def findFileIDByName (getFileList : Except String (List LangflowFileInfo)) (fileName : String) :
    Except String String :=
  match getFileList with
  | Except.error e => Except.error ("failed to get file list: " ++ e)
  | Except.ok files =>
    match files.find? (fun file => file.Name == fileName) with
    | some file => Except.ok file.ID
    | none => Except.error ("file not found: " ++ fileName)

/-- Result of the monitor: the store afterwards and the terminal branches it executed. -/
structure MonitorResult where
  repo : Repo
  fired : List Outcome
  deriving DecidableEq, Repr

/-- The tail of the "end" branch (langflow.go 431-443): mark the task finished. -/
def markFinished (env : Env) (taskModel : Task) (repo : Repo) : MonitorResult :=
  let taskModel := { taskModel with Status := TaskStatus.TaskStatusFinished, FinishedAt := some env.now }
  { repo := (repo.Update taskModel).1, fired := [Outcome.endEvent] }

/-- The "end" branch (langflow.go 385-443). -/
def onEnd (env : Env) (taskModel : Task) (repo : Repo) : MonitorResult :=
  if taskModel.OutputFile ≠ "" then
    match findFileIDByName env.getFileList taskModel.OutputFile with
    | Except.error _ =>
      let taskModel := { taskModel with Status := TaskStatus.TaskStatusFailed }
      { repo := (repo.Update taskModel).1, fired := [Outcome.endEvent] }
    | Except.ok fileID =>
      let taskModel := { taskModel with OutputFileID := fileID }
      let upd := repo.Update taskModel
      if upd.2 then { repo := upd.1, fired := [Outcome.endEvent] }
      else markFinished env taskModel upd.1
  else markFinished env taskModel repo

/-- The "error" branch (langflow.go 445-466). -/
def onError (event : LangflowStreamEvent) (taskModel : Task) (repo : Repo) : MonitorResult :=
  let errorMsg :=
    match asString (event.Data.lookup "error") with
    | some data => data
    | none => "Workflow execution failed"
  let taskModel := { taskModel with ErrorMessage := errorMsg, Status := TaskStatus.TaskStatusFailed }
  { repo := (repo.Update taskModel).1, fired := [Outcome.errorEvent] }

/-- The branch for the closed event channel (langflow.go 359-375). -/
def onChannelClosed (taskModel : Task) (repo : Repo) : MonitorResult :=
  let taskModel := { taskModel with
    Status := TaskStatus.TaskStatusFailed,
    ErrorMessage := "Channel closed, stream ended but no end event received" }
  { repo := (repo.Update taskModel).1, fired := [Outcome.streamEnded] }

/-- The branch for a non-nil read error (langflow.go 474-494). -/
def onStreamErr (taskModel : Task) (repo : Repo) : MonitorResult :=
  let taskModel := { taskModel with
    Status := TaskStatus.TaskStatusFailed,
    ErrorMessage := "Error reading stream for task" }
  { repo := (repo.Update taskModel).1, fired := [Outcome.readError] }

/-- The timer branch (langflow.go 496-511). -/
def onTimeout (taskModel : Task) (repo : Repo) : MonitorResult :=
  let taskModel := { taskModel with
    Status := TaskStatus.TaskStatusFailed,
    ErrorMessage := "Workflow execution timeout" }
  { repo := (repo.Update taskModel).1, fired := [Outcome.timedOut] }

/-- The `for { select { ... } }` loop of the monitor (langflow.go 356-513) over the values
the `select` takes. An exhausted list means the loop is still waiting. -/
def monitorLoop (env : Env) (taskModel : Task) (repo : Repo) : List Signal → MonitorResult
  | [] => { repo := repo, fired := [] }
  | Signal.event event :: rest =>
    if event.Event = "end" then onEnd env taskModel repo
    else if event.Event = "error" then onError event taskModel repo
    else monitorLoop env taskModel repo rest
  | Signal.eventClosed :: _ => onChannelClosed taskModel repo
  | Signal.streamErr _ :: _ => onStreamErr taskModel repo
  | Signal.errorClosed :: rest => monitorLoop env taskModel repo rest
  | Signal.timeout :: _ => onTimeout taskModel repo

/-- The monitor `monitorWorkflowStatus`: load the task, then run the loop. -/
def monitorWorkflowStatus (env : Env) (repo : Repo) (taskID : Nat) (signals : List Signal) :
    MonitorResult :=
  match repo.GetById taskID with
  | (repo, none) => { repo := repo, fired := [] }
  | (repo, some taskModel) => monitorLoop env taskModel repo signals

/-! ## Starting a run (`langflowService.RunWorkflow`) -/

/-- The request body of `RunWorkflow` (langflow.go 106-131): `none` when the file slot
is not configured, in which case `RunWorkflow` returns an error. -/
def buildRunRequest (config : CustomConfig) (langflowFilePath finalFileName : String)
    (customPrompt : Option String) : Option LangflowRunRequest :=
  if config.FileComponentID ≠ "" then
    let tweaks : JsonMap :=
      mapSet (mapSet [] config.FileComponentID (JsonValue.object [("path", JsonValue.str langflowFilePath)]))
        config.SaveFileComponentID (JsonValue.object [("file_name", JsonValue.str finalFileName)])
    let tweaks : JsonMap :=
      match customPrompt with
      | some prompt =>
        if config.PromptComponentID ≠ "" then
          mapSet tweaks config.PromptComponentID (JsonValue.object [("template", JsonValue.str prompt)])
        else tweaks
      | none => tweaks
    some { InputType := "text", InputValue := "根据需求文档生成测试用例", OutputType := "text", Tweaks := tweaks }
  else none

/-- Result of `RunWorkflow`: the store afterwards, the returned error (`none` for nil), the
request body handed to `client.Do` if the request was sent, and whether the monitor
goroutine was started. -/
structure RunResult where
  repo : Repo
  err : Option String
  request : Option LangflowRunRequest
  monitorStarted : Bool

/-- The operation `RunWorkflow` (langflow.go 52-185). `json.Marshal` cannot fail on a body
made of strings and string-keyed maps, so that branch is not represented; the texts of
store errors are abbreviated. -/
def RunWorkflow (env : Env) (repo : Repo) (taskID : Nat) (_filePath downloadFileName : String)
    (customPrompt : Option String) : RunResult :=
  match env.uploadFile with
  | Except.error e =>
    { repo := repo, err := some ("failed to upload file: " ++ e), request := none, monitorStarted := false }
  | Except.ok (langflowFilePath, uploadFileID) =>
    let finalFileName := "testcase_" ++ toString env.timestamp
    let downloadFilePath := downloadFileName ++ "_" ++ toString env.timestamp
    match repo.GetById taskID with
    | (repo, none) =>
      { repo := repo, err := some "failed to get task", request := none, monitorStarted := false }
    | (repo, some updateTask) =>
      let updateTask := { updateTask with
        FilePath := langflowFilePath,
        UploadFileID := uploadFileID,
        OutputFile := finalFileName,
        DownloadFile := downloadFilePath }
      let upd := repo.Update updateTask
      if upd.2 then
        { repo := upd.1, err := some "failed to update task", request := none, monitorStarted := false }
      else
        match buildRunRequest env.config langflowFilePath finalFileName customPrompt with
        | none => { repo := upd.1, err := some "", request := none, monitorStarted := false }
        | some reqBody =>
          match env.newRequestErr with
          | some e =>
            { repo := upd.1, err := some ("failed to create request: " ++ e), request := none,
              monitorStarted := false }
          | none =>
            match env.runResponse with
            | Except.error e =>
              { repo := upd.1, err := some ("failed to send request: " ++ e), request := some reqBody,
                monitorStarted := false }
            | Except.ok (statusCode, responseBody) =>
              if statusCode ≠ 200 then
                { repo := upd.1,
                  err := some ("run workflow API error (status " ++ toString statusCode ++ "): " ++ responseBody),
                  request := some reqBody, monitorStarted := false }
              else
                { repo := upd.1, err := none, request := some reqBody, monitorStarted := true }

/-! ## Creating a task (`assemble.TaskCreateReq2Model`, `task.TaskCreate`) -/

/-- The conversion `TaskCreateReq2Model` (assemble/task.go 13-23). -/
def TaskCreateReq2Model (req : TaskCreateRequest) : Except String Task :=
  if req.DownloadFile = "" ∨ req.FilePath = "" then Except.error ErrParameterErrorCode
  else Except.ok {
    ID := 0,
    OriginalFilename := req.UploadFile,
    LocalFilePath := req.FilePath,
    FilePath := "",
    Status := TaskStatus.TaskStatusRunning,
    LangflowRunID := "",
    OutputFile := "",
    DownloadFile := req.DownloadFile,
    UploadFileID := "",
    OutputFileID := "",
    ErrorMessage := "",
    FinishedAt := none,
    CreatedAt := 0,
    UpdatedAt := 0 }

/-- Result of the synchronous part of `TaskCreate`: the store, the response, the returned
error, and the record `com` captured by the background goroutine when one is started. -/
structure TaskCreateResult where
  repo : Repo
  resp : Option TaskCreateResponse
  err : Option String
  spawned : Option Task
  deriving DecidableEq, Repr

/-- The synchronous part of `TaskCreate` (task.go 47-64 and 89-92). The text of the store
error inside the failure message is abbreviated. -/
def TaskCreate (repo : Repo) (req : Option TaskCreateRequest) : TaskCreateResult :=
  match req with
  | none => { repo := repo, resp := none, err := some ErrParameterErrorCode, spawned := none }
  | some req =>
    match TaskCreateReq2Model req with
    | Except.error e => { repo := repo, resp := none, err := some e, spawned := none }
    | Except.ok com =>
      match repo.Create com with
      | (repo, none) =>
        { repo := repo,
          resp := some { Code := ProcessErrorCode, Message := "保存任务记录失败: failed to create task" },
          err := some "保存任务记录失败: failed to create task", spawned := none }
      | (repo, some com) =>
        { repo := repo, resp := some { Code := 0, Message := "任务创建成功" }, err := none, spawned := some com }

/-- The background goroutine of `TaskCreate` (task.go 67-87): build the custom prompt, call
`RunWorkflow`, and on an error mark the captured record failed and save it.
Returns the result of `RunWorkflow` and the store after the goroutine. -/
def taskCreateBackground (env : Env) (repo : Repo) (req : TaskCreateRequest) (com : Task) :
    RunResult × Repo :=
  let customPrompt : Option String :=
    match req.TemplateID with
    | some _ =>
      match env.buildPrompt with
      | Except.ok prompt => some prompt
      | Except.error _ => none
    | none => none
  let run := RunWorkflow env repo com.ID com.LocalFilePath req.DownloadFile customPrompt
  match run.err with
  | some _ =>
    let com := { com with Status := TaskStatus.TaskStatusFailed }
    (run, (run.repo.Update com).1)
  | none => (run, run.repo)

/-- Result of a whole pipeline run. -/
structure PipelineResult where
  repo : Repo
  created : TaskCreateResult
  run : Option RunResult
  fired : List Outcome

/-- A whole run of the asynchronous pipeline: `TaskCreate`, then its background goroutine,
then the monitor goroutine when `RunWorkflow` started one. The background goroutine makes
no store call after a successful `RunWorkflow`, so running the monitor after it loses no
interleaving. -/
def runPipeline (env : Env) (repo : Repo) (req : TaskCreateRequest) (signals : List Signal) :
    PipelineResult :=
  let created := TaskCreate repo (some req)
  match created.spawned with
  | none => { repo := created.repo, created := created, run := none, fired := [] }
  | some com =>
    let bg := taskCreateBackground env created.repo req com
    if bg.1.monitorStarted then
      let m := monitorWorkflowStatus env bg.2 com.ID signals
      { repo := m.repo, created := created, run := some bg.1, fired := m.fired }
    else { repo := bg.2, created := created, run := some bg.1, fired := [] }

/-! ## Paths and the local disk (`path/filepath`, `os`) -/

/-- Split a path at every separator `/`; the result is never empty. -/
def splitSep : List Char → List (List Char)
  | [] => [[]]
  | c :: cs =>
    match splitSep cs with
    | [] => [[]]
    | e :: es => if c = '/' then [] :: e :: es else (c :: e) :: es

/-- One step of `filepath.Clean` over the path elements: `out` is the stack of kept
elements, last kept first. Empty and `.` elements are dropped; `..` removes the last kept
element when there is one that is not itself `..`, is dropped at the root, and is kept
otherwise. -/
def cleanStack (rooted : Bool) (out : List (List Char)) : List (List Char) → List (List Char)
  | [] => out
  | e :: es =>
    if e = [] ∨ e = ['.'] then cleanStack rooted out es
    else if e = ['.', '.'] then
      match out with
      | top :: below =>
        if top = ['.', '.'] then cleanStack rooted (e :: out) es
        else cleanStack rooted below es
      | [] => if rooted then cleanStack rooted out es else cleanStack rooted (e :: out) es
    else cleanStack rooted (e :: out) es

/-- Join path elements with single separators. -/
def joinSep : List (List Char) → List Char
  | [] => []
  | [e] => e
  | e :: es => e ++ '/' :: joinSep es

/-- The function `filepath.Clean` for `/`-separated paths, on characters. -/
def cleanChars (path : List Char) : List Char :=
  match path with
  | [] => ['.']
  | c :: _ =>
    let rooted : Bool := c = '/'
    let body := joinSep (cleanStack rooted [] (splitSep path)).reverse
    if rooted then '/' :: body
    else if body = [] then ['.'] else body

/-- The function `filepath.Clean` for `/`-separated paths. -/
def filepathClean (path : String) : String :=
  String.mk (cleanChars path.data)

/-- The call `filepath.Join(dir, name)`: empty leading elements are ignored, the rest is
joined with the separator and cleaned; two empty elements give the empty string. -/
def filepathJoin (dir name : String) : String :=
  if dir ≠ "" then filepathClean (dir ++ "/" ++ name)
  else if name ≠ "" then filepathClean name
  else ""

/-- The function `filepath.Base` for `/`-separated paths: the last element of the path,
trailing separators removed. -/
def filepathBase (path : String) : String :=
  match path.data with
  | [] => "."
  | _ =>
    match ((path.data.reverse.dropWhile (fun c => c = '/')).takeWhile (fun c => c ≠ '/')).reverse with
    | [] => "/"
    | cs => String.mk cs

/-- The directory that holds a cleaned path: the text before its last separator, `/` when
that separator is the first character, `.` when the path has no separator. -/
def parentDir (path : String) : String :=
  match path.data.reverse.dropWhile (fun c => c ≠ '/') with
  | [] => "."
  | _ :: rest => if rest = [] then "/" else String.mk rest.reverse

/-- The local disk as a map from path to content, with the directories known to exist
besides those that hold a file. The paths the operations below look at are regular files
or absent. -/
structure Disk where
  files : List (String × String)
  dirs : List String := []
  deriving DecidableEq, Repr

/-- The file content at a path, if a file is there. -/
def Disk.read (d : Disk) (path : String) : Option String :=
  d.files.lookup path

/-- The test `os.Stat(path)` returning no error: a file is there. -/
def Disk.stat (d : Disk) (path : String) : Bool :=
  (d.files.lookup path).isSome

/-- Does the directory with this cleaned path exist: the current directory, the root and a
path made of `..` elements always do; another directory does when it was created or holds
(directly or further down) a known directory or a file. -/
def Disk.dirExists (d : Disk) (path : String) : Bool :=
  path == "." || path == "/" || (splitSep path.data).all (fun e => e == ['.', '.']) ||
  d.dirs.any (fun q => q == path || (path.data ++ ['/']).isPrefixOf q.data) ||
  d.files.any (fun kv => (path.data ++ ['/']).isPrefixOf kv.1.data)

/-- The call `os.MkdirAll(path, perm)` returning no error: the directory exists afterwards. -/
def Disk.mkdirAll (d : Disk) (path : String) : Disk :=
  { d with dirs := filepathClean path :: d.dirs }

/-- Put content at a path, replacing what was there (`os.Create` followed by writes). -/
def Disk.write (d : Disk) (path content : String) : Disk :=
  { d with files := (path, content) :: d.files.filter (fun kv => kv.1 != path) }

/-- The call `os.Remove(path)`: `none` when no file is there. The directory that held the
file stays. -/
def Disk.remove (d : Disk) (path : String) : Option Disk :=
  if d.stat path then
    some { files := d.files.filter (fun kv => kv.1 != path), dirs := parentDir path :: d.dirs }
  else none

/-- The call `os.Rename(oldpath, newpath)`: `none` when no file is at `oldpath`, and when
the directory that is to hold `newpath` does not exist; a file at `newpath` is replaced. -/
def Disk.rename (d : Disk) (oldpath newpath : String) : Option Disk :=
  match d.read oldpath with
  | none => none
  | some content =>
    if oldpath = newpath then some d
    else if d.dirExists (parentDir newpath) then
      some (Disk.write
        { files := d.files.filter (fun kv => kv.1 != oldpath), dirs := parentDir oldpath :: d.dirs }
        newpath content)
    else none

/-! ## Fetching the artifact (`utils.DownloadFromResponse`, `DownloadWorkflowResult`,
`HandleWorkflowCompletion`, `task.GetDownloadFile`) -/

/-- What the engine and the operating system answer during one artifact download. -/
structure DownloadEnv where
  /-- Engine configuration, `s.config`. -/
  config : CustomConfig
  /-- The output directory, `s.fileConfig.OutputDir`. -/
  OutputDir : String
  /-- Error of `http.NewRequestWithContext` for the download request, if any. -/
  newRequestErr : Option String
  /-- Result of `s.client.Do`: HTTP status and body, or the transport error. -/
  response : Except String (Nat × String)
  /-- Error of `os.MkdirAll` on the output directory, if any. -/
  mkdirErr : Option String
  /-- Error of `os.Create` on the temporary file, if any. -/
  createErr : Option String
  /-- Failure of `io.Copy`, if any: how many characters of the body reached the file before
  the error, and the error text. -/
  copyErr : Option (Nat × String)

/-- Result of `utils.DownloadFromResponse`, `utils.DownloadResult`. -/
structure DownloadResult where
  OriginalName : String
  FilePath : String
  FileType : String
  Size : Nat
  deriving DecidableEq, Repr

/-- The function `utils.DownloadFromResponse` (utils/file.go 175-224): write the response
body to `outputFileName.xlsx` in the output directory. -/
def DownloadFromResponse (env : DownloadEnv) (disk : Disk) (outputDir outputFileName : String)
    (resp : String) : Disk × Except String DownloadResult :=
  match env.mkdirErr with
  | some e => (disk, Except.error ("failed to create output directory: " ++ e))
  | none =>
    let disk := disk.mkdirAll outputDir
    let fileName := outputFileName ++ ".xlsx"
    let filePath := filepathJoin outputDir fileName
    match env.createErr with
    | some e => (disk, Except.error ("failed to create output file: " ++ e))
    | none =>
      match env.copyErr with
      | some (written, e) =>
        (disk.write filePath (resp.take written), Except.error ("failed to write file content: " ++ e))
      | none =>
        (disk.write filePath resp,
          Except.ok { OriginalName := fileName, FilePath := filePath, FileType := "xlsx",
                      Size := resp.utf8ByteSize })

/-- Result of `DownloadWorkflowResult`: the disk afterwards, the returned path and error
(`none` for nil), the URLs requested from the engine, and the calls made to `os.Rename`. -/
structure WorkflowDownload where
  disk : Disk
  path : String
  err : Option String
  requests : List String
  renames : List (String × String)
  deriving DecidableEq, Repr

/-- The operation `DownloadWorkflowResult` (langflow.go 570-694): fetch the file by id into
the temporary name, then rename it to the final name, removing a file already there. -/
def DownloadWorkflowResult (env : DownloadEnv) (disk : Disk)
    (fileID tempFileName finalFileName : String) : WorkflowDownload :=
  let url := env.config.BaseURL ++ env.config.FileEndpoint ++ fileID
  match env.newRequestErr with
  | some e => { disk := disk, path := "", err := some e, requests := [], renames := [] }
  | none =>
    match env.response with
    | Except.error e => { disk := disk, path := "", err := some e, requests := [url], renames := [] }
    | Except.ok (statusCode, responseBody) =>
      if statusCode ≠ 200 then
        { disk := disk, path := "",
          err := some ("download error (status " ++ toString statusCode ++ "): " ++ responseBody),
          requests := [url], renames := [] }
      else
        match DownloadFromResponse env disk env.OutputDir tempFileName responseBody with
        | (disk, Except.error e) =>
          { disk := disk, path := "", err := some ("failed to download temp file: " ++ e),
            requests := [url], renames := [] }
        | (disk, Except.ok tempResult) =>
          let finalFileNameWithExt := finalFileName ++ ".xlsx"
          let finalFilePath := filepathJoin env.OutputDir finalFileNameWithExt
          let disk : Disk :=
            if disk.stat finalFilePath then
              match disk.remove finalFilePath with
              | some removed => removed
              | none => disk
            else disk
          match disk.rename tempResult.FilePath finalFilePath with
          | none =>
            let disk : Disk :=
              match disk.remove tempResult.FilePath with
              | some removed => removed
              | none => disk
            { disk := disk, path := "",
              err := some ("failed to rename file from " ++ tempResult.FilePath ++ " to " ++
                finalFilePath ++ ": no such file or directory"),
              requests := [url], renames := [(tempResult.FilePath, finalFilePath)] }
          | some renamed =>
            { disk := renamed, path := finalFilePath, err := none, requests := [url],
              renames := [(tempResult.FilePath, finalFilePath)] }

/-- Result of `HandleWorkflowCompletion`. -/
structure CompletionResult where
  repo : Repo
  disk : Disk
  err : Option String
  requests : List String
  deriving DecidableEq, Repr

/-- The operation `HandleWorkflowCompletion` (langflow.go 517-565): download the result of a
task and store the local path in the field `OutputFile`; a failure of that update is only
logged. -/
def HandleWorkflowCompletion (env : DownloadEnv) (repo : Repo) (disk : Disk) (taskID : Nat) :
    CompletionResult :=
  match repo.GetById taskID with
  | (repo, none) =>
    { repo := repo, disk := disk, err := some "failed to get task record: failed to get task",
      requests := [] }
  | (repo, some t) =>
    let dl := DownloadWorkflowResult env disk t.OutputFileID t.OutputFile t.DownloadFile
    match dl.err with
    | some e =>
      { repo := repo, disk := dl.disk, err := some ("failed to download result: " ++ e),
        requests := dl.requests }
    | none =>
      let t := { t with OutputFile := dl.path }
      { repo := (repo.Update t).1, disk := dl.disk, err := none, requests := dl.requests }

/-- The numeric value of a status, as `models/task.go` declares it. -/
def TaskStatus.code : TaskStatus → Nat
  | TaskStatus.TaskStatusRunning => 0
  | TaskStatus.TaskStatusFinished => 1
  | TaskStatus.TaskStatusFailed => 2

/-- The call `strconv.ParseUint(s, 10, 64)`: `none` when it returns an error. -/
def parseUint (s : String) : Option Nat :=
  if s.data = [] then none
  else if s.data.all Char.isDigit then
    let n := s.data.foldl (fun acc c => acc * 10 + (c.toNat - '0'.toNat)) 0
    if n < 2 ^ 64 then some n else none
  else none

/-- Error of `GetDownloadFile` for a task that is still running. -/
def errTaskRunning : String := "任务还在运行中，请稍后再试"

/-- Error of `GetDownloadFile` for a task that is neither running nor finished; the status
is formatted with the verb `%s`, for which an integer type has no text. -/
def errStatusAbnormal (status : TaskStatus) : String :=
  "任务状态异常: %!s(models.TaskStatus=" ++ toString status.code ++ ")"

/-- Error of `GetDownloadFile` for a finished task without an output file id. -/
def errNoFileID : String := "文件ID不存在，无法下载"

/-- Result of `GetDownloadFile`: the store and the disk afterwards, the returned path, file
name and error (`none` for nil), and the URLs requested from the engine. -/
structure DownloadFileResult where
  repo : Repo
  disk : Disk
  filePath : String
  fileName : String
  err : Option String
  requests : List String
  deriving DecidableEq, Repr

/-- The operation `GetDownloadFile` (task.go 216-279). The texts of the parse error and of
the store error are abbreviated; a failure of the final update is only logged. -/
def GetDownloadFile (env : DownloadEnv) (repo : Repo) (disk : Disk) (taskID : String) :
    DownloadFileResult :=
  match parseUint taskID with
  | none =>
    { repo := repo, disk := disk, filePath := "", fileName := "",
      err := some "无效的任务ID格式: invalid syntax", requests := [] }
  | some taskIDUint =>
    match repo.GetById taskIDUint with
    | (repo, none) =>
      { repo := repo, disk := disk, filePath := "", fileName := "",
        err := some "获取任务记录失败: failed to get task", requests := [] }
    | (repo, some taskModel) =>
      if taskModel.Status ≠ TaskStatus.TaskStatusFinished then
        if taskModel.Status = TaskStatus.TaskStatusRunning then
          { repo := repo, disk := disk, filePath := "", fileName := "",
            err := some errTaskRunning, requests := [] }
        else
          { repo := repo, disk := disk, filePath := "", fileName := "",
            err := some (errStatusAbnormal taskModel.Status), requests := [] }
      else if taskModel.OutputFileID = "" then
        { repo := repo, disk := disk, filePath := "", fileName := "",
          err := some errNoFileID, requests := [] }
      else if taskModel.OutputFile ≠ "" ∧ disk.stat taskModel.OutputFile = true then
        { repo := repo, disk := disk, filePath := taskModel.OutputFile,
          fileName := filepathBase taskModel.OutputFile, err := none, requests := [] }
      else
        let dl := DownloadWorkflowResult env disk taskModel.OutputFileID taskModel.OutputFile
          taskModel.DownloadFile
        match dl.err with
        | some e =>
          { repo := repo, disk := dl.disk, filePath := "", fileName := "",
            err := some ("下载文件失败: " ++ e), requests := dl.requests }
        | none =>
          let taskModel := { taskModel with OutputFile := dl.path }
          { repo := (repo.Update taskModel).1, disk := dl.disk, filePath := dl.path,
            fileName := filepathBase dl.path, err := none, requests := dl.requests }

/-! ## Stream reader (the reader goroutine of `monitorWorkflowStatus`) -/

/-- The predicate `unicode.IsSpace`, which `strings.TrimSpace` uses. -/
def isSpace (c : Char) : Bool :=
  (9 ≤ c.toNat && c.toNat ≤ 13) || c.toNat = 32 || c.toNat = 0x85 || c.toNat = 0xA0 ||
    c.toNat = 0x1680 || (0x2000 ≤ c.toNat && c.toNat ≤ 0x200A) || c.toNat = 0x2028 ||
    c.toNat = 0x2029 || c.toNat = 0x202F || c.toNat = 0x205F || c.toNat = 0x3000

/-- The function `strings.TrimSpace`. -/
def trimSpace (s : String) : String :=
  String.mk ((s.data.dropWhile isSpace).reverse.dropWhile isSpace).reverse

/-- The scan loop of the reader goroutine (langflow.go 306-341) over the lines the scanner
yields, with `decode` standing for `json.Unmarshal` into `dto.LangflowStreamEvent`
(`none` when it returns an error): the events sent on `eventChan`, in order. -/
def readerLoop (decode : String → Option LangflowStreamEvent) :
    List String → List LangflowStreamEvent
  | [] => []
  | text :: rest =>
    let line := trimSpace text
    if line = "" then readerLoop decode rest
    else
      match decode line with
      | none => readerLoop decode rest
      | some event => event :: readerLoop decode rest

/-- The reader goroutine (langflow.go 303-353) as a whole: the events of the scan loop and
the value of `scanner.Err()`. -/
def readerStream (decode : String → Option LangflowStreamEvent) (lines : List String)
    (scanErr : Option String) : Stream :=
  { events := readerLoop decode lines, scanErr := scanErr }

/-! ## Listing tasks (`assemble.TaskList2Query`, `task.TaskList`) -/

/-- Request of the task listing, `dto.TaskListRequest`; `Page` and `PageSize` are Go `int`s. -/
structure TaskListRequest where
  Page : Int
  PageSize : Int
  TaskID : Nat
  Status : String
  OriginalFilename : String
  deriving DecidableEq, Repr

/-- The store query, `repo.TaskQuery`. -/
structure TaskQuery where
  Page : Int
  PageSize : Int
  TaskID : Nat
  Status : String
  OriginalFilename : String
  deriving DecidableEq, Repr

/-- The conversion `TaskList2Query` (assemble/task.go 25-41): the two `if` statements rewrite
the paging fields of the request, then the query is built from the request. -/
def TaskList2Query (req : TaskListRequest) : TaskQuery :=
  let req := if req.Page < 1 then { req with Page := 1 } else req
  let req := if req.PageSize < 1 ∨ req.PageSize > 100 then { req with PageSize := 20 } else req
  { TaskID := req.TaskID,
    Status := req.Status,
    OriginalFilename := req.OriginalFilename,
    Page := req.Page,
    PageSize := req.PageSize }

/-- The value a 64-bit signed integer holds after an arithmetic result `x`: Go integer
arithmetic wraps around on overflow. -/
def wrapInt64 (x : Int) : Int :=
  (x + 2 ^ 63) % 2 ^ 64 - 2 ^ 63

/-- The quotient `a / b` of two `int64` values: truncated toward zero and wrapped; `none` is
the run-time panic on a zero divisor. -/
def divInt64 (a b : Int) : Option Int :=
  if b = 0 then none else some (wrapInt64 (Int.tdiv a b))

/-- The `Data` part of `dto.TaskListResponse`. The items are the listed records; their
field-wise formatting into `dto.TaskListItem` is not represented. -/
structure TaskListData where
  List : List Task
  Total : Int
  Page : Int
  PageSize : Int
  TotalPages : Int
  deriving DecidableEq, Repr

/-- The response `dto.TaskListResponse`. -/
structure TaskListResponse where
  Code : Nat
  Message : String
  Data : TaskListData
  deriving DecidableEq, Repr

/-- The operation `TaskList` (task.go 95-136). `list` stands for `repo.List`: the page of
records and the `int64` count of all matching records, or the error text. The outer `none`
is a run-time panic of the division. -/
def TaskList (list : TaskQuery → Except String (List Task × Int)) (req : Option TaskListRequest) :
    Option (Except String TaskListResponse) :=
  match req with
  | none => some (Except.error ErrParameterErrorCode)
  | some req =>
    let query := TaskList2Query req
    match list query with
    | Except.error e => some (Except.error ("任务列表查询失败: " ++ e))
    | Except.ok (tasks, total) =>
      let pageSize := if query.PageSize ≤ 0 then 20 else query.PageSize
      match divInt64 (wrapInt64 (wrapInt64 (total + pageSize) - 1)) pageSize with
      | none => none
      | some totalPages =>
        some (Except.ok
          { Code := 0,
            Message := "查询成功",
            Data :=
              { List := tasks,
                Total := total,
                Page := query.Page,
                PageSize := pageSize,
                TotalPages := totalPages } })

/-! ## Deleting a task (`task.TaskDelete`) -/

/-- The call `repo.Delete`: the row with this id is removed; the flag tells whether the call
returned an error. -/
def Repo.Delete (r : Repo) (id : Nat) : Repo × Bool :=
  let (failed, r) := r.nextFault
  if failed then (r, true)
  else
    match r.row with
    | some task => if task.ID = id then ({ r with row := none }, false) else (r, false)
    | none => (r, false)

/-- Request of task deletion, `dto.TaskDeleteRequest`. -/
structure TaskDeleteRequest where
  TaskID : Nat
  deriving DecidableEq, Repr

/-- Response of task deletion, `dto.TaskDeleteResponse`. -/
structure TaskDeleteResponse where
  Code : Nat
  Message : String
  deriving DecidableEq, Repr

/-- Result of `TaskDelete`: the store and the disk afterwards, the response and the returned
error, and the file ids handed to `langflowService.DeleteFile`, in call order. -/
structure TaskDeleteResult where
  repo : Repo
  disk : Disk
  resp : Option TaskDeleteResponse
  err : Option String
  remoteDeletes : List String
  deriving DecidableEq, Repr

/-- The operation `TaskDelete` (task.go 138-192). Errors of `os.Remove` and of `DeleteFile`
are only logged; the texts of store errors are abbreviated. -/
def TaskDelete (repo : Repo) (disk : Disk) (req : Option TaskDeleteRequest) : TaskDeleteResult :=
  match req with
  | none =>
    { repo := repo, disk := disk, resp := none, err := some ErrParameterErrorCode, remoteDeletes := [] }
  | some req =>
    if req.TaskID = 0 then
      { repo := repo, disk := disk, resp := none, err := some ErrParameterErrorCode, remoteDeletes := [] }
    else
      match repo.GetById req.TaskID with
      | (repo, none) =>
        { repo := repo, disk := disk,
          resp := some { Code := ProcessErrorCode, Message := "获取任务信息失败: failed to get task" },
          err := some "failed to get task", remoteDeletes := [] }
      | (repo, some taskModel) =>
        let disk : Disk :=
          if taskModel.LocalFilePath ≠ "" then
            match disk.remove taskModel.LocalFilePath with
            | some removed => removed
            | none => disk
          else disk
        let disk : Disk :=
          if taskModel.OutputFile ≠ "" then
            match disk.remove taskModel.OutputFile with
            | some removed => removed
            | none => disk
          else disk
        let uploadDeletes : List String :=
          if taskModel.UploadFileID ≠ "" then [taskModel.UploadFileID] else []
        let outputDeletes : List String :=
          if taskModel.OutputFileID ≠ "" then [taskModel.OutputFileID] else []
        match repo.Delete req.TaskID with
        | (repo, true) =>
          { repo := repo, disk := disk,
            resp := some { Code := ProcessErrorCode, Message := "删除任务失败: failed to delete task" },
            err := some "failed to delete task", remoteDeletes := uploadDeletes ++ outputDeletes }
        | (repo, false) =>
          { repo := repo, disk := disk, resp := some { Code := 0, Message := "删除成功" },
            err := none, remoteDeletes := uploadDeletes ++ outputDeletes }

/-! ## The line scanner of the reader (`bufio.Scanner` with `bufio.ScanLines`) -/

/-- The constant `bufio.MaxScanTokenSize`, the size the buffer of a scanner made by
`bufio.NewScanner` can grow to. -/
def MaxScanTokenSize : Nat := 64 * 1024

/-- The text of `bufio.ErrTooLong`. -/
def ErrTooLong : String := "bufio.Scanner: token too long"

/-- Cut a body at every newline: the lines before each newline, and the text after the last
newline when it is not empty. `cur` holds, reversed, the characters of the line being read. -/
def rawLinesAux (cur : List Char) : List Char → List (List Char)
  | [] => if cur = [] then [] else [cur.reverse]
  | c :: cs => if c = '\n' then cur.reverse :: rawLinesAux [] cs else rawLinesAux (c :: cur) cs

/-- The helper `dropCR` of `bufio.ScanLines`: a trailing carriage return is dropped. -/
def dropCR (line : List Char) : List Char :=
  match line.reverse with
  | '\r' :: rest => rest.reverse
  | _ => line

/-- What `scanner.Scan` and `scanner.Text` give over the lines of a body, and the value of
`scanner.Err()` afterwards. A line is found only when it lies in the buffer together with
its newline (or with the end of the body); the buffer grows up to `MaxScanTokenSize` bytes,
and when it is full without holding a whole line, `Scan` stops with `ErrTooLong`. -/
def scanTokens : List (List Char) → List String × Option String
  | [] => ([], none)
  | raw :: rest =>
    if MaxScanTokenSize ≤ (String.mk raw).utf8ByteSize then ([], some ErrTooLong)
    else ((String.mk (dropCR raw)) :: (scanTokens rest).1, (scanTokens rest).2)

/-- The scanner of the reader goroutine over a response body that is read to its end. -/
def scanLines (body : String) : List String × Option String :=
  scanTokens (rawLinesAux [] body.data)

/-- The reader goroutine (langflow.go 303-353) over a response body: scan the lines, decode
them, and report the scanner's error. -/
def readBody (decode : String → Option LangflowStreamEvent) (body : String) : Stream :=
  readerStream decode (scanLines body).1 (scanLines body).2

/-! ## Regular expressions (`regexp`, as far as the patterns of `case_template.go` need it) -/

/-- The single-character items of a pattern. -/
inductive CharClass where
  /-- A literal character. -/
  | lit (c : Char)
  /-- The class `\d`: an ASCII digit. -/
  | digit
  /-- The class `\s`: tab, newline, form feed, carriage return, space. -/
  | space
  /-- The dot without the flag `s`: every character but the newline. -/
  | dot
  /-- The dot under the flag `(?s)`: every character. -/
  | dotAll
  /-- A bracket expression listing its characters. -/
  | oneOf (cs : List Char)

/-- Does a character belong to the class. -/
def CharClass.test : CharClass → Char → Bool
  | CharClass.lit c, a => a == c
  | CharClass.digit, a => '0' ≤ a && a ≤ '9'
  | CharClass.space, a => a == '\t' || a == '\n' || a == '\x0c' || a == '\r' || a == ' '
  | CharClass.dot, a => a != '\n'
  | CharClass.dotAll, _ => true
  | CharClass.oneOf cs, a => cs.contains a

/-- Patterns: a class, a sequence, the repetitions `*` and `+` (greedy or lazy), and a
capturing group with its number. -/
inductive Regex where
  | cls (k : CharClass)
  | seq (a b : Regex)
  | star (greedy : Bool) (r : Regex)
  | plus (greedy : Bool) (r : Regex)
  | group (index : Nat) (r : Regex)

/-- The pattern for a list of items in sequence. -/
def Regex.cat (first : Regex) : List Regex → Regex
  | [] => first
  | r :: rs => Regex.seq first (Regex.cat r rs)

/-- The text captured by each group so far, by group number. -/
abbrev Caps := List (Nat × List Char)

/-- Record the text of a group, replacing an earlier capture of the same group. -/
def setCap (caps : Caps) (index : Nat) (text : List Char) : Caps :=
  (index, text) :: caps.filter (fun kv => kv.1 != index)

/-- A way a pattern can match at the start of an input: the rest of the input and the
captures. -/
abbrev MatchState := List Char × Caps

/-- The repetition of a step, in the order a backtracking matcher tries it: a greedy loop
tries one more round before stopping, a lazy loop stops before trying one more round. Only
rounds that consume input are repeated. -/
def starLoop (step : List Char → Caps → List MatchState) (greedy : Bool) :
    Nat → List Char → Caps → List MatchState
  | 0, s, c => [(s, c)]
  | fuel + 1, s, c =>
    if greedy then
      ((step s c).filter (fun m => m.1.length < s.length)).flatMap
        (fun m => starLoop step greedy fuel m.1 m.2) ++ [(s, c)]
    else
      (s, c) :: ((step s c).filter (fun m => m.1.length < s.length)).flatMap
        (fun m => starLoop step greedy fuel m.1 m.2)

/-- All the ways a pattern matches at the start of an input, in the order of preference of
the leftmost-first rule of `regexp` (the order in which a backtracking matcher finds them). -/
def Regex.run : Regex → List Char → Caps → List MatchState
  | Regex.cls k, s, c =>
    match s with
    | [] => []
    | a :: rest => if k.test a then [(rest, c)] else []
  | Regex.seq a b, s, c => (a.run s c).flatMap (fun m => b.run m.1 m.2)
  | Regex.star greedy r, s, c => starLoop r.run greedy s.length s c
  | Regex.plus greedy r, s, c =>
    (r.run s c).flatMap (fun m => starLoop r.run greedy m.1.length m.1 m.2)
  | Regex.group index r, s, c =>
    (r.run s c).map (fun m => (m.1, setCap m.2 index (s.take (s.length - m.1.length))))

/-- The leftmost match in an input, and among the matches starting there the preferred one:
the text skipped before the match, the rest of the input after it, and the captures. -/
def Regex.search (re : Regex) : List Char → Option (List Char × MatchState)
  | [] => (re.run [] []).head?.map (fun m => ([], m))
  | a :: rest =>
    match (re.run (a :: rest) []).head? with
    | some m => some ([], m)
    | none => (re.search rest).map (fun r => (a :: r.1, r.2))

/-- The texts of a match as `FindStringSubmatch` returns them: the whole match, then the
groups 1 to `numSubexp`; a group that took no part gives the empty text. -/
def submatches (numSubexp : Nat) (whole : List Char) (caps : Caps) : List String :=
  String.mk whole ::
    (List.range numSubexp).map (fun i => String.mk ((caps.lookup (i + 1)).getD []))

/-- The loop of `Regexp.allMatches` behind `FindAllStringSubmatch(s, -1)`, on the input that
remains from the search position on. `prevEndedHere` tells that the previous match ended at
the search position: an empty match there is not delivered. After a match that is not empty
the search goes on at its end; after an empty match at the search position it goes on one
character further. -/
def findAllLoop (re : Regex) (numSubexp : Nat) :
    Nat → List Char → Bool → List (List String)
  | 0, _, _ => []
  | fuel + 1, s, prevEndedHere =>
    match re.search s with
    | none => []
    | some (before, rest, caps) =>
      let whole := (s.drop before.length).take (s.length - before.length - rest.length)
      if rest.length = s.length then
        let out := if prevEndedHere then [] else [submatches numSubexp whole caps]
        match s with
        | [] => out
        | _ :: next => out ++ findAllLoop re numSubexp fuel next false
      else submatches numSubexp whole caps :: findAllLoop re numSubexp fuel rest true

/-- The call `re.FindAllStringSubmatch(s, -1)`. -/
def FindAllStringSubmatch (re : Regex) (numSubexp : Nat) (s : String) : List (List String) :=
  findAllLoop re numSubexp (s.length + 1) s.data false

/-! ## Case templates (`internal/service/case_template.go`) -/

/-- A field of a case template, `dto.CaseTemplateField`. -/
structure CaseTemplateField where
  Name : String
  Description : String
  deriving DecidableEq, Repr

/-- The function `strings.Join`. -/
def stringsJoin : List String → String → String
  | [], _ => ""
  | [a], _ => a
  | a :: b :: rest, sep => a ++ sep ++ stringsJoin (b :: rest) sep

/-- The lines `buildTemplateContent` appends for the fields from index `i` on:
`fmt.Sprintf("%d. **%s**：%s", i+1, field.Name, field.Description)`. -/
def fieldLines (i : Nat) : List CaseTemplateField → List String
  | [] => []
  | field :: rest =>
    (toString (i + 1) ++ ". **" ++ field.Name ++ "**：" ++ field.Description) :: fieldLines (i + 1) rest

/-- The function `buildTemplateContent` (case_template.go 103-109). -/
def buildTemplateContent (fields : List CaseTemplateField) : String :=
  stringsJoin (fieldLines 0 fields) "\n"

/-- The pattern of `parseTemplateContent`, `\d+\.\s+\*\*(.+?)\*\*[：:]\s*(.+)`. -/
def templateFieldRe : Regex :=
  Regex.cat (Regex.plus true (Regex.cls CharClass.digit))
    [Regex.cls (CharClass.lit '.'),
     Regex.plus true (Regex.cls CharClass.space),
     Regex.cls (CharClass.lit '*'),
     Regex.cls (CharClass.lit '*'),
     Regex.group 1 (Regex.plus false (Regex.cls CharClass.dot)),
     Regex.cls (CharClass.lit '*'),
     Regex.cls (CharClass.lit '*'),
     Regex.cls (CharClass.oneOf ['：', ':']),
     Regex.star true (Regex.cls CharClass.space),
     Regex.group 2 (Regex.plus true (Regex.cls CharClass.dot))]

/-- The body of the loop of `parseTemplateContent`: a match with three texts gives a field. -/
def fieldOfMatch : List String → Option CaseTemplateField
  | [_, name, description] => some { Name := name, Description := description }
  | _ => none

/-- The function `parseTemplateContent` (case_template.go 111-124). -/
def parseTemplateContent (content : String) : List CaseTemplateField :=
  (FindAllStringSubmatch templateFieldRe 2 content).filterMap fieldOfMatch

/-- A stored case template, `models.CaseTemplate`. -/
structure CaseTemplate where
  ID : Nat
  Name : String
  Content : String
  IsDefault : Bool
  IsSystem : Bool
  CreatedAt : Nat
  UpdatedAt : Nat
  deriving DecidableEq, Repr

/-- Request of template creation, `dto.CaseTemplateCreateRequest`. -/
structure CaseTemplateCreateRequest where
  Name : String
  Fields : List CaseTemplateField
  deriving DecidableEq, Repr

/-- An entry of the template listing, `dto.CaseTemplateItem`; the two times are carried as
they are stored, their formatting is not represented. -/
structure CaseTemplateItem where
  ID : Nat
  Name : String
  Fields : List CaseTemplateField
  IsDefault : Bool
  IsSystem : Bool
  CreatedAt : Nat
  UpdatedAt : Nat
  deriving DecidableEq, Repr

/-- The record `caseTemplateService.Create` hands to `repo.Create` (case_template.go 39-46);
the store assigns the id and the times. -/
def createTemplate (req : CaseTemplateCreateRequest) : CaseTemplate :=
  { ID := 0, Name := req.Name, Content := buildTemplateContent req.Fields, IsDefault := false,
    IsSystem := false, CreatedAt := 0, UpdatedAt := 0 }

/-- The item `caseTemplateService.List` builds for a stored template (case_template.go
78-90). -/
def listItem (t : CaseTemplate) : CaseTemplateItem :=
  { ID := t.ID, Name := t.Name, Fields := parseTemplateContent t.Content, IsDefault := t.IsDefault,
    IsSystem := t.IsSystem, CreatedAt := t.CreatedAt, UpdatedAt := t.UpdatedAt }

/-- The test `unicode.IsLetter(r) || unicode.IsDigit(r) || r == '_'` of `regexp.extract`.
Below U+0080 the letters and digits of Unicode are the ASCII ones; `table` stands for the
Unicode tables on the other characters. -/
def isNameRune (table : Char → Bool) (c : Char) : Bool :=
  if c.toNat < 128 then c.isAlphanum || c == '_' else table c

/-- The number a group name stands for in `regexp.extract`: `none` (the value -1 there) when
the name is not made of ASCII digits, is too long, or has a leading zero. -/
def groupNumber (name : List Char) : Option Nat :=
  let num := name.foldl
    (fun acc ch =>
      match acc with
      | none => none
      | some n =>
        if ch < '0' ∨ '9' < ch ∨ 100000000 ≤ n then none
        else some (n * 10 + (ch.toNat - '0'.toNat)))
    (some 0)
  if name.head? = some '0' ∧ 1 < name.length then none else num

/-- The function `extract` of `regexp`: the name at the start of the text after a `$`, bare
or in braces, its number, and the text after it; `none` when there is no well-formed name. -/
def extract (table : Char → Bool) (str : List Char) : Option (List Char × Option Nat × List Char) :=
  match str with
  | [] => none
  | first :: _ =>
    let brace := first == '\x7b'
    let str := if brace then str.tail else str
    let name := str.takeWhile (isNameRune table)
    let after := str.dropWhile (isNameRune table)
    if name = [] then none
    else if brace then
      match after with
      | '\x7d' :: rest => some (name, groupNumber name, rest)
      | _ => none
    else some (name, groupNumber name, after)

/-- The text of a numbered group of a match: the whole match for 0, nothing for a number
above the number of groups or a group that took no part. -/
def groupText (numSubexp : Nat) (whole : List Char) (caps : Caps) (num : Nat) : List Char :=
  if num = 0 then whole
  else if num ≤ numSubexp then (caps.lookup num).getD []
  else []

/-- The text of a named group of a match: the first group with that name that took part. -/
def namedGroupText (subexpNames : List String) (whole : List Char) (caps : Caps)
    (name : List Char) : List Char :=
  match subexpNames.enum.find? (fun p =>
      p.2 == String.mk name && (p.1 == 0 || (caps.lookup p.1).isSome)) with
  | some p => if p.1 = 0 then whole else (caps.lookup p.1).getD []
  | none => []

/-- The function `Regexp.expand`: copy the template, replacing `$$` by `$` and `$name` or
`$\x7bname\x7d` by the text of that group; a `$` without a well-formed name is copied. -/
def expand (table : Char → Bool) (numSubexp : Nat) (subexpNames : List String)
    (whole : List Char) (caps : Caps) : Nat → List Char → List Char
  | 0, template => template
  | fuel + 1, template =>
    if '$' ∈ template then
      let before := template.takeWhile (fun ch => ch != '$')
      let after := (template.dropWhile (fun ch => ch != '$')).tail
      match after with
      | '$' :: rest => before ++ '$' :: expand table numSubexp subexpNames whole caps fuel rest
      | _ =>
        match extract table after with
        | none => before ++ '$' :: expand table numSubexp subexpNames whole caps fuel after
        | some (name, num, rest) =>
          before ++
            (match num with
             | some n => groupText numSubexp whole caps n
             | none => namedGroupText subexpNames whole caps name) ++
            expand table numSubexp subexpNames whole caps fuel rest
    else template

/-- The loop of `Regexp.replaceAll` behind `ReplaceAllString`, with positions counted in
characters: copy the text between the matches, put the expanded replacement for every match
(but not for an empty match right after another match), and go on after the match, at least
one character further. -/
def replaceAllLoop (re : Regex) (src : List Char) (repl : List Char → Caps → List Char) :
    Nat → Nat → Nat → List Char → List Char
  | 0, lastMatchEnd, _, buf => buf ++ src.drop lastMatchEnd
  | fuel + 1, lastMatchEnd, searchPos, buf =>
    if src.length < searchPos then buf ++ src.drop lastMatchEnd
    else
      match re.search (src.drop searchPos) with
      | none => buf ++ src.drop lastMatchEnd
      | some (before, rest, caps) =>
        let a0 := searchPos + before.length
        let a1 := src.length - rest.length
        let buf := buf ++ (src.drop lastMatchEnd).take (a0 - lastMatchEnd)
        let buf :=
          if lastMatchEnd < a1 ∨ a0 = 0 then buf ++ repl ((src.drop a0).take (a1 - a0)) caps
          else buf
        replaceAllLoop re src repl fuel a1 (if a1 < searchPos + 1 then searchPos + 1 else a1) buf

/-- The call `re.ReplaceAllString(src, repl)`. -/
def ReplaceAllString (re : Regex) (numSubexp : Nat) (subexpNames : List String)
    (table : Char → Bool) (src repl : String) : String :=
  String.mk (replaceAllLoop re src.data
    (fun whole caps => expand table numSubexp subexpNames whole caps (repl.length + 1) repl.data)
    (src.length + 2) 0 0 [])

/-- A pattern for a literal text followed by further items. -/
def Regex.text (first : Char) (more : String) (items : List Regex) : Regex :=
  Regex.cat (Regex.cls (CharClass.lit first))
    (more.data.map (fun ch => Regex.cls (CharClass.lit ch)) ++ items)

/-- The pattern of `BuildPromptWithTemplate`,
`(?s)(测试用例表格数据中每个测试用例必须且仅包含以下字段：\s*\n\n)(?:\d+\.\s+\*\*.*?\*\*：.*?\n)+`:
group 1 is the section header with the blank line after it, the rest is the numbered list. -/
def promptSectionRe : Regex :=
  Regex.seq
    (Regex.group 1
      (Regex.text '测' "试用例表格数据中每个测试用例必须且仅包含以下字段："
        [Regex.star true (Regex.cls CharClass.space),
         Regex.cls (CharClass.lit '\n'),
         Regex.cls (CharClass.lit '\n')]))
    (Regex.plus true
      (Regex.cat (Regex.plus true (Regex.cls CharClass.digit))
        [Regex.cls (CharClass.lit '.'),
         Regex.plus true (Regex.cls CharClass.space),
         Regex.cls (CharClass.lit '*'),
         Regex.cls (CharClass.lit '*'),
         Regex.star false (Regex.cls CharClass.dotAll),
         Regex.cls (CharClass.lit '*'),
         Regex.cls (CharClass.lit '*'),
         Regex.cls (CharClass.lit '：'),
         Regex.star false (Regex.cls CharClass.dotAll),
         Regex.cls (CharClass.lit '\n')]))

/-- The operation `BuildPromptWithTemplate` (case_template.go 168-195). `baseContent` is the
result of reading the base prompt file, `getByID` and `getDefault` stand for the template
store; the texts of their errors are passed on. -/
def BuildPromptWithTemplate (table : Char → Bool) (baseContent : Except String String)
    (getByID : Nat → Except String CaseTemplate) (getDefault : Except String CaseTemplate)
    (templateID : Option Nat) : Except String String :=
  match baseContent with
  | Except.error e => Except.error ("读取基础 prompt 失败: " ++ e)
  | Except.ok baseContent =>
    let found : Except String CaseTemplate :=
      match templateID with
      | some id =>
        match getByID id with
        | Except.error e => Except.error ("获取模板失败: " ++ e)
        | Except.ok template => Except.ok template
      | none =>
        match getDefault with
        | Except.error e => Except.error ("获取默认模板失败: " ++ e)
        | Except.ok template => Except.ok template
    match found with
    | Except.error e => Except.error e
    | Except.ok template =>
      Except.ok (ReplaceAllString promptSectionRe 1 ["", ""] table baseContent
        ("$\x7b1\x7d" ++ template.Content ++ "\n"))

/-! ## Vocabulary of the statements -/

/-- The event kinds with a branch of their own in the switch of the monitor loop. -/
def isTerminal (e : LangflowStreamEvent) : Bool :=
  e.Event == "end" || e.Event == "error"

/-- A received value on which the loop goes round again: an event of another kind, or the
nil value of the closed error channel. -/
def Signal.isIdle : Signal → Bool
  | Signal.event e => !isTerminal e
  | Signal.errorClosed => true
  | _ => false

/-- A received value that is an event of a kind other than "end" and "error". -/
def Signal.isInformational : Signal → Bool
  | Signal.event e => !isTerminal e
  | _ => false

/-- Status values that end the life of a task. -/
def TaskStatus.isFinal : TaskStatus → Bool
  | TaskStatus.TaskStatusRunning => false
  | _ => true

/-! ## Sample data -/

/-- A configuration with the three slots set. -/
def sampleConfig : CustomConfig :=
  { BaseURL := "http://engine", RunEndpoint := "/api/v1/run/", FileEndpoint := "/api/v2/files/",
    FlowID := "flow", APIKey := "", FileComponentID := "File-1", SaveFileComponentID := "Save-1",
    PromptComponentID := "Prompt-1" }

/-- An engine that accepts the upload and the run and lists the produced file. -/
def sampleEnv : Env :=
  { config := sampleConfig,
    uploadFile := Except.ok ("engine/report.docx", "f1"),
    timestamp := 1,
    newRequestErr := none,
    runResponse := Except.ok (200, ""),
    getFileList := Except.ok [
      { ID := "f0", Name := "other", Path := "engine/other", Size := 1, Provider := none },
      { ID := "f2neq1", Name := "testcase_1", Path := "engine/testcase_1", Size := 3, Provider := none },
      { ID := "f3", Name := "testcase_1", Path := "engine/copy", Size := 3, Provider := none }],
    now := 99,
    buildPrompt := Except.error "no template" }

/-- A running task as `RunWorkflow` leaves it before the monitor starts. -/
def sampleTask : Task :=
  { ID := 3, OriginalFilename := "report.docx", LocalFilePath := "uploads/report.docx",
    FilePath := "engine/report.docx", Status := TaskStatus.TaskStatusRunning, LangflowRunID := "",
    OutputFile := "testcase_1", DownloadFile := "cases_1", UploadFileID := "f1", OutputFileID := "",
    ErrorMessage := "", FinishedAt := none, CreatedAt := 0, UpdatedAt := 0 }

/-- A store holding `sampleTask`, with no fault scripted. -/
def sampleRepo : Repo :=
  { row := some sampleTask, nextID := 4, writes := [], faults := [] }

/-- An empty store with no fault scripted. -/
def emptyRepo : Repo :=
  { row := none, nextID := 3, writes := [], faults := [] }

/-- A valid creation request. -/
def sampleReq : TaskCreateRequest :=
  { UploadFile := "report.docx", FilePath := "uploads/report.docx", DownloadFile := "cases",
    TemplateID := none }

/-- An informational event. -/
def tokenEvent : LangflowStreamEvent := { Event := "token", Data := [("chunk", JsonValue.str "a")] }

/-- The "end" event. -/
def endEvent : LangflowStreamEvent := { Event := "end", Data := [] }

/-- An engine whose listing gives the produced file an empty id. -/
def emptyIdEnv : Env :=
  { sampleEnv with
    getFileList := Except.ok [
      { ID := "", Name := "testcase_1", Path := "engine/testcase_1", Size := 3, Provider := none }] }

/-- An engine whose listing has no entry named like the output of `sampleTask`. -/
def noFileEnv : Env :=
  { sampleEnv with
    getFileList := Except.ok [
      { ID := "f0", Name := "other", Path := "engine/other", Size := 1, Provider := none },
      { ID := "f7", Name := "testcase_1.xlsx", Path := "engine/testcase_1.xlsx", Size := 3,
        Provider := none }] }

/-- An engine whose listing call fails. -/
def listingErrEnv : Env :=
  { sampleEnv with getFileList := Except.error "failed to send request: connection refused" }

/-- An engine that rejects the upload. -/
def uploadErrEnv : Env :=
  { sampleEnv with uploadFile := Except.error "file upload API error (status 500): internal error" }

/-- An engine configuration without the file slot. -/
def noSlotEnv : Env :=
  { sampleEnv with config := { sampleConfig with FileComponentID := "" } }

/-- Does the download step of `DownloadWorkflowResult` fail: building or sending the request,
a status other than 200, or writing the body to the temporary file. -/
def downloadStepFails (env : DownloadEnv) : Bool :=
  env.newRequestErr.isSome ||
    (match env.response with
     | Except.error _ => true
     | Except.ok (statusCode, _) => statusCode != 200) ||
    env.mkdirErr.isSome || env.createErr.isSome || env.copyErr.isSome

/-- A download that succeeds: status 200 with the body "NEW", no error from the disk. -/
def sampleDownloadEnv : DownloadEnv :=
  { config := sampleConfig, OutputDir := "./outputs", newRequestErr := none,
    response := Except.ok (200, "NEW"), mkdirErr := none, createErr := none, copyErr := none }

/-- A download whose body copy breaks after two characters. -/
def brokenCopyEnv : DownloadEnv :=
  { sampleDownloadEnv with copyErr := some (2, "connection reset by peer") }

/-- The task `sampleTask` after the monitor has resolved its output and marked it finished. -/
def finishedTask : Task :=
  { sampleTask with OutputFileID := "f2neq1", Status := TaskStatus.TaskStatusFinished,
                    FinishedAt := some 99 }

/-- A store holding `finishedTask`, with no fault scripted. -/
def finishedRepo : Repo :=
  { row := some finishedTask, nextID := 4, writes := [], faults := [] }

/-- A disk with no file. -/
def emptyDisk : Disk := { files := [] }

/-- A disk that already holds an artifact under the final name of `finishedTask`. -/
def oldArtifactDisk : Disk := { files := [("outputs/cases_1.xlsx", "OLD")] }

/-- A disk that already holds an artifact under the name "testcase_1.xlsx". -/
def sameNameDisk : Disk := { files := [("outputs/testcase_1.xlsx", "OLD")] }

/-- A disk holding an older artifact in a directory "sub" of the output directory. -/
def subDirDisk : Disk := { files := [("outputs/sub/cases_1.xlsx", "OLD")] }

/-- The event sequence in the words of the specification: trim every line, discard the blank
ones, decode each remaining line, drop those that fail to decode. -/
def specEvents (decode : String → Option LangflowStreamEvent) (lines : List String) :
    List LangflowStreamEvent :=
  ((lines.map trimSpace).filter (fun line => line ≠ "")).filterMap decode

/-- A line the reader delivers nothing for: blank after trimming, or not decodable. -/
def droppedLine (decode : String → Option LangflowStreamEvent) (text : String) : Prop :=
  trimSpace text = "" ∨ decode (trimSpace text) = none

/-- A decoder for two sample lines; every other line fails to decode. -/
def sampleDecode (line : String) : Option LangflowStreamEvent :=
  if line = "\x7b\"event\":\"end\"\x7d" then some endEvent
  else if line = "\x7b\"event\":\"token\",\"data\":\x7b\"chunk\":\"a\"\x7d\x7d" then some tokenEvent
  else none

/-- The record `TaskCreate` hands to the store for a valid request, with its id. -/
def createdRecord (req : TaskCreateRequest) (id : Nat) : Task :=
  { ID := id, OriginalFilename := req.UploadFile, LocalFilePath := req.FilePath, FilePath := "",
    Status := TaskStatus.TaskStatusRunning, LangflowRunID := "", OutputFile := "",
    DownloadFile := req.DownloadFile, UploadFileID := "", OutputFileID := "", ErrorMessage := "",
    FinishedAt := none, CreatedAt := 0, UpdatedAt := 0 }

/-- The record `RunWorkflow` saves after the upload: the created record with the engine path
and file id, the generated output name and the download name with its timestamp. -/
def uploadedRecord (env : Env) (req : TaskCreateRequest) (id : Nat)
    (langflowFilePath uploadFileID : String) : Task :=
  { createdRecord req id with
    FilePath := langflowFilePath,
    UploadFileID := uploadFileID,
    OutputFile := "testcase_" ++ toString env.timestamp,
    DownloadFile := req.DownloadFile ++ "_" ++ toString env.timestamp }

/-- An engine whose run request fails in transport. -/
def transportErrEnv : Env :=
  { sampleEnv with runResponse := Except.error "dial tcp: connection refused" }

/-- An engine that answers the run request with status 500. -/
def badStatusEnv : Env :=
  { sampleEnv with runResponse := Except.ok (500, "Internal Server Error") }

/-- A creation request with a download name in Chinese. -/
def chineseReq : TaskCreateRequest :=
  { UploadFile := "report.docx", FilePath := "uploads/report.docx", DownloadFile := "测试用例",
    TemplateID := none }

/-- Two successive calls of `GetDownloadFile` for the same task: the second call runs on the
store and the disk that the first call left. -/
def downloadTwice (env1 env2 : DownloadEnv) (repo : Repo) (disk : Disk) (taskID : String) :
    DownloadFileResult × DownloadFileResult :=
  (GetDownloadFile env1 repo disk taskID,
    GetDownloadFile env2 (GetDownloadFile env1 repo disk taskID).repo
      (GetDownloadFile env1 repo disk taskID).disk taskID)

/-- End to end: a pipeline run for a creation request, followed by `GetDownloadFile` for the
created task on the store the run left. -/
def retrieveAfterRun (env : Env) (denv : DownloadEnv) (repo : Repo) (disk : Disk)
    (req : TaskCreateRequest) (signals : List Signal) (taskID : String) : DownloadFileResult :=
  GetDownloadFile denv (runPipeline env repo req signals).repo disk taskID

/-- A listing whose entries differ from the name "testcase_1" by case, by an extension and by
a prefix, followed by two entries with exactly that name. -/
def nearMissListing : List LangflowFileInfo :=
  [{ ID := "a1", Name := "Testcase_1", Path := "engine/a1", Size := 1, Provider := none },
   { ID := "a2", Name := "testcase_1.xlsx", Path := "engine/a2", Size := 1, Provider := none },
   { ID := "a3", Name := "testcase_", Path := "engine/a3", Size := 1, Provider := none },
   { ID := "a4", Name := "testcase_1", Path := "engine/a4", Size := 1, Provider := none },
   { ID := "a5", Name := "testcase_1", Path := "engine/a5", Size := 1, Provider := none }]

/-- An engine configuration with the file and save slots set and no prompt slot. -/
def noPromptSlotEnv : Env :=
  { sampleEnv with config := { sampleConfig with PromptComponentID := "" } }

/-- An engine configuration that names the same slot for the file and for the output name. -/
def sharedSlotEnv : Env :=
  { sampleEnv with config := { sampleConfig with SaveFileComponentID := "File-1" } }

/-- The binding `RunWorkflow` writes for the file slot. -/
def pathBinding (langflowFilePath : String) : JsonValue :=
  JsonValue.object [("path", JsonValue.str langflowFilePath)]

/-- The binding `RunWorkflow` writes for the save slot. -/
def fileNameBinding (finalFileName : String) : JsonValue :=
  JsonValue.object [("file_name", JsonValue.str finalFileName)]

/-- The binding `RunWorkflow` writes for the prompt slot. -/
def templateBinding (prompt : String) : JsonValue :=
  JsonValue.object [("template", JsonValue.str prompt)]

/-- A listing request with the given paging and no filter. -/
def pageReq (page pageSize : Int) : TaskListRequest :=
  { Page := page, PageSize := pageSize, TaskID := 0, Status := "", OriginalFilename := "" }

/-- A store whose listing finds `total` matching records and returns an empty page. -/
def countingStore (total : Int) : TaskQuery → Except String (List Task × Int) :=
  fun _ => Except.ok ([], total)

/-- The numbers of a listing response: total, page size and number of pages. -/
def pagingOf (r : Option (Except String TaskListResponse)) : Option (Int × Int × Int) :=
  match r with
  | some (Except.ok resp) => some (resp.Data.Total, resp.Data.PageSize, resp.Data.TotalPages)
  | _ => none

/-- An "error" event as the engine sends it. -/
def errorEvent : LangflowStreamEvent := { Event := "error", Data := [("error", JsonValue.str "X")] }

/-- A creation request whose download name is "testcase". -/
def testcaseReq : TaskCreateRequest :=
  { UploadFile := "report.docx", FilePath := "uploads/report.docx", DownloadFile := "testcase",
    TemplateID := none }

/-- The fields of a record that address the engine-side files of the task. -/
def remoteFields (t : Task) : String × String × String × String :=
  (t.FilePath, t.UploadFileID, t.OutputFile, t.DownloadFile)

/-- An "end" event line whose payload carries a text of `n` letters. -/
def endLineWith (n : Nat) : String :=
  "\x7b\"event\":\"end\",\"data\":\x7b\"text\":\"" ++ String.mk (List.replicate n 'a') ++ "\"\x7d\x7d"

/-- A response body made of one "end" event line with a text of `n` letters. -/
def endBody (n : Nat) : String := endLineWith n ++ "\n"

/-- A decoder that accepts every line as an "end" event. -/
def endDecode (_ : String) : Option LangflowStreamEvent := some endEvent

/-- The lines of a content, each preceded by the newline that separates it from the line
before it. -/
def sepLines : List String → List Char
  | [] => []
  | a :: rest => '\n' :: (a.data ++ sepLines rest)

/-- The fields the round trip is claimed for: name and description are not empty and hold no
newline, the name does not contain "**", and the description does not start with a character
of the class `\s` (tab, newline, form feed, carriage return, space). -/
def roundTripField (f : CaseTemplateField) : Prop :=
  f.Name.data ≠ [] ∧ '\n' ∉ f.Name.data ∧ ¬ (['*', '*'] <:+: f.Name.data) ∧
  f.Description.data ≠ [] ∧ '\n' ∉ f.Description.data ∧
  ∀ b, f.Description.data.head? = some b → CharClass.space.test b = false

/-- The section header that `promptSectionRe` looks for, with the blank line after it. -/
def sectionHeader : String := "测试用例表格数据中每个测试用例必须且仅包含以下字段：\n\n"

/-- A base prompt holding the field-list section with the given numbered list. -/
def promptWithList (list : String) : String :=
  "## 3.3 输出格式\n" ++ sectionHeader ++ list ++ "\n## 4 其他\n"

/-- A base prompt with a list of two fields. -/
def sampleBasePrompt : String :=
  promptWithList "1. **用例编号**：唯一标识\n2. **用例标题**：简述\n"

/-- A stored template with the given content, under the id 7. -/
def storedTemplate (content : String) : CaseTemplate :=
  { ID := 7, Name := "custom", Content := content, IsDefault := false, IsSystem := false,
    CreatedAt := 0, UpdatedAt := 0 }

/-- The prompt `BuildPromptWithTemplate` builds from `sampleBasePrompt` for the template 7
holding the given content. -/
def samplePrompt (table : Char → Bool) (content : String) : Except String String :=
  BuildPromptWithTemplate table (Except.ok sampleBasePrompt)
    (fun _ => Except.ok (storedTemplate content)) (Except.error "record not found") (some 7)

/-- Three fields for the round trip: a name in Chinese, a name ending in a star with a
description that itself looks like a numbered field, and a name that is a single star. -/
def sampleFields : List CaseTemplateField :=
  [{ Name := "用例编号", Description := "唯一标识" },
   { Name := "a*", Description := "x  2. **b**：c" },
   { Name := "*", Description := "d: **e**：f " }]

/-- The records one terminal branch of the monitor hands to the store for a task, per
outcome: for "end" the Finished record (alone when no output name is recorded, after the
record carrying the resolved file id otherwise) or, when the output is not found, the Failed
record; for the four other outcomes one Failed record with the message of the branch. -/
def outcomeWrites (env : Env) (task : Task) (o : Outcome) (ws : List Task) : Prop :=
  match o with
  | Outcome.endEvent =>
    ws = [{ task with Status := TaskStatus.TaskStatusFinished, FinishedAt := some env.now }] ∨
    ws = [{ task with Status := TaskStatus.TaskStatusFailed }] ∨
    ∃ fileID, ws = [{ task with OutputFileID := fileID },
      { task with OutputFileID := fileID, Status := TaskStatus.TaskStatusFinished,
                  FinishedAt := some env.now }]
  | Outcome.errorEvent =>
    ∃ m, ws = [{ task with ErrorMessage := m, Status := TaskStatus.TaskStatusFailed }]
  | Outcome.streamEnded =>
    ws = [{ task with Status := TaskStatus.TaskStatusFailed,
                      ErrorMessage := "Channel closed, stream ended but no end event received" }]
  | Outcome.readError =>
    ws = [{ task with Status := TaskStatus.TaskStatusFailed,
                      ErrorMessage := "Error reading stream for task" }]
  | Outcome.timedOut =>
    ws = [{ task with Status := TaskStatus.TaskStatusFailed,
                      ErrorMessage := "Workflow execution timeout" }]

/-- The text the "error" branch stores for an event: the payload entry "error" when it is a
string, the fixed text otherwise. -/
def errorText (e : LangflowStreamEvent) : String :=
  match asString (e.Data.lookup "error") with
  | some data => data
  | none => "Workflow execution failed"

/-- A response body in the words of the claim, split into lines: the lines `lines`, each one
ended by a newline, followed by the text `last` after the last newline (empty when the body
ends with a newline). -/
def bodyOfLines (lines : List String) (last : String) : String :=
  String.mk (lines.flatMap (fun l => l.data ++ ['\n']) ++ last.data)

/-- A line of a body that fits the buffer of the scanner: it holds no newline and has fewer
bytes than `MaxScanTokenSize`. -/
def fitsScanner (l : String) : Prop :=
  '\n' ∉ l.data ∧ l.utf8ByteSize < MaxScanTokenSize

instance (l : String) : Decidable (fitsScanner l) := by
  unfold fitsScanner
  infer_instance

/-- A malformed line of `n` letters. -/
def junkLine (n : Nat) : String := String.mk (List.replicate n 'x')

/-- The body made of the line "end" event of `sampleDecode`, ended by a newline. -/
def endOnlyBody : String := "\x7b\"event\":\"end\"\x7d\n"

/-- The body `endOnlyBody` with a malformed line of `n` letters inserted before its line. -/
def junkBody (n : Nat) : String := junkLine n ++ "\n" ++ endOnlyBody

/-! ## Lemmas on the store and the loop -/

theorem Repo.Update_ok (r : Repo) (t : Task) (h : r.faults = []) :
    r.Update t = ({ r with row := some t, writes := r.writes ++ [t] }, false) := by
  simp [Repo.Update, Repo.nextFault, h]

theorem Repo.GetById_ok (r : Repo) (t : Task) (hrow : r.row = some t) (h : r.faults = []) :
    r.GetById t.ID = (r, some t) := by
  simp [Repo.GetById, Repo.nextFault, h, hrow]

theorem Repo.GetById_frame (r : Repo) (id : Nat) :
    (r.GetById id).1.writes = r.writes ∧ (r.GetById id).1.row = r.row := by
  obtain ⟨row, nextID, writes, faults⟩ := r
  cases faults with
  | nil =>
    cases row with
    | none => simp [Repo.GetById, Repo.nextFault]
    | some t => by_cases h : t.ID = id <;> simp [Repo.GetById, Repo.nextFault, h]
  | cons b bs =>
    cases b with
    | true => simp [Repo.GetById, Repo.nextFault]
    | false =>
      cases row with
      | none => simp [Repo.GetById, Repo.nextFault]
      | some t => by_cases h : t.ID = id <;> simp [Repo.GetById, Repo.nextFault, h]

theorem monitor_eq_loop (env : Env) (repo : Repo) (task : Task) (sigs : List Signal)
    (hrow : repo.row = some task) (hfaults : repo.faults = []) :
    monitorWorkflowStatus env repo task.ID sigs = monitorLoop env task repo sigs := by
  simp [monitorWorkflowStatus, Repo.GetById_ok repo task hrow hfaults]

theorem not_terminal_iff (e : LangflowStreamEvent) :
    isTerminal e = false ↔ e.Event ≠ "end" ∧ e.Event ≠ "error" := by
  simp [isTerminal]

theorem monitorLoop_skip_events (env : Env) (task : Task) (repo : Repo)
    (pre : List LangflowStreamEvent) (rest : List Signal)
    (hpre : ∀ e ∈ pre, isTerminal e = false) :
    monitorLoop env task repo (pre.map Signal.event ++ rest) = monitorLoop env task repo rest := by
  induction pre with
  | nil => rfl
  | cons e es ih =>
    have he := (not_terminal_iff e).1 (hpre e (List.mem_cons_self e es))
    have hes : ∀ x ∈ es, isTerminal x = false := fun x hx => hpre x (List.mem_cons_of_mem e hx)
    simp [monitorLoop, he.1, he.2, ih hes]

theorem monitorLoop_skip_idle (env : Env) (task : Task) (repo : Repo)
    (pre rest : List Signal) (hpre : ∀ s ∈ pre, s.isIdle = true) :
    monitorLoop env task repo (pre ++ rest) = monitorLoop env task repo rest := by
  induction pre with
  | nil => rfl
  | cons s ss ih =>
    have hs := hpre s (List.mem_cons_self s ss)
    have hss : ∀ x ∈ ss, x.isIdle = true := fun x hx => hpre x (List.mem_cons_of_mem s hx)
    cases s with
    | event e =>
      have he : e.Event ≠ "end" ∧ e.Event ≠ "error" := by
        apply (not_terminal_iff e).1
        simpa [Signal.isIdle] using hs
      simp [monitorLoop, he.1, he.2, ih hss]
    | errorClosed => simp [monitorLoop, ih hss]
    | eventClosed => simp [Signal.isIdle] at hs
    | streamErr m => simp [Signal.isIdle] at hs
    | timeout => simp [Signal.isIdle] at hs

/-! ## The monitor: terminal events -/

/-- C1: when the first terminal event the monitor receives is an "error" event, it saves the
task as Failed; the stored message is the string under the key "error" of the payload when
there is one, and the fixed text "Workflow execution failed" when the key is absent or its
value is not a string. Nothing else is written, whatever follows the event. -/
theorem error_event_marks_failed (env : Env) (repo : Repo) (task : Task)
    (pre : List LangflowStreamEvent) (data : JsonMap) (rest : List Signal)
    (hrow : repo.row = some task) (hfaults : repo.faults = [])
    (hpre : ∀ e ∈ pre, isTerminal e = false) :
    (∀ X, data.lookup "error" = some (JsonValue.str X) →
      (monitorWorkflowStatus env repo task.ID
          (pre.map Signal.event ++ Signal.event { Event := "error", Data := data } :: rest)).repo.row
        = some { task with ErrorMessage := X, Status := TaskStatus.TaskStatusFailed } ∧
      (monitorWorkflowStatus env repo task.ID
          (pre.map Signal.event ++ Signal.event { Event := "error", Data := data } :: rest)).repo.writes
        = repo.writes ++ [{ task with ErrorMessage := X, Status := TaskStatus.TaskStatusFailed }]) ∧
    ((∀ X, data.lookup "error" ≠ some (JsonValue.str X)) →
      (monitorWorkflowStatus env repo task.ID
          (pre.map Signal.event ++ Signal.event { Event := "error", Data := data } :: rest)).repo.row
        = some { task with ErrorMessage := "Workflow execution failed",
                           Status := TaskStatus.TaskStatusFailed } ∧
      (monitorWorkflowStatus env repo task.ID
          (pre.map Signal.event ++ Signal.event { Event := "error", Data := data } :: rest)).repo.writes
        = repo.writes ++ [{ task with ErrorMessage := "Workflow execution failed",
                                      Status := TaskStatus.TaskStatusFailed }]) := by
  rw [monitor_eq_loop env repo task _ hrow hfaults, monitorLoop_skip_events env task repo pre _ hpre]
  constructor
  · intro X hX
    simp [monitorLoop, onError, hX, asString, Repo.Update_ok _ _ hfaults]
  · intro hX
    have hnone : asString (data.lookup "error") = none := by
      cases h : data.lookup "error" with
      | none => rfl
      | some v =>
        cases v with
        | str s => exact absurd h (hX s)
        | _ => rfl
    simp [monitorLoop, onError, hnone, Repo.Update_ok _ _ hfaults]

/-- Witness of C1 on a stream with one informational event, an "error" event carrying the
string "X", and a later "end" event. -/
theorem error_event_marks_failed_witness :
    sampleRepo.row = some sampleTask ∧ sampleRepo.faults = [] ∧
    (∀ e ∈ [tokenEvent], isTerminal e = false) ∧
    (monitorWorkflowStatus sampleEnv sampleRepo sampleTask.ID
        ([tokenEvent].map Signal.event ++
          Signal.event { Event := "error", Data := [("error", JsonValue.str "X")] } ::
            [Signal.event endEvent])).repo.row
      = some { sampleTask with ErrorMessage := "X", Status := TaskStatus.TaskStatusFailed } :=
  ⟨rfl, rfl, by decide,
    ((error_event_marks_failed sampleEnv sampleRepo sampleTask [tokenEvent]
      [("error", JsonValue.str "X")] [Signal.event endEvent] rfl rfl (by decide)).1 "X" rfl).1⟩

theorem find_first_named (before after : List LangflowFileInfo) (f : LangflowFileInfo)
    (name : String) (hbefore : ∀ g ∈ before, g.Name ≠ name) (hf : f.Name = name) :
    (before ++ f :: after).find? (fun file => file.Name == name) = some f := by
  induction before with
  | nil => simp [List.find?, hf]
  | cons g gs ih =>
    have hg : g.Name ≠ name := hbefore g (List.mem_cons_self g gs)
    have hgs : ∀ x ∈ gs, x.Name ≠ name := fun x hx => hbefore x (List.mem_cons_of_mem g hx)
    have hb : (g.Name == name) = false := by simpa using hg
    simp [List.find?, hb, ih hgs]

/-- C2, refuted as stated: the listing holds an entry named like the recorded output, the
first terminal event is "end", the task ends Finished with its finish time set, and yet the
stored output file id is empty, because that entry carries an empty id. -/
theorem end_event_empty_id_counterexample :
    emptyIdEnv.getFileList = Except.ok [LangflowFileInfo.mk "" "testcase_1" "engine/testcase_1" 3 none] ∧
    (LangflowFileInfo.mk "" "testcase_1" "engine/testcase_1" 3 none).Name = sampleTask.OutputFile ∧
    (monitorWorkflowStatus emptyIdEnv sampleRepo 3
        [Signal.event tokenEvent, Signal.event endEvent]).repo.row
      = some { sampleTask with OutputFileID := "", Status := TaskStatus.TaskStatusFinished,
                               FinishedAt := some 99 } :=
  ⟨rfl, rfl, by decide⟩

/-- C2, amended: when the first terminal event the monitor receives is "end", the task has a
non-empty recorded output name, and in the listing the first entry with exactly that name has
a non-empty id, then (the store accepting the writes) the task ends Finished with its finish
time set and its output file id equal to that id, hence non-empty. The monitor first saves
the id on the still running record, then the finished record. -/
theorem end_event_marks_finished (env : Env) (repo : Repo) (task : Task)
    (pre : List LangflowStreamEvent) (data : JsonMap) (rest : List Signal)
    (before after : List LangflowFileInfo) (f : LangflowFileInfo)
    (hrow : repo.row = some task) (hfaults : repo.faults = [])
    (hpre : ∀ e ∈ pre, isTerminal e = false)
    (hname : task.OutputFile ≠ "")
    (hlist : env.getFileList = Except.ok (before ++ f :: after))
    (hbefore : ∀ g ∈ before, g.Name ≠ task.OutputFile)
    (hf : f.Name = task.OutputFile)
    (hid : f.ID ≠ "") :
    (monitorWorkflowStatus env repo task.ID
        (pre.map Signal.event ++ Signal.event { Event := "end", Data := data } :: rest)).repo.row
      = some { task with OutputFileID := f.ID, Status := TaskStatus.TaskStatusFinished,
                         FinishedAt := some env.now } ∧
    (monitorWorkflowStatus env repo task.ID
        (pre.map Signal.event ++ Signal.event { Event := "end", Data := data } :: rest)).repo.writes
      = repo.writes ++ [{ task with OutputFileID := f.ID },
          { task with OutputFileID := f.ID, Status := TaskStatus.TaskStatusFinished,
                      FinishedAt := some env.now }] ∧
    (∃ t, (monitorWorkflowStatus env repo task.ID
        (pre.map Signal.event ++ Signal.event { Event := "end", Data := data } :: rest)).repo.row
          = some t ∧ t.Status = TaskStatus.TaskStatusFinished ∧ t.FinishedAt.isSome = true ∧
            t.OutputFileID ≠ "" ∧ t.OutputFileID = f.ID) := by
  have hfind : findFileIDByName env.getFileList task.OutputFile = Except.ok f.ID := by
    simp [findFileIDByName, hlist, find_first_named before after f task.OutputFile hbefore hf]
  rw [monitor_eq_loop env repo task _ hrow hfaults, monitorLoop_skip_events env task repo pre _ hpre]
  simp [monitorLoop, onEnd, hname, hfind, markFinished, Repo.Update_ok, hfaults, hid]

/-- Witness of the amended C2: the listing of `sampleEnv` has another file first and two
entries named "testcase_1"; the id of the first of the two is stored. -/
theorem end_event_marks_finished_witness :
    sampleRepo.row = some sampleTask ∧ sampleRepo.faults = [] ∧
    (∀ e ∈ [tokenEvent], isTerminal e = false) ∧
    sampleTask.OutputFile ≠ "" ∧
    (monitorWorkflowStatus sampleEnv sampleRepo sampleTask.ID
        ([tokenEvent].map Signal.event ++ Signal.event { Event := "end", Data := [] } :: [])).repo.row
      = some { sampleTask with OutputFileID := "f2neq1", Status := TaskStatus.TaskStatusFinished,
                               FinishedAt := some 99 } :=
  ⟨rfl, rfl, by decide, by decide,
    (end_event_marks_finished sampleEnv sampleRepo sampleTask [tokenEvent] [] []
      [{ ID := "f0", Name := "other", Path := "engine/other", Size := 1, Provider := none }]
      [{ ID := "f3", Name := "testcase_1", Path := "engine/copy", Size := 3, Provider := none }]
      { ID := "f2neq1", Name := "testcase_1", Path := "engine/testcase_1", Size := 3, Provider := none }
      rfl rfl (by decide) (by decide) rfl (by decide) rfl (by decide)).1⟩

/-- C3, the code at the failing inputs: an "end" event arrives for a task whose recorded
output name is "testcase_1"; the listing has no entry with exactly that name (first run) or
the listing call fails (second run). In both runs the monitor saves the record with status
Failed and the error message it already had, the empty string: no reason is stored. -/
theorem output_not_found_stores_no_reason :
    (monitorWorkflowStatus noFileEnv sampleRepo 3 [Signal.event endEvent]).repo.row
      = some { sampleTask with Status := TaskStatus.TaskStatusFailed } ∧
    ((monitorWorkflowStatus noFileEnv sampleRepo 3 [Signal.event endEvent]).repo.row.map
      (fun t => t.ErrorMessage)) = some "" ∧
    (monitorWorkflowStatus listingErrEnv sampleRepo 3 [Signal.event endEvent]).repo.row
      = some { sampleTask with Status := TaskStatus.TaskStatusFailed } ∧
    ((monitorWorkflowStatus listingErrEnv sampleRepo 3 [Signal.event endEvent]).repo.row.map
      (fun t => t.ErrorMessage)) = some "" := by
  decide

/-! ## The monitor: end of stream, read error, timeout -/

/-- C4, refuted as stated: for the stream with zero events and no read error the task ends
Failed, and the stored message is the fixed text "Channel closed, stream ended but no end
event received", not the text "stream ended without terminal event". -/
theorem stream_end_message_counterexample :
    (monitorWorkflowStatus sampleEnv sampleRepo 3
        (selectTrace { events := [], scanErr := none } { timeoutAt := none, spins := 0 })).repo.row
      = some { sampleTask with
          Status := TaskStatus.TaskStatusFailed,
          ErrorMessage := "Channel closed, stream ended but no end event received" } ∧
    ((monitorWorkflowStatus sampleEnv sampleRepo 3
        (selectTrace { events := [], scanErr := none } { timeoutAt := none, spins := 0 })).repo.row.map
      (fun t => t.ErrorMessage)) ≠ some "stream ended without terminal event" := by
  decide

/-- C4, amended: for every stream that ends without a read error and whose decoded events
contain no "end" and no "error" event (the stream with zero events included), whatever the
number of times the closed error channel is picked first, and the timer case not being taken,
the task ends Failed with the fixed error message "Channel closed, stream ended but no end
event received". It is the only write, and the only branch executed. -/
theorem stream_end_marks_failed (env : Env) (repo : Repo) (task : Task)
    (s : Stream) (sch : Schedule)
    (hrow : repo.row = some task) (hfaults : repo.faults = [])
    (herr : s.scanErr = none) (hev : ∀ e ∈ s.events, isTerminal e = false)
    (hto : sch.timeoutAt = none) :
    (monitorWorkflowStatus env repo task.ID (selectTrace s sch)).repo.row
      = some { task with
          Status := TaskStatus.TaskStatusFailed,
          ErrorMessage := "Channel closed, stream ended but no end event received" } ∧
    (monitorWorkflowStatus env repo task.ID (selectTrace s sch)).repo.writes
      = repo.writes ++ [{ task with
          Status := TaskStatus.TaskStatusFailed,
          ErrorMessage := "Channel closed, stream ended but no end event received" }] ∧
    (monitorWorkflowStatus env repo task.ID (selectTrace s sch)).fired = [Outcome.streamEnded] := by
  have hidle : ∀ x ∈ List.replicate sch.spins Signal.errorClosed, x.isIdle = true := by
    intro x hx
    rw [List.eq_of_mem_replicate hx]
    rfl
  rw [monitor_eq_loop env repo task _ hrow hfaults]
  simp only [selectTrace, hto, readerSignals, herr]
  rw [monitorLoop_skip_events env task repo s.events _ hev,
    monitorLoop_skip_idle env task repo _ _ hidle]
  simp [monitorLoop, onChannelClosed, Repo.Update_ok, hfaults]

/-- Witness of the amended C4: two informational events, then the closed error channel is
picked three times before the closed event channel. -/
theorem stream_end_marks_failed_witness :
    sampleRepo.row = some sampleTask ∧ sampleRepo.faults = [] ∧
    (∀ e ∈ [tokenEvent, tokenEvent], isTerminal e = false) ∧
    (monitorWorkflowStatus sampleEnv sampleRepo sampleTask.ID
        (selectTrace { events := [tokenEvent, tokenEvent], scanErr := none }
          { timeoutAt := none, spins := 3 })).repo.row
      = some { sampleTask with
          Status := TaskStatus.TaskStatusFailed,
          ErrorMessage := "Channel closed, stream ended but no end event received" } :=
  ⟨rfl, rfl, by decide,
    (stream_end_marks_failed sampleEnv sampleRepo sampleTask
      { events := [tokenEvent, tokenEvent], scanErr := none } { timeoutAt := none, spins := 3 }
      rfl rfl rfl (by decide) rfl).1⟩

/-- C5, refuted as stated: the scanner fails on a stream with no event; the reader sends the
error wrapped as "stream reading error: ..." but the monitor does not store it: the task
ends Failed with the fixed message "Error reading stream for task", not with the text
"stream reading error". -/
theorem read_error_message_counterexample :
    selectTrace { events := [], scanErr := some "unexpected EOF" } { timeoutAt := none, spins := 0 }
      = [Signal.streamErr "stream reading error: unexpected EOF"] ∧
    (monitorWorkflowStatus sampleEnv sampleRepo 3
        [Signal.streamErr "stream reading error: unexpected EOF"]).repo.row
      = some { sampleTask with
          Status := TaskStatus.TaskStatusFailed,
          ErrorMessage := "Error reading stream for task" } ∧
    ((monitorWorkflowStatus sampleEnv sampleRepo 3
        [Signal.streamErr "stream reading error: unexpected EOF"]).repo.row.map
      (fun t => t.ErrorMessage)) ≠ some "stream reading error" :=
  ⟨rfl, by decide, by decide⟩

/-- C5, amended: when the monitor receives a read error from the reader before any terminal
event, the task ends Failed with the fixed error message "Error reading stream for task",
whatever the text of the error and whatever follows. It is the only write. -/
theorem read_error_marks_failed (env : Env) (repo : Repo) (task : Task)
    (pre : List LangflowStreamEvent) (msg : String) (rest : List Signal)
    (hrow : repo.row = some task) (hfaults : repo.faults = [])
    (hpre : ∀ e ∈ pre, isTerminal e = false) :
    (monitorWorkflowStatus env repo task.ID
        (pre.map Signal.event ++ Signal.streamErr msg :: rest)).repo.row
      = some { task with
          Status := TaskStatus.TaskStatusFailed,
          ErrorMessage := "Error reading stream for task" } ∧
    (monitorWorkflowStatus env repo task.ID
        (pre.map Signal.event ++ Signal.streamErr msg :: rest)).repo.writes
      = repo.writes ++ [{ task with
          Status := TaskStatus.TaskStatusFailed,
          ErrorMessage := "Error reading stream for task" }] ∧
    (monitorWorkflowStatus env repo task.ID
        (pre.map Signal.event ++ Signal.streamErr msg :: rest)).fired = [Outcome.readError] := by
  rw [monitor_eq_loop env repo task _ hrow hfaults, monitorLoop_skip_events env task repo pre _ hpre]
  simp [monitorLoop, onStreamErr, Repo.Update_ok, hfaults]

/-- Witness of the amended C5: one informational event, then the scanner error. -/
theorem read_error_marks_failed_witness :
    sampleRepo.row = some sampleTask ∧ sampleRepo.faults = [] ∧
    (∀ e ∈ [tokenEvent], isTerminal e = false) ∧
    (monitorWorkflowStatus sampleEnv sampleRepo sampleTask.ID
        ([tokenEvent].map Signal.event ++
          Signal.streamErr "stream reading error: token too long" :: [])).repo.row
      = some { sampleTask with
          Status := TaskStatus.TaskStatusFailed,
          ErrorMessage := "Error reading stream for task" } :=
  ⟨rfl, rfl, by decide,
    (read_error_marks_failed sampleEnv sampleRepo sampleTask [tokenEvent]
      "stream reading error: token too long" [] rfl rfl (by decide)).1⟩

/-- C6: when the timer case is taken before any terminal event, end of stream or read error
has been processed, the task is saved Failed with the message "Workflow execution timeout"
(which ends in "execution timeout"), this is the only write, and the monitor returns: the
result is the same whatever is delivered afterwards. -/
theorem timeout_marks_failed (env : Env) (repo : Repo) (task : Task)
    (pre rest : List Signal)
    (hrow : repo.row = some task) (hfaults : repo.faults = [])
    (hpre : ∀ s ∈ pre, s.isIdle = true) :
    (monitorWorkflowStatus env repo task.ID (pre ++ Signal.timeout :: rest)).repo.row
      = some { task with
          Status := TaskStatus.TaskStatusFailed,
          ErrorMessage := "Workflow " ++ "execution timeout" } ∧
    (monitorWorkflowStatus env repo task.ID (pre ++ Signal.timeout :: rest)).repo.writes
      = repo.writes ++ [{ task with
          Status := TaskStatus.TaskStatusFailed,
          ErrorMessage := "Workflow execution timeout" }] ∧
    (monitorWorkflowStatus env repo task.ID (pre ++ Signal.timeout :: rest)).fired
      = [Outcome.timedOut] ∧
    monitorWorkflowStatus env repo task.ID (pre ++ Signal.timeout :: rest)
      = monitorWorkflowStatus env repo task.ID (pre ++ [Signal.timeout]) := by
  have hlit : "Workflow " ++ "execution timeout" = "Workflow execution timeout" := by decide
  rw [monitor_eq_loop env repo task _ hrow hfaults, monitor_eq_loop env repo task _ hrow hfaults,
    monitorLoop_skip_idle env task repo pre _ hpre, monitorLoop_skip_idle env task repo pre _ hpre]
  simp [monitorLoop, onTimeout, Repo.Update_ok, hfaults, hlit]

/-- Witness of C6: the timer fires after one informational event; an "end" event delivered
afterwards changes nothing. -/
theorem timeout_marks_failed_witness :
    sampleRepo.row = some sampleTask ∧ sampleRepo.faults = [] ∧
    (∀ s ∈ [Signal.event tokenEvent], s.isIdle = true) ∧
    (monitorWorkflowStatus sampleEnv sampleRepo sampleTask.ID
        ([Signal.event tokenEvent] ++ Signal.timeout :: [Signal.event endEvent])).repo.writes
      = sampleRepo.writes ++ [{ sampleTask with
          Status := TaskStatus.TaskStatusFailed,
          ErrorMessage := "Workflow execution timeout" }] :=
  ⟨rfl, rfl, by decide,
    (timeout_marks_failed sampleEnv sampleRepo sampleTask [Signal.event tokenEvent]
      [Signal.event endEvent] rfl rfl (by decide)).2.1⟩

/-! ## The monitor: ignored events, first trigger -/

theorem monitorLoop_filter_informational (env : Env) (task : Task) (repo : Repo)
    (sigs : List Signal) :
    monitorLoop env task repo sigs
      = monitorLoop env task repo (sigs.filter (fun s => !s.isInformational)) := by
  induction sigs with
  | nil => rfl
  | cons s ss ih =>
    cases s with
    | event e =>
      by_cases h1 : e.Event = "end"
      · simp [Signal.isInformational, isTerminal, h1, monitorLoop]
      · by_cases h2 : e.Event = "error"
        · simp [Signal.isInformational, isTerminal, h2, monitorLoop]
        · simp [Signal.isInformational, isTerminal, h1, h2, monitorLoop, ih]
    | errorClosed => simp [Signal.isInformational, monitorLoop, ih]
    | eventClosed => simp [Signal.isInformational, monitorLoop]
    | streamErr m => simp [Signal.isInformational, monitorLoop]
    | timeout => simp [Signal.isInformational, monitorLoop]

theorem onEnd_fired (env : Env) (task : Task) (repo : Repo) :
    (onEnd env task repo).fired = [Outcome.endEvent] := by
  unfold onEnd markFinished
  split
  · split
    · rfl
    · dsimp only
      split <;> rfl
  · rfl

theorem monitorLoop_fired_le_one (env : Env) (task : Task) (repo : Repo) (sigs : List Signal) :
    (monitorLoop env task repo sigs).fired.length ≤ 1 := by
  induction sigs with
  | nil => simp [monitorLoop]
  | cons s ss ih =>
    cases s with
    | event e =>
      by_cases h1 : e.Event = "end"
      · simp [monitorLoop, h1, onEnd_fired]
      · by_cases h2 : e.Event = "error"
        · simp [monitorLoop, h2, onError]
        · simpa [monitorLoop, h1, h2] using ih
    | errorClosed => simpa [monitorLoop] using ih
    | eventClosed => simp [monitorLoop, onChannelClosed]
    | streamErr m => simp [monitorLoop, onStreamErr]
    | timeout => simp [monitorLoop, onTimeout]

theorem monitorLoop_fired_of_trigger (env : Env) (task : Task) (repo : Repo) (sigs : List Signal)
    (h : ∃ s ∈ sigs, s.isIdle = false) :
    ∃ o, (monitorLoop env task repo sigs).fired = [o] := by
  induction sigs with
  | nil => simp at h
  | cons s ss ih =>
    cases s with
    | event e =>
      by_cases h1 : e.Event = "end"
      · exact ⟨Outcome.endEvent, by simp [monitorLoop, h1, onEnd_fired]⟩
      · by_cases h2 : e.Event = "error"
        · exact ⟨Outcome.errorEvent, by simp [monitorLoop, h2, onError]⟩
        · have hss : ∃ x ∈ ss, x.isIdle = false := by
            obtain ⟨x, hx, hxi⟩ := h
            rcases List.mem_cons.1 hx with rfl | hx
            · simp [Signal.isIdle, isTerminal, h1, h2] at hxi
            · exact ⟨x, hx, hxi⟩
          simpa [monitorLoop, h1, h2] using ih hss
    | errorClosed =>
      have hss : ∃ x ∈ ss, x.isIdle = false := by
        obtain ⟨x, hx, hxi⟩ := h
        rcases List.mem_cons.1 hx with rfl | hx
        · simp [Signal.isIdle] at hxi
        · exact ⟨x, hx, hxi⟩
      simpa [monitorLoop] using ih hss
    | eventClosed => exact ⟨Outcome.streamEnded, by simp [monitorLoop, onChannelClosed]⟩
    | streamErr m => exact ⟨Outcome.readError, by simp [monitorLoop, onStreamErr]⟩
    | timeout => exact ⟨Outcome.timedOut, by simp [monitorLoop, onTimeout]⟩

theorem readerSignals_has_trigger (s : Stream) (spins : Nat) :
    ∃ x ∈ readerSignals s spins, x.isIdle = false := by
  unfold readerSignals
  cases s.scanErr with
  | none => exact ⟨Signal.eventClosed, by simp, rfl⟩
  | some e => exact ⟨Signal.streamErr ("stream reading error: " ++ e), by simp, rfl⟩

theorem selectTrace_has_trigger (s : Stream) (sch : Schedule) :
    ∃ x ∈ selectTrace s sch, x.isIdle = false := by
  unfold selectTrace
  cases sch.timeoutAt with
  | none => exact readerSignals_has_trigger s sch.spins
  | some n =>
    by_cases hn : n < (readerSignals s sch.spins).length
    · simp only [hn, if_true]
      exact ⟨Signal.timeout, by simp, rfl⟩
    · simp only [hn, if_false]
      exact readerSignals_has_trigger s sch.spins

/-- C7: events whose kind is neither "end" nor "error" are ignored. For every sequence of
received values the result of the monitor (the store with its row and its list of writes,
and the branch executed) is the result for the sequence with those events removed; and a
sequence made of such events only writes nothing and leaves the row as it was. -/
theorem informational_events_ignored (env : Env) (repo : Repo) (taskID : Nat) :
    (∀ sigs : List Signal,
      monitorWorkflowStatus env repo taskID sigs
        = monitorWorkflowStatus env repo taskID (sigs.filter (fun s => !s.isInformational))) ∧
    (∀ pre : List LangflowStreamEvent, (∀ e ∈ pre, isTerminal e = false) →
      (monitorWorkflowStatus env repo taskID (pre.map Signal.event)).repo.writes = repo.writes ∧
      (monitorWorkflowStatus env repo taskID (pre.map Signal.event)).repo.row = repo.row ∧
      (monitorWorkflowStatus env repo taskID (pre.map Signal.event)).fired = []) := by
  constructor
  · intro sigs
    unfold monitorWorkflowStatus
    split
    · rfl
    · exact monitorLoop_filter_informational env _ _ sigs
  · intro pre hpre
    have hskip := fun (t : Task) (r : Repo) => monitorLoop_skip_events env t r pre [] hpre
    simp only [List.append_nil] at hskip
    unfold monitorWorkflowStatus
    have hget := Repo.GetById_frame repo taskID
    split
    · rename_i r heq
      rw [heq] at hget
      exact ⟨hget.1, hget.2, rfl⟩
    · rename_i r t heq
      rw [heq] at hget
      rw [hskip]
      exact ⟨hget.1, hget.2, rfl⟩

/-- Witness of C7: three informational events around an "end" event; the run over the four
events equals the run over the "end" event alone, and three informational events alone
write nothing. -/
theorem informational_events_ignored_witness :
    monitorWorkflowStatus sampleEnv sampleRepo 3
        [Signal.event tokenEvent, Signal.event tokenEvent, Signal.event endEvent, Signal.event tokenEvent]
      = monitorWorkflowStatus sampleEnv sampleRepo 3 [Signal.event endEvent] ∧
    (∀ e ∈ [tokenEvent, tokenEvent, tokenEvent], isTerminal e = false) ∧
    (monitorWorkflowStatus sampleEnv sampleRepo 3
        ([tokenEvent, tokenEvent, tokenEvent].map Signal.event)).repo.writes = sampleRepo.writes :=
  ⟨(informational_events_ignored sampleEnv sampleRepo 3).1
      [Signal.event tokenEvent, Signal.event tokenEvent, Signal.event endEvent, Signal.event tokenEvent],
    by decide,
    ((informational_events_ignored sampleEnv sampleRepo 3).2 [tokenEvent, tokenEvent, tokenEvent]
      (by decide)).1⟩

theorem monitorLoop_applied (env : Env) (task : Task) (repo : Repo) (sigs : List Signal)
    (hfaults : repo.faults = []) (hrow : repo.row = some task) :
    ∃ ws, (monitorLoop env task repo sigs).repo.writes = repo.writes ++ ws ∧
      (((monitorLoop env task repo sigs).fired = [] ∧ ws = [] ∧
          (monitorLoop env task repo sigs).repo.row = some task) ∨
       ∃ o, (monitorLoop env task repo sigs).fired = [o] ∧ outcomeWrites env task o ws ∧
          (monitorLoop env task repo sigs).repo.row = ws.getLast?) := by
  induction sigs with
  | nil => exact ⟨[], by simp [monitorLoop], Or.inl ⟨rfl, rfl, hrow⟩⟩
  | cons s ss ih =>
    cases s with
    | event e =>
      by_cases h1 : e.Event = "end"
      · by_cases hname : task.OutputFile = ""
        · refine ⟨[{ task with Status := TaskStatus.TaskStatusFinished, FinishedAt := some env.now }],
            ?_, Or.inr ⟨Outcome.endEvent, ?_, Or.inl rfl, ?_⟩⟩
          · simp [monitorLoop, h1, onEnd, hname, markFinished, Repo.Update_ok, hfaults]
          · simp [monitorLoop, h1, onEnd, hname, markFinished]
          · simp [monitorLoop, h1, onEnd, hname, markFinished, Repo.Update_ok, hfaults]
        · cases hfind : findFileIDByName env.getFileList task.OutputFile with
          | error err =>
            refine ⟨[{ task with Status := TaskStatus.TaskStatusFailed }], ?_,
              Or.inr ⟨Outcome.endEvent, ?_, Or.inr (Or.inl rfl), ?_⟩⟩
            · simp [monitorLoop, h1, onEnd, hname, hfind, Repo.Update_ok, hfaults]
            · simp [monitorLoop, h1, onEnd, hname, hfind]
            · simp [monitorLoop, h1, onEnd, hname, hfind, Repo.Update_ok, hfaults]
          | ok fileID =>
            refine ⟨[{ task with OutputFileID := fileID },
                { task with OutputFileID := fileID, Status := TaskStatus.TaskStatusFinished,
                            FinishedAt := some env.now }], ?_,
              Or.inr ⟨Outcome.endEvent, ?_, Or.inr (Or.inr ⟨fileID, rfl⟩), ?_⟩⟩
            · simp [monitorLoop, h1, onEnd, hname, hfind, markFinished, Repo.Update_ok, hfaults]
            · simp [monitorLoop, h1, onEnd, hname, hfind, markFinished, Repo.Update_ok, hfaults]
            · simp [monitorLoop, h1, onEnd, hname, hfind, markFinished, Repo.Update_ok, hfaults]
      · by_cases h2 : e.Event = "error"
        · refine ⟨[{ task with ErrorMessage := errorText e, Status := TaskStatus.TaskStatusFailed }],
            ?_, Or.inr ⟨Outcome.errorEvent, ?_, ⟨errorText e, rfl⟩, ?_⟩⟩
          · simp [monitorLoop, h2, onError, Repo.Update_ok, hfaults, errorText]
          · simp [monitorLoop, h2, onError]
          · simp [monitorLoop, h2, onError, Repo.Update_ok, hfaults, errorText]
        · simpa [monitorLoop, h1, h2] using ih
    | errorClosed => simpa [monitorLoop] using ih
    | eventClosed =>
      exact ⟨[{ task with Status := TaskStatus.TaskStatusFailed,
                          ErrorMessage := "Channel closed, stream ended but no end event received" }],
        by simp [monitorLoop, onChannelClosed, Repo.Update_ok, hfaults],
        Or.inr ⟨Outcome.streamEnded, by simp [monitorLoop, onChannelClosed], rfl,
          by simp [monitorLoop, onChannelClosed, Repo.Update_ok, hfaults]⟩⟩
    | streamErr m =>
      exact ⟨[{ task with Status := TaskStatus.TaskStatusFailed,
                          ErrorMessage := "Error reading stream for task" }],
        by simp [monitorLoop, onStreamErr, Repo.Update_ok, hfaults],
        Or.inr ⟨Outcome.readError, by simp [monitorLoop, onStreamErr], rfl,
          by simp [monitorLoop, onStreamErr, Repo.Update_ok, hfaults]⟩⟩
    | timeout =>
      exact ⟨[{ task with Status := TaskStatus.TaskStatusFailed,
                          ErrorMessage := "Workflow execution timeout" }],
        by simp [monitorLoop, onTimeout, Repo.Update_ok, hfaults],
        Or.inr ⟨Outcome.timedOut, by simp [monitorLoop, onTimeout], rfl,
          by simp [monitorLoop, onTimeout, Repo.Update_ok, hfaults]⟩⟩

theorem outcomeWrites_one_final (env : Env) (task : Task) (o : Outcome) (ws : List Task)
    (hrun : task.Status = TaskStatus.TaskStatusRunning) (h : outcomeWrites env task o ws) :
    (ws.filter (fun r => r.Status.isFinal)).length = 1 ∧
    ∃ last, ws.getLast? = some last ∧ last.Status.isFinal = true ∧ last.ID = task.ID := by
  cases o with
  | endEvent =>
    rcases h with h | h | ⟨fileID, h⟩
    · subst h
      exact ⟨by simp [TaskStatus.isFinal], _, rfl, rfl, rfl⟩
    · subst h
      exact ⟨by simp [TaskStatus.isFinal], _, rfl, rfl, rfl⟩
    · subst h
      exact ⟨by simp [TaskStatus.isFinal, hrun], _, rfl, rfl, rfl⟩
  | errorEvent =>
    obtain ⟨m, h⟩ := h
    subst h
    exact ⟨by simp [TaskStatus.isFinal], _, rfl, rfl, rfl⟩
  | streamEnded =>
    have h2 : ws = _ := h
    subst h2
    exact ⟨by simp [TaskStatus.isFinal], _, rfl, rfl, rfl⟩
  | readError =>
    have h2 : ws = _ := h
    subst h2
    exact ⟨by simp [TaskStatus.isFinal], _, rfl, rfl, rfl⟩
  | timedOut =>
    have h2 : ws = _ := h
    subst h2
    exact ⟨by simp [TaskStatus.isFinal], _, rfl, rfl, rfl⟩
theorem monitorLoop_first_terminal (env : Env) (task : Task) (repo : Repo)
    (t : LangflowStreamEvent) (rest : List Signal)
    (hfaults : repo.faults = []) (ht : isTerminal t = true) :
    ∃ ws, (monitorLoop env task repo (Signal.event t :: rest)).repo.writes = repo.writes ++ ws ∧
      (monitorLoop env task repo (Signal.event t :: rest)).repo.row = ws.getLast? ∧
      (t.Event = "end" →
        (monitorLoop env task repo (Signal.event t :: rest)).fired = [Outcome.endEvent] ∧
        outcomeWrites env task Outcome.endEvent ws) ∧
      (t.Event = "error" →
        (monitorLoop env task repo (Signal.event t :: rest)).fired = [Outcome.errorEvent] ∧
        ws = [{ task with ErrorMessage := errorText t, Status := TaskStatus.TaskStatusFailed }]) := by
  by_cases h1 : t.Event = "end"
  · have hne : ¬ t.Event = "error" := by rw [h1]; decide
    by_cases hname : task.OutputFile = ""
    · refine ⟨[{ task with Status := TaskStatus.TaskStatusFinished, FinishedAt := some env.now }],
        ?_, ?_, fun _ => ⟨?_, Or.inl rfl⟩, fun h => absurd h hne⟩
      · simp [monitorLoop, h1, onEnd, hname, markFinished, Repo.Update_ok, hfaults]
      · simp [monitorLoop, h1, onEnd, hname, markFinished, Repo.Update_ok, hfaults]
      · simp [monitorLoop, h1, onEnd, hname, markFinished]
    · cases hfind : findFileIDByName env.getFileList task.OutputFile with
      | error err =>
        refine ⟨[{ task with Status := TaskStatus.TaskStatusFailed }], ?_, ?_,
          fun _ => ⟨?_, Or.inr (Or.inl rfl)⟩, fun h => absurd h hne⟩
        · simp [monitorLoop, h1, onEnd, hname, hfind, Repo.Update_ok, hfaults]
        · simp [monitorLoop, h1, onEnd, hname, hfind, Repo.Update_ok, hfaults]
        · simp [monitorLoop, h1, onEnd, hname, hfind]
      | ok fileID =>
        refine ⟨[{ task with OutputFileID := fileID },
            { task with OutputFileID := fileID, Status := TaskStatus.TaskStatusFinished,
                        FinishedAt := some env.now }], ?_, ?_,
          fun _ => ⟨?_, Or.inr (Or.inr ⟨fileID, rfl⟩)⟩, fun h => absurd h hne⟩
        · simp [monitorLoop, h1, onEnd, hname, hfind, markFinished, Repo.Update_ok, hfaults]
        · simp [monitorLoop, h1, onEnd, hname, hfind, markFinished, Repo.Update_ok, hfaults]
        · simp [monitorLoop, h1, onEnd, hname, hfind, markFinished, Repo.Update_ok, hfaults]
  · have h2 : t.Event = "error" := by
      by_cases h2 : t.Event = "error"
      · exact h2
      · simp [isTerminal, h1, h2] at ht
    refine ⟨[{ task with ErrorMessage := errorText t, Status := TaskStatus.TaskStatusFailed }],
      ?_, ?_, fun h => absurd h h1, fun _ => ⟨?_, rfl⟩⟩
    · simp [monitorLoop, h2, onError, Repo.Update_ok, hfaults, errorText]
    · simp [monitorLoop, h2, onError, Repo.Update_ok, hfaults, errorText]
    · simp [monitorLoop, h2, onError]

/-- C8: the first terminal trigger decides the outcome, stated on the task record and on the
records handed to the store. (1) When the received events are informational up to a first
"end" or "error" event, the result of the monitor (the row, the list of writes, the branch
executed) is the same whatever follows that event (further events, a read error, a second
terminal event, the timer), and it is the result of that event: the store receives, after
what it held, the records of the "end" branch when the event is "end" and the one Failed
record carrying the event's error text when it is "error", and the last of them is the row.
(2) For every sequence of received values the monitor either writes nothing and leaves the
row as it was, or writes the records of exactly one of the five outcomes, the last of which
becomes the row; for a Running task at most one of the records written has a final status.
(3) On every complete run (a stream under a schedule) the second case holds: the records of
exactly one outcome are written, for a Running task exactly one of them has a final status,
and it is the last one, which is the row afterwards. -/
theorem first_trigger_decides (env : Env) (repo : Repo) (task : Task)
    (hrow : repo.row = some task) (hfaults : repo.faults = []) :
    (∀ (pre : List LangflowStreamEvent) (t : LangflowStreamEvent) (rest : List Signal),
      (∀ e ∈ pre, isTerminal e = false) → isTerminal t = true →
      monitorWorkflowStatus env repo task.ID (pre.map Signal.event ++ Signal.event t :: rest)
        = monitorWorkflowStatus env repo task.ID (pre.map Signal.event ++ [Signal.event t]) ∧
      ∃ ws,
        (monitorWorkflowStatus env repo task.ID
          (pre.map Signal.event ++ Signal.event t :: rest)).repo.writes = repo.writes ++ ws ∧
        (monitorWorkflowStatus env repo task.ID
          (pre.map Signal.event ++ Signal.event t :: rest)).repo.row = ws.getLast? ∧
        (t.Event = "end" →
          (monitorWorkflowStatus env repo task.ID
            (pre.map Signal.event ++ Signal.event t :: rest)).fired = [Outcome.endEvent] ∧
          outcomeWrites env task Outcome.endEvent ws) ∧
        (t.Event = "error" →
          (monitorWorkflowStatus env repo task.ID
            (pre.map Signal.event ++ Signal.event t :: rest)).fired = [Outcome.errorEvent] ∧
          ws = [{ task with ErrorMessage := errorText t,
                            Status := TaskStatus.TaskStatusFailed }])) ∧
    (∀ sigs : List Signal, ∃ ws,
      (monitorWorkflowStatus env repo task.ID sigs).repo.writes = repo.writes ++ ws ∧
      (((monitorWorkflowStatus env repo task.ID sigs).fired = [] ∧ ws = [] ∧
          (monitorWorkflowStatus env repo task.ID sigs).repo.row = some task) ∨
        ∃ o, (monitorWorkflowStatus env repo task.ID sigs).fired = [o] ∧
          outcomeWrites env task o ws ∧
          (monitorWorkflowStatus env repo task.ID sigs).repo.row = ws.getLast?) ∧
      (task.Status = TaskStatus.TaskStatusRunning →
        (ws.filter (fun r => r.Status.isFinal)).length ≤ 1)) ∧
    (∀ (s : Stream) (sch : Schedule), ∃ o ws,
      (monitorWorkflowStatus env repo task.ID (selectTrace s sch)).fired = [o] ∧
      outcomeWrites env task o ws ∧
      (monitorWorkflowStatus env repo task.ID (selectTrace s sch)).repo.writes
        = repo.writes ++ ws ∧
      (monitorWorkflowStatus env repo task.ID (selectTrace s sch)).repo.row = ws.getLast? ∧
      (task.Status = TaskStatus.TaskStatusRunning →
        (ws.filter (fun r => r.Status.isFinal)).length = 1 ∧
        ∃ last, ws.getLast? = some last ∧ last.Status.isFinal = true ∧ last.ID = task.ID)) := by
  refine ⟨?_, ?_, ?_⟩
  · intro pre t rest hpre ht
    rw [monitor_eq_loop env repo task _ hrow hfaults, monitor_eq_loop env repo task _ hrow hfaults,
      monitorLoop_skip_events env task repo pre _ hpre, monitorLoop_skip_events env task repo pre _ hpre]
    refine ⟨?_, monitorLoop_first_terminal env task repo t rest hfaults ht⟩
    by_cases h1 : t.Event = "end"
    · simp [monitorLoop, h1]
    · by_cases h2 : t.Event = "error"
      · simp [monitorLoop, h2]
      · simp [isTerminal, h1, h2] at ht
  · intro sigs
    rw [monitor_eq_loop env repo task _ hrow hfaults]
    obtain ⟨ws, hw, h⟩ := monitorLoop_applied env task repo sigs hfaults hrow
    refine ⟨ws, hw, h, fun hrun => ?_⟩
    rcases h with ⟨_, hnil, _⟩ | ⟨o, _, ho, _⟩
    · simp [hnil]
    · exact le_of_eq (outcomeWrites_one_final env task o ws hrun ho).1
  · intro s sch
    rw [monitor_eq_loop env repo task _ hrow hfaults]
    obtain ⟨ws, hw, h⟩ := monitorLoop_applied env task repo (selectTrace s sch) hfaults hrow
    obtain ⟨o, hfired⟩ :=
      monitorLoop_fired_of_trigger env task repo _ (selectTrace_has_trigger s sch)
    rcases h with ⟨hnone, _, _⟩ | ⟨o2, ho2, hws, hr⟩
    · rw [hnone] at hfired
      exact absurd hfired (by simp)
    · exact ⟨o2, ws, ho2, hws, hw, hr, fun hrun => outcomeWrites_one_final env task o2 ws hrun hws⟩

/-- Witness of C8: after an informational event and an "error" event, a later "end" event,
a read error and the timer change nothing; the store receives the one Failed record with the
fixed error text, and it is the row. -/
theorem first_trigger_decides_witness :
    sampleRepo.row = some sampleTask ∧ sampleRepo.faults = [] ∧
    (∀ e ∈ [tokenEvent], isTerminal e = false) ∧
    isTerminal { Event := "error", Data := [] } = true ∧
    (monitorWorkflowStatus sampleEnv sampleRepo sampleTask.ID
        ([tokenEvent].map Signal.event ++ Signal.event { Event := "error", Data := [] } ::
          [Signal.event endEvent, Signal.streamErr "stream reading error: EOF", Signal.timeout])
      = monitorWorkflowStatus sampleEnv sampleRepo sampleTask.ID
        ([tokenEvent].map Signal.event ++ [Signal.event { Event := "error", Data := [] }])) ∧
    (monitorWorkflowStatus sampleEnv sampleRepo sampleTask.ID
        ([tokenEvent].map Signal.event ++ Signal.event { Event := "error", Data := [] } ::
          [Signal.event endEvent, Signal.streamErr "stream reading error: EOF",
            Signal.timeout])).repo.writes
      = [{ sampleTask with ErrorMessage := "Workflow execution failed",
                           Status := TaskStatus.TaskStatusFailed }] ∧
    (monitorWorkflowStatus sampleEnv sampleRepo sampleTask.ID
        ([tokenEvent].map Signal.event ++ Signal.event { Event := "error", Data := [] } ::
          [Signal.event endEvent, Signal.streamErr "stream reading error: EOF",
            Signal.timeout])).repo.row
      = some { sampleTask with ErrorMessage := "Workflow execution failed",
                               Status := TaskStatus.TaskStatusFailed } :=
  ⟨rfl, rfl, by decide, by decide,
    ((first_trigger_decides sampleEnv sampleRepo sampleTask rfl rfl).1 [tokenEvent]
      { Event := "error", Data := [] }
      [Signal.event endEvent, Signal.streamErr "stream reading error: EOF", Signal.timeout]
      (by decide) (by decide)).1,
    by decide, by decide⟩

/-! ## The pipeline: status and error message of the persisted records -/

theorem monitorLoop_writes (env : Env) (task : Task) (repo : Repo) (sigs : List Signal)
    (hfaults : repo.faults = []) :
    ∃ ws, (monitorLoop env task repo sigs).repo.writes = repo.writes ++ ws ∧
      (((monitorLoop env task repo sigs).fired = [] ∧ ws = []) ∨
       ((monitorLoop env task repo sigs).fired = [Outcome.endEvent] ∧
          ws = [{ task with Status := TaskStatus.TaskStatusFailed }]) ∨
       ((monitorLoop env task repo sigs).fired = [Outcome.endEvent] ∧ ∃ fileID,
          ws = [{ task with OutputFileID := fileID },
                { task with OutputFileID := fileID, Status := TaskStatus.TaskStatusFinished,
                            FinishedAt := some env.now }]) ∨
       ((monitorLoop env task repo sigs).fired = [Outcome.endEvent] ∧
          ws = [{ task with Status := TaskStatus.TaskStatusFinished, FinishedAt := some env.now }]) ∨
       ((monitorLoop env task repo sigs).fired = [Outcome.errorEvent] ∧ ∃ m,
          ws = [{ task with ErrorMessage := m, Status := TaskStatus.TaskStatusFailed }]) ∨
       ((monitorLoop env task repo sigs).fired = [Outcome.streamEnded] ∧
          ws = [{ task with Status := TaskStatus.TaskStatusFailed,
                            ErrorMessage := "Channel closed, stream ended but no end event received" }]) ∨
       ((monitorLoop env task repo sigs).fired = [Outcome.readError] ∧
          ws = [{ task with Status := TaskStatus.TaskStatusFailed,
                            ErrorMessage := "Error reading stream for task" }]) ∨
       ((monitorLoop env task repo sigs).fired = [Outcome.timedOut] ∧
          ws = [{ task with Status := TaskStatus.TaskStatusFailed,
                            ErrorMessage := "Workflow execution timeout" }])) := by
  induction sigs with
  | nil => exact ⟨[], by simp [monitorLoop]⟩
  | cons s ss ih =>
    cases s with
    | event e =>
      by_cases h1 : e.Event = "end"
      · by_cases hname : task.OutputFile = ""
        · refine ⟨[{ task with Status := TaskStatus.TaskStatusFinished, FinishedAt := some env.now }], ?_, ?_⟩
          · simp [monitorLoop, h1, onEnd, hname, markFinished, Repo.Update_ok, hfaults]
          · simp [monitorLoop, h1, onEnd, hname, markFinished]
        · cases hfind : findFileIDByName env.getFileList task.OutputFile with
          | error err =>
            refine ⟨[{ task with Status := TaskStatus.TaskStatusFailed }], ?_, ?_⟩
            · simp [monitorLoop, h1, onEnd, hname, hfind, Repo.Update_ok, hfaults]
            · simp [monitorLoop, h1, onEnd, hname, hfind]
          | ok fileID =>
            refine ⟨[{ task with OutputFileID := fileID },
                { task with OutputFileID := fileID, Status := TaskStatus.TaskStatusFinished,
                            FinishedAt := some env.now }], ?_, ?_⟩
            · simp [monitorLoop, h1, onEnd, hname, hfind, markFinished, Repo.Update_ok, hfaults]
            · simp [monitorLoop, h1, onEnd, hname, hfind, markFinished, Repo.Update_ok, hfaults]
      · by_cases h2 : e.Event = "error"
        · refine ⟨[{ task with
              ErrorMessage := (match asString (e.Data.lookup "error") with
                | some data => data
                | none => "Workflow execution failed"),
              Status := TaskStatus.TaskStatusFailed }], ?_, ?_⟩
          · simp [monitorLoop, h2, onError, Repo.Update_ok, hfaults]
          · simp [monitorLoop, h2, onError]
        · simpa [monitorLoop, h1, h2] using ih
    | errorClosed => simpa [monitorLoop] using ih
    | eventClosed =>
      exact ⟨[{ task with Status := TaskStatus.TaskStatusFailed,
                          ErrorMessage := "Channel closed, stream ended but no end event received" }],
        by simp [monitorLoop, onChannelClosed, Repo.Update_ok, hfaults],
        by simp [monitorLoop, onChannelClosed]⟩
    | streamErr m =>
      exact ⟨[{ task with Status := TaskStatus.TaskStatusFailed,
                          ErrorMessage := "Error reading stream for task" }],
        by simp [monitorLoop, onStreamErr, Repo.Update_ok, hfaults],
        by simp [monitorLoop, onStreamErr]⟩
    | timeout =>
      exact ⟨[{ task with Status := TaskStatus.TaskStatusFailed,
                          ErrorMessage := "Workflow execution timeout" }],
        by simp [monitorLoop, onTimeout, Repo.Update_ok, hfaults],
        by simp [monitorLoop, onTimeout]⟩

theorem RunWorkflow_shape (env : Env) (repo : Repo) (com : Task) (fp dn : String)
    (cp : Option String) (hrow : repo.row = some com) (hfaults : repo.faults = []) :
    ((RunWorkflow env repo com.ID fp dn cp).repo = repo ∧
      (RunWorkflow env repo com.ID fp dn cp).err ≠ none ∧
      (RunWorkflow env repo com.ID fp dn cp).monitorStarted = false) ∨
    (∃ upd : Task, upd.Status = com.Status ∧ upd.ErrorMessage = com.ErrorMessage ∧ upd.ID = com.ID ∧
      (RunWorkflow env repo com.ID fp dn cp).repo
        = { repo with row := some upd, writes := repo.writes ++ [upd] } ∧
      (((RunWorkflow env repo com.ID fp dn cp).err ≠ none ∧
          (RunWorkflow env repo com.ID fp dn cp).monitorStarted = false) ∨
       ((RunWorkflow env repo com.ID fp dn cp).err = none ∧
          (RunWorkflow env repo com.ID fp dn cp).monitorStarted = true))) := by
  unfold RunWorkflow
  cases env.uploadFile with
  | error e => left; simp
  | ok pr =>
    obtain ⟨p, i⟩ := pr
    right
    refine ⟨{ com with
      FilePath := p, UploadFileID := i, OutputFile := "testcase_" ++ toString env.timestamp,
      DownloadFile := dn ++ "_" ++ toString env.timestamp }, rfl, rfl, rfl, ?_⟩
    simp only [Repo.GetById_ok repo com hrow hfaults, Repo.Update_ok _ _ hfaults]
    cases buildRunRequest env.config p ("testcase_" ++ toString env.timestamp) cp with
    | none => simp
    | some body =>
      cases env.newRequestErr with
      | some e => simp
      | none =>
        cases env.runResponse with
        | error e => simp
        | ok r =>
          obtain ⟨code, text⟩ := r
          by_cases hc : code = 200 <;> simp [hc]

theorem runPipeline_shape (env : Env) (repo : Repo) (req : TaskCreateRequest) (sigs : List Signal)
    (hfaults : repo.faults = []) (hd : req.DownloadFile ≠ "") (hp : req.FilePath ≠ "") :
    ∃ com : Task, com.Status = TaskStatus.TaskStatusRunning ∧ com.ErrorMessage = "" ∧
      (((runPipeline env repo req sigs).fired = [] ∧
         ((runPipeline env repo req sigs).repo.writes
            = repo.writes ++ [com, { com with Status := TaskStatus.TaskStatusFailed }] ∨
          ∃ upd : Task, upd.Status = TaskStatus.TaskStatusRunning ∧ upd.ErrorMessage = "" ∧
            (runPipeline env repo req sigs).repo.writes
              = repo.writes ++ [com, upd, { com with Status := TaskStatus.TaskStatusFailed }])) ∨
       (∃ (upd : Task) (repo2 : Repo), upd.Status = TaskStatus.TaskStatusRunning ∧
          upd.ErrorMessage = "" ∧ repo2.faults = [] ∧ repo2.writes = repo.writes ++ [com, upd] ∧
          (runPipeline env repo req sigs).repo = (monitorLoop env upd repo2 sigs).repo ∧
          (runPipeline env repo req sigs).fired = (monitorLoop env upd repo2 sigs).fired)) := by
  obtain ⟨model, hmodel, hms, hme⟩ : ∃ m : Task, TaskCreateReq2Model req = Except.ok m ∧
      m.Status = TaskStatus.TaskStatusRunning ∧ m.ErrorMessage = "" := by
    simp [TaskCreateReq2Model, hd, hp]
  have hcreate : TaskCreate repo (some req) =
      { repo := { repo with row := some { model with ID := repo.nextID }, nextID := repo.nextID + 1,
                            writes := repo.writes ++ [{ model with ID := repo.nextID }] },
        resp := some { Code := 0, Message := "任务创建成功" }, err := none,
        spawned := some { model with ID := repo.nextID } } := by
    simp [TaskCreate, hmodel, Repo.Create, Repo.nextFault, hfaults]
  refine ⟨{ model with ID := repo.nextID }, hms, hme, ?_⟩
  have hshape := RunWorkflow_shape env
    { repo with row := some { model with ID := repo.nextID }, nextID := repo.nextID + 1,
                writes := repo.writes ++ [{ model with ID := repo.nextID }] }
    { model with ID := repo.nextID } model.LocalFilePath req.DownloadFile
    (match req.TemplateID with
      | some _ =>
        match env.buildPrompt with
        | Except.ok prompt => some prompt
        | Except.error _ => none
      | none => none) rfl hfaults
  unfold runPipeline taskCreateBackground
  simp only [hcreate]
  generalize RunWorkflow env _ _ _ _ _ = run at hshape ⊢
  rcases hshape with ⟨hrepo, herr, hmon⟩ | ⟨upd, hs, hm, hid, hrepo, ⟨herr, hmon⟩ | ⟨herr, hmon⟩⟩
  · left
    cases hr : run.err with
    | none => exact absurd hr herr
    | some e => simp [hmon, hrepo, Repo.Update_ok, hfaults]
  · left
    cases hr : run.err with
    | none => exact absurd hr herr
    | some e =>
      refine ⟨by simp [hmon], Or.inr ⟨upd, hs.trans hms, hm.trans hme, ?_⟩⟩
      simp [hmon, hrepo, Repo.Update_ok, hfaults]
  · right
    refine ⟨upd, run.repo, hs.trans hms, hm.trans hme, ?_, ?_, ?_, ?_⟩
    · simp [hrepo, hfaults]
    · simp [hrepo]
    · have hloop := monitor_eq_loop env run.repo upd sigs (by simp [hrepo]) (by simp [hrepo, hfaults])
      rw [hid] at hloop
      simp [herr, hmon, hloop]
    · have hloop := monitor_eq_loop env run.repo upd sigs (by simp [hrepo]) (by simp [hrepo, hfaults])
      rw [hid] at hloop
      simp [herr, hmon, hloop]

/-- C9: for every created task (a valid request, over a store that accepts its calls) and
every course of the pipeline (whatever the upload, the run request, the listing, the stream,
a read error, the timer and the schedule give), the statuses written to the task record, in
order, are one or more times Running followed by exactly one final status, Finished or
Failed, written last: the sequence starts with Running and no write follows the terminal
one. -/
theorem status_trajectory (env : Env) (repo : Repo) (req : TaskCreateRequest)
    (s : Stream) (sch : Schedule)
    (hfaults : repo.faults = []) (hd : req.DownloadFile ≠ "") (hp : req.FilePath ≠ "") :
    ∃ (ws : List Task) (k : Nat) (last : TaskStatus),
      (runPipeline env repo req (selectTrace s sch)).repo.writes = repo.writes ++ ws ∧
      ws.map (fun t => t.Status)
        = List.replicate (k + 1) TaskStatus.TaskStatusRunning ++ [last] ∧
      (last = TaskStatus.TaskStatusFinished ∨ last = TaskStatus.TaskStatusFailed) := by
  obtain ⟨com, hcs, _, hcases⟩ := runPipeline_shape env repo req (selectTrace s sch) hfaults hd hp
  rcases hcases with ⟨_, hw | ⟨upd, hus, _, hw⟩⟩ | ⟨upd, repo2, hus, _, hf2, hw2, hrepo, _⟩
  · exact ⟨_, 0, TaskStatus.TaskStatusFailed, hw, by simp [hcs], Or.inr rfl⟩
  · exact ⟨_, 1, TaskStatus.TaskStatusFailed, hw, by simp [hcs, hus, List.replicate], Or.inr rfl⟩
  · obtain ⟨ws, hws, hcase⟩ := monitorLoop_writes env upd repo2 (selectTrace s sch) hf2
    obtain ⟨o, ho⟩ := monitorLoop_fired_of_trigger env upd repo2 _ (selectTrace_has_trigger s sch)
    have hw : (runPipeline env repo req (selectTrace s sch)).repo.writes
        = repo.writes ++ ([com, upd] ++ ws) := by
      rw [hrepo, hws, hw2, List.append_assoc]
    rcases hcase with ⟨hf, _⟩ | ⟨_, h⟩ | ⟨_, fileID, h⟩ | ⟨_, h⟩ | ⟨_, m, h⟩ | ⟨_, h⟩ | ⟨_, h⟩ | ⟨_, h⟩
    · rw [ho] at hf
      exact absurd hf (by simp)
    · exact ⟨_, 1, TaskStatus.TaskStatusFailed, hw, by simp [h, hcs, hus, List.replicate], Or.inr rfl⟩
    · exact ⟨_, 2, TaskStatus.TaskStatusFinished, hw, by simp [h, hcs, hus, List.replicate], Or.inl rfl⟩
    · exact ⟨_, 1, TaskStatus.TaskStatusFinished, hw, by simp [h, hcs, hus, List.replicate], Or.inl rfl⟩
    · exact ⟨_, 1, TaskStatus.TaskStatusFailed, hw, by simp [h, hcs, hus, List.replicate], Or.inr rfl⟩
    · exact ⟨_, 1, TaskStatus.TaskStatusFailed, hw, by simp [h, hcs, hus, List.replicate], Or.inr rfl⟩
    · exact ⟨_, 1, TaskStatus.TaskStatusFailed, hw, by simp [h, hcs, hus, List.replicate], Or.inr rfl⟩
    · exact ⟨_, 1, TaskStatus.TaskStatusFailed, hw, by simp [h, hcs, hus, List.replicate], Or.inr rfl⟩

/-- Witness of C9: a run that reaches "end" and resolves the output writes Running three
times (creation, upload data, output file id) and then Finished. -/
theorem status_trajectory_witness :
    emptyRepo.faults = [] ∧ sampleReq.DownloadFile ≠ "" ∧ sampleReq.FilePath ≠ "" ∧
    ((runPipeline sampleEnv emptyRepo sampleReq
        (selectTrace { events := [tokenEvent, endEvent], scanErr := none }
          { timeoutAt := none, spins := 0 })).repo.writes.map (fun t => t.Status))
      = [TaskStatus.TaskStatusRunning, TaskStatus.TaskStatusRunning, TaskStatus.TaskStatusRunning,
         TaskStatus.TaskStatusFinished] ∧
    (∃ (ws : List Task) (k : Nat) (last : TaskStatus),
      (runPipeline sampleEnv emptyRepo sampleReq
        (selectTrace { events := [tokenEvent, endEvent], scanErr := none }
          { timeoutAt := none, spins := 0 })).repo.writes = emptyRepo.writes ++ ws ∧
      ws.map (fun t => t.Status)
        = List.replicate (k + 1) TaskStatus.TaskStatusRunning ++ [last] ∧
      (last = TaskStatus.TaskStatusFinished ∨ last = TaskStatus.TaskStatusFailed)) :=
  ⟨rfl, by decide, by decide, by decide,
    status_trajectory sampleEnv emptyRepo sampleReq
      { events := [tokenEvent, endEvent], scanErr := none } { timeoutAt := none, spins := 0 }
      rfl (by decide) (by decide)⟩

/-- C10, the code at three failing inputs: the upload fails, the file slot is not configured
(the run trigger fails), and an "end" event arrives while the listing has no entry named like
the output. In each run the last record persisted has status Failed and an empty error
message; the records before it are Running with an empty message. -/
theorem failed_without_reason :
    ((runPipeline uploadErrEnv emptyRepo sampleReq []).repo.writes.map
      (fun t => (t.Status, t.ErrorMessage)))
      = [(TaskStatus.TaskStatusRunning, ""), (TaskStatus.TaskStatusFailed, "")] ∧
    ((runPipeline noSlotEnv emptyRepo sampleReq []).repo.writes.map
      (fun t => (t.Status, t.ErrorMessage)))
      = [(TaskStatus.TaskStatusRunning, ""), (TaskStatus.TaskStatusRunning, ""),
         (TaskStatus.TaskStatusFailed, "")] ∧
    ((runPipeline noFileEnv emptyRepo sampleReq [Signal.event endEvent]).repo.writes.map
      (fun t => (t.Status, t.ErrorMessage)))
      = [(TaskStatus.TaskStatusRunning, ""), (TaskStatus.TaskStatusRunning, ""),
         (TaskStatus.TaskStatusFailed, "")] ∧
    ((runPipeline noFileEnv emptyRepo sampleReq [Signal.event endEvent]).repo.row.map
      (fun t => (t.Status, t.ErrorMessage))) = some (TaskStatus.TaskStatusFailed, "") := by
  decide

/-! ## The pipeline: output file id of the persisted records -/

theorem RunWorkflow_detail (env : Env) (repo : Repo) (com : Task) (fp dn : String)
    (cp : Option String) (hrow : repo.row = some com) (hfaults : repo.faults = []) :
    ((∃ e, env.uploadFile = Except.error e) ∧
      (RunWorkflow env repo com.ID fp dn cp).repo = repo ∧
      (RunWorkflow env repo com.ID fp dn cp).err ≠ none ∧
      (RunWorkflow env repo com.ID fp dn cp).monitorStarted = false) ∨
    (∃ p i, env.uploadFile = Except.ok (p, i) ∧
      (RunWorkflow env repo com.ID fp dn cp).repo
        = { repo with
            row := some { com with
              FilePath := p, UploadFileID := i, OutputFile := "testcase_" ++ toString env.timestamp,
              DownloadFile := dn ++ "_" ++ toString env.timestamp },
            writes := repo.writes ++ [{ com with
              FilePath := p, UploadFileID := i, OutputFile := "testcase_" ++ toString env.timestamp,
              DownloadFile := dn ++ "_" ++ toString env.timestamp }] } ∧
      (((RunWorkflow env repo com.ID fp dn cp).err ≠ none ∧
          (RunWorkflow env repo com.ID fp dn cp).monitorStarted = false) ∨
       ((RunWorkflow env repo com.ID fp dn cp).err = none ∧
          (RunWorkflow env repo com.ID fp dn cp).monitorStarted = true))) := by
  unfold RunWorkflow
  cases env.uploadFile with
  | error e => left; simp
  | ok pr =>
    obtain ⟨p, i⟩ := pr
    right
    refine ⟨p, i, rfl, ?_⟩
    simp only [Repo.GetById_ok repo com hrow hfaults, Repo.Update_ok _ _ hfaults]
    cases buildRunRequest env.config p ("testcase_" ++ toString env.timestamp) cp with
    | none => simp
    | some body =>
      cases env.newRequestErr with
      | some e => simp
      | none =>
        cases env.runResponse with
        | error e => simp
        | ok r =>
          obtain ⟨code, text⟩ := r
          by_cases hc : code = 200 <;> simp [hc]

theorem TaskCreate_valid (repo : Repo) (req : TaskCreateRequest)
    (hfaults : repo.faults = []) (hd : req.DownloadFile ≠ "") (hp : req.FilePath ≠ "") :
    TaskCreate repo (some req) =
      { repo := { repo with row := some (createdRecord req repo.nextID), nextID := repo.nextID + 1,
                            writes := repo.writes ++ [createdRecord req repo.nextID] },
        resp := some { Code := 0, Message := "任务创建成功" }, err := none,
        spawned := some (createdRecord req repo.nextID) } := by
  simp [TaskCreate, TaskCreateReq2Model, hd, hp, Repo.Create, Repo.nextFault, hfaults, createdRecord]

theorem runPipeline_detail (env : Env) (repo : Repo) (req : TaskCreateRequest) (sigs : List Signal)
    (hfaults : repo.faults = []) (hd : req.DownloadFile ≠ "") (hp : req.FilePath ≠ "") :
    ((runPipeline env repo req sigs).fired = [] ∧
      (runPipeline env repo req sigs).repo.row
        = some { createdRecord req repo.nextID with Status := TaskStatus.TaskStatusFailed } ∧
      ((runPipeline env repo req sigs).repo.writes
          = repo.writes ++ [createdRecord req repo.nextID,
              { createdRecord req repo.nextID with Status := TaskStatus.TaskStatusFailed }] ∨
       ∃ p i, (runPipeline env repo req sigs).repo.writes
          = repo.writes ++ [createdRecord req repo.nextID, uploadedRecord env req repo.nextID p i,
              { createdRecord req repo.nextID with Status := TaskStatus.TaskStatusFailed }])) ∨
    (∃ p i, env.uploadFile = Except.ok (p, i) ∧
      (runPipeline env repo req sigs).repo
        = (monitorLoop env (uploadedRecord env req repo.nextID p i)
            { repo with
              row := some (uploadedRecord env req repo.nextID p i), nextID := repo.nextID + 1,
              writes := repo.writes ++
                [createdRecord req repo.nextID, uploadedRecord env req repo.nextID p i] } sigs).repo ∧
      (runPipeline env repo req sigs).fired
        = (monitorLoop env (uploadedRecord env req repo.nextID p i)
            { repo with
              row := some (uploadedRecord env req repo.nextID p i), nextID := repo.nextID + 1,
              writes := repo.writes ++
                [createdRecord req repo.nextID, uploadedRecord env req repo.nextID p i] } sigs).fired) := by
  have hcreate := TaskCreate_valid repo req hfaults hd hp
  have hshape := RunWorkflow_detail env
    { repo with row := some (createdRecord req repo.nextID), nextID := repo.nextID + 1,
                writes := repo.writes ++ [createdRecord req repo.nextID] }
    (createdRecord req repo.nextID) (createdRecord req repo.nextID).LocalFilePath req.DownloadFile
    (match req.TemplateID with
      | some _ =>
        match env.buildPrompt with
        | Except.ok prompt => some prompt
        | Except.error _ => none
      | none => none) rfl hfaults
  unfold runPipeline taskCreateBackground
  simp only [hcreate]
  generalize RunWorkflow env _ _ _ _ _ = run at hshape ⊢
  rcases hshape with ⟨_, hrepo, herr, hmon⟩ | ⟨p, i, hup, hrepo, ⟨herr, hmon⟩ | ⟨herr, hmon⟩⟩
  · left
    cases hr : run.err with
    | none => exact absurd hr herr
    | some e => simp [hmon, hrepo, Repo.Update_ok, hfaults]
  · left
    cases hr : run.err with
    | none => exact absurd hr herr
    | some e =>
      refine ⟨by simp [hmon], by simp [hmon, hrepo, Repo.Update_ok, hfaults], Or.inr ⟨p, i, ?_⟩⟩
      simp [hmon, hrepo, Repo.Update_ok, hfaults, uploadedRecord, createdRecord]
  · right
    have hloop := monitor_eq_loop env run.repo (uploadedRecord env req repo.nextID p i) sigs
      (by simp [hrepo, uploadedRecord, createdRecord]) (by simp [hrepo, hfaults])
    have hid : (uploadedRecord env req repo.nextID p i).ID = (createdRecord req repo.nextID).ID := rfl
    rw [hid] at hloop
    refine ⟨p, i, hup, ?_, ?_⟩
    · simp only [herr, hmon, if_true, hloop]
      rw [hrepo]
      simp [uploadedRecord, createdRecord, List.append_assoc]
    · simp only [herr, hmon, if_true, hloop]
      rw [hrepo]
      simp [uploadedRecord, createdRecord, List.append_assoc]

theorem output_name_nonempty (s : String) : "testcase_" ++ s ≠ "" := by
  intro h
  have hlen := congrArg String.length h
  simp only [String.length_append] at hlen
  have h9 : "testcase_".length = 9 := by decide
  have h0 : "".length = 0 := by decide
  omega

theorem monitorLoop_named (env : Env) (task : Task) (repo : Repo) (sigs : List Signal)
    (hfaults : repo.faults = []) (hname : task.OutputFile ≠ "") :
    ∃ ws, (monitorLoop env task repo sigs).repo.writes = repo.writes ++ ws ∧
      ((∀ t ∈ ws, t.Status = TaskStatus.TaskStatusFailed ∧ t.OutputFileID = task.OutputFileID) ∨
       (∃ fileID, findFileIDByName env.getFileList task.OutputFile = Except.ok fileID ∧
          ws = [{ task with OutputFileID := fileID },
                { task with OutputFileID := fileID, Status := TaskStatus.TaskStatusFinished,
                            FinishedAt := some env.now }])) := by
  induction sigs with
  | nil => exact ⟨[], by simp [monitorLoop]⟩
  | cons s ss ih =>
    cases s with
    | event e =>
      by_cases h1 : e.Event = "end"
      · cases hfind : findFileIDByName env.getFileList task.OutputFile with
        | error err =>
          refine ⟨[{ task with Status := TaskStatus.TaskStatusFailed }], ?_, Or.inl ?_⟩
          · simp [monitorLoop, h1, onEnd, hname, hfind, Repo.Update_ok, hfaults]
          · simp
        | ok fileID =>
          refine ⟨[{ task with OutputFileID := fileID },
              { task with OutputFileID := fileID, Status := TaskStatus.TaskStatusFinished,
                          FinishedAt := some env.now }], ?_, Or.inr ⟨fileID, rfl, rfl⟩⟩
          simp [monitorLoop, h1, onEnd, hname, hfind, markFinished, Repo.Update_ok, hfaults]
      · by_cases h2 : e.Event = "error"
        · refine ⟨[{ task with
              ErrorMessage := (match asString (e.Data.lookup "error") with
                | some data => data
                | none => "Workflow execution failed"),
              Status := TaskStatus.TaskStatusFailed }], ?_, Or.inl ?_⟩
          · simp [monitorLoop, h2, onError, Repo.Update_ok, hfaults]
          · simp
        · simpa [monitorLoop, h1, h2] using ih
    | errorClosed => simpa [monitorLoop] using ih
    | eventClosed =>
      exact ⟨[{ task with Status := TaskStatus.TaskStatusFailed,
                          ErrorMessage := "Channel closed, stream ended but no end event received" }],
        by simp [monitorLoop, onChannelClosed, Repo.Update_ok, hfaults], Or.inl (by simp)⟩
    | streamErr m =>
      exact ⟨[{ task with Status := TaskStatus.TaskStatusFailed,
                          ErrorMessage := "Error reading stream for task" }],
        by simp [monitorLoop, onStreamErr, Repo.Update_ok, hfaults], Or.inl (by simp)⟩
    | timeout =>
      exact ⟨[{ task with Status := TaskStatus.TaskStatusFailed,
                          ErrorMessage := "Workflow execution timeout" }],
        by simp [monitorLoop, onTimeout, Repo.Update_ok, hfaults], Or.inl (by simp)⟩

/-- C11, refuted as stated: in a run that reaches "end" and resolves the output, the third
record persisted carries the output file id "f2neq1" while its status is still Running; the
Finished record follows it. -/
theorem running_record_with_output_id_counterexample :
    ((runPipeline sampleEnv emptyRepo sampleReq
        [Signal.event tokenEvent, Signal.event endEvent]).repo.writes.map
      (fun t => (t.Status, t.OutputFileID)))
      = [(TaskStatus.TaskStatusRunning, ""), (TaskStatus.TaskStatusRunning, ""),
         (TaskStatus.TaskStatusRunning, "f2neq1"), (TaskStatus.TaskStatusFinished, "f2neq1")] := by
  decide

/-- C11, amended: in every pipeline run for a valid request over a store that accepts its
calls, either every persisted record has an empty output file id and a status other than
Finished, or the run ends with the two writes of the "end" branch: the intermediate record,
still Running, and the Finished record, both carrying the id that the listing gives for the
task's output name; every record before them is Running with an empty output file id. So a
Failed record never carries an output file id, a Finished record always carries the listed
id, and the only Running record with an id is the intermediate write. -/
theorem output_id_of_persisted_records (env : Env) (repo : Repo) (req : TaskCreateRequest)
    (sigs : List Signal)
    (hfaults : repo.faults = []) (hd : req.DownloadFile ≠ "") (hp : req.FilePath ≠ "") :
    ∃ ws : List Task,
      (runPipeline env repo req sigs).repo.writes = repo.writes ++ ws ∧
      ((∀ t ∈ ws, t.OutputFileID = "" ∧ t.Status ≠ TaskStatus.TaskStatusFinished) ∨
       (∃ (pre : List Task) (r f : Task) (fileID : String),
          ws = pre ++ [r, f] ∧
          (∀ t ∈ pre, t.OutputFileID = "" ∧ t.Status = TaskStatus.TaskStatusRunning) ∧
          r.Status = TaskStatus.TaskStatusRunning ∧ r.OutputFileID = fileID ∧
          f.Status = TaskStatus.TaskStatusFinished ∧ f.OutputFileID = fileID ∧
          findFileIDByName env.getFileList ("testcase_" ++ toString env.timestamp)
            = Except.ok fileID)) := by
  rcases runPipeline_detail env repo req sigs hfaults hd hp with
    ⟨_, _, hw | ⟨p, i, hw⟩⟩ | ⟨p, i, _, hrepo, _⟩
  · refine ⟨_, hw, Or.inl ?_⟩
    intro t ht
    simp only [List.mem_cons, List.mem_singleton, List.not_mem_nil, or_false] at ht
    rcases ht with rfl | rfl <;> simp [createdRecord]
  · refine ⟨_, hw, Or.inl ?_⟩
    intro t ht
    simp only [List.mem_cons, List.mem_singleton, List.not_mem_nil, or_false] at ht
    rcases ht with rfl | rfl | rfl <;> simp [createdRecord, uploadedRecord]
  · obtain ⟨ws, hws, hcase⟩ := monitorLoop_named env (uploadedRecord env req repo.nextID p i)
      { repo with
        row := some (uploadedRecord env req repo.nextID p i), nextID := repo.nextID + 1,
        writes := repo.writes ++
          [createdRecord req repo.nextID, uploadedRecord env req repo.nextID p i] } sigs hfaults
      (output_name_nonempty _)
    have hw : (runPipeline env repo req sigs).repo.writes
        = repo.writes ++ ([createdRecord req repo.nextID, uploadedRecord env req repo.nextID p i] ++ ws) := by
      rw [hrepo, hws, List.append_assoc]
    refine ⟨_, hw, ?_⟩
    rcases hcase with hall | ⟨fileID, hfind, hwsf⟩
    · left
      intro t ht
      rcases List.mem_append.1 ht with ht | ht
      · simp only [List.mem_cons, List.mem_singleton, List.not_mem_nil, or_false] at ht
        rcases ht with rfl | rfl <;> simp [createdRecord, uploadedRecord]
      · obtain ⟨hs, hidt⟩ := hall t ht
        exact ⟨by rw [hidt]; rfl, by rw [hs]; decide⟩
    · right
      refine ⟨[createdRecord req repo.nextID, uploadedRecord env req repo.nextID p i], _, _, fileID,
        by rw [hwsf], ?_, rfl, rfl, rfl, rfl, hfind⟩
      intro t ht
      simp only [List.mem_cons, List.mem_singleton, List.not_mem_nil, or_false] at ht
      rcases ht with rfl | rfl <;> simp [createdRecord, uploadedRecord]

/-- Witness of the amended C11 on the run that reaches "end" and resolves the output. -/
theorem output_id_of_persisted_records_witness :
    emptyRepo.faults = [] ∧ sampleReq.DownloadFile ≠ "" ∧ sampleReq.FilePath ≠ "" ∧
    (∃ ws : List Task,
      (runPipeline sampleEnv emptyRepo sampleReq
        [Signal.event tokenEvent, Signal.event endEvent]).repo.writes = emptyRepo.writes ++ ws ∧
      ((∀ t ∈ ws, t.OutputFileID = "" ∧ t.Status ≠ TaskStatus.TaskStatusFinished) ∨
       (∃ (pre : List Task) (r f : Task) (fileID : String),
          ws = pre ++ [r, f] ∧
          (∀ t ∈ pre, t.OutputFileID = "" ∧ t.Status = TaskStatus.TaskStatusRunning) ∧
          r.Status = TaskStatus.TaskStatusRunning ∧ r.OutputFileID = fileID ∧
          f.Status = TaskStatus.TaskStatusFinished ∧ f.OutputFileID = fileID ∧
          findFileIDByName sampleEnv.getFileList ("testcase_" ++ toString sampleEnv.timestamp)
            = Except.ok fileID))) :=
  ⟨rfl, by decide, by decide,
    output_id_of_persisted_records sampleEnv emptyRepo sampleReq
      [Signal.event tokenEvent, Signal.event endEvent] rfl (by decide) (by decide)⟩

/-! ## Failures before the monitor, and task creation -/

/-- C12, the code at four failing inputs: the upload fails, the file slot is not configured,
the run request fails in transport, and the engine answers the run request with status 500.
In each run `RunWorkflow` returns an error without starting the monitor, as claimed, and the
background unit of `TaskCreate` then persists the task with status Failed, but with an
empty error message: the error returned by `RunWorkflow` is not stored. -/
theorem run_failure_stores_no_message :
    ((runPipeline uploadErrEnv emptyRepo sampleReq []).run.map (fun r => (r.err, r.monitorStarted))
        = some (some "failed to upload file: file upload API error (status 500): internal error", false) ∧
      (runPipeline uploadErrEnv emptyRepo sampleReq []).fired = [] ∧
      (runPipeline uploadErrEnv emptyRepo sampleReq []).repo.row.map
        (fun t => (t.Status, t.ErrorMessage)) = some (TaskStatus.TaskStatusFailed, "")) ∧
    ((runPipeline noSlotEnv emptyRepo sampleReq []).run.map (fun r => (r.err, r.monitorStarted))
        = some (some "", false) ∧
      (runPipeline noSlotEnv emptyRepo sampleReq []).fired = [] ∧
      (runPipeline noSlotEnv emptyRepo sampleReq []).repo.row.map
        (fun t => (t.Status, t.ErrorMessage)) = some (TaskStatus.TaskStatusFailed, "")) ∧
    ((runPipeline transportErrEnv emptyRepo sampleReq []).run.map (fun r => (r.err, r.monitorStarted))
        = some (some "failed to send request: dial tcp: connection refused", false) ∧
      (runPipeline transportErrEnv emptyRepo sampleReq []).fired = [] ∧
      (runPipeline transportErrEnv emptyRepo sampleReq []).repo.row.map
        (fun t => (t.Status, t.ErrorMessage)) = some (TaskStatus.TaskStatusFailed, "")) ∧
    ((runPipeline badStatusEnv emptyRepo sampleReq []).run.map (fun r => (r.err, r.monitorStarted))
        = some (some "run workflow API error (status 500): Internal Server Error", false) ∧
      (runPipeline badStatusEnv emptyRepo sampleReq []).fired = [] ∧
      (runPipeline badStatusEnv emptyRepo sampleReq []).repo.row.map
        (fun t => (t.Status, t.ErrorMessage)) = some (TaskStatus.TaskStatusFailed, "")) := by
  decide

theorem TaskCreate_rejects_iff (repo : Repo) (req : Option TaskCreateRequest) :
    (TaskCreate repo req).err = some ErrParameterErrorCode ↔
      (req = none ∨ ∃ r, req = some r ∧ (r.FilePath = "" ∨ r.DownloadFile = "")) := by
  have hne : ("保存任务记录失败: failed to create task" : String) ≠ ErrParameterErrorCode := by decide
  cases req with
  | none => simp [TaskCreate]
  | some r =>
    by_cases hd : r.DownloadFile = ""
    · simp [TaskCreate, TaskCreateReq2Model, hd]
    · by_cases hp : r.FilePath = ""
      · simp [TaskCreate, TaskCreateReq2Model, hp]
      · obtain ⟨row, nextID, writes, faults⟩ := repo
        cases faults with
        | nil => simp [TaskCreate, TaskCreateReq2Model, hd, hp, Repo.Create, Repo.nextFault]
        | cons b bs =>
          cases b <;> simp [TaskCreate, TaskCreateReq2Model, hd, hp, Repo.Create, Repo.nextFault, hne]

/-- C13: `TaskCreate` returns the parameter error exactly when the request is nil, its local
input path is empty, or its download name is empty, and then nothing is created: the store
is untouched and no background unit is started. Otherwise the record built from the request
has status Running, the local path and download name of the request, and empty error
message, remote path, upload file id, output name, output file id, run id and finish time;
a store that accepts the call persists exactly that record, with its new id. -/
theorem create_validates_request (repo : Repo) :
    (∀ req : Option TaskCreateRequest,
      (TaskCreate repo req).err = some ErrParameterErrorCode ↔
        (req = none ∨ ∃ r, req = some r ∧ (r.FilePath = "" ∨ r.DownloadFile = ""))) ∧
    (∀ req : Option TaskCreateRequest,
      (TaskCreate repo req).err = some ErrParameterErrorCode →
        (TaskCreate repo req).repo = repo ∧ (TaskCreate repo req).spawned = none ∧
        (TaskCreate repo req).resp = none) ∧
    (∀ r : TaskCreateRequest, r.FilePath ≠ "" → r.DownloadFile ≠ "" →
      ∃ com : Task, TaskCreateReq2Model r = Except.ok com ∧
        com.Status = TaskStatus.TaskStatusRunning ∧ com.LocalFilePath = r.FilePath ∧
        com.DownloadFile = r.DownloadFile ∧ com.OriginalFilename = r.UploadFile ∧
        com.ErrorMessage = "" ∧ com.FilePath = "" ∧ com.UploadFileID = "" ∧
        com.OutputFile = "" ∧ com.OutputFileID = "" ∧ com.LangflowRunID = "" ∧
        com.FinishedAt = none ∧
        (repo.faults = [] →
          (TaskCreate repo (some r)).repo.writes = repo.writes ++ [{ com with ID := repo.nextID }] ∧
          (TaskCreate repo (some r)).repo.row = some { com with ID := repo.nextID })) := by
  refine ⟨TaskCreate_rejects_iff repo, ?_, ?_⟩
  · intro req hreq
    rcases (TaskCreate_rejects_iff repo req).1 hreq with rfl | ⟨r, rfl, hr⟩
    · simp [TaskCreate]
    · have hbad : r.DownloadFile = "" ∨ r.FilePath = "" := hr.symm
      simp [TaskCreate, TaskCreateReq2Model, hbad]
  · intro r hp hd
    refine ⟨createdRecord r 0, by simp [TaskCreateReq2Model, hd, hp, createdRecord],
      rfl, rfl, rfl, rfl, rfl, rfl, rfl, rfl, rfl, rfl, rfl, ?_⟩
    intro hfaults
    rw [TaskCreate_valid repo r hfaults hd hp]
    exact ⟨rfl, rfl⟩

/-- Witness of C13: the sample request is accepted and stored as a Running record; a request
without download name is rejected with the parameter error and nothing is stored. -/
theorem create_validates_request_witness :
    sampleReq.FilePath ≠ "" ∧ sampleReq.DownloadFile ≠ "" ∧ emptyRepo.faults = [] ∧
    (∃ com : Task, TaskCreateReq2Model sampleReq = Except.ok com ∧
        com.Status = TaskStatus.TaskStatusRunning ∧ com.LocalFilePath = sampleReq.FilePath ∧
        com.DownloadFile = sampleReq.DownloadFile ∧ com.OriginalFilename = sampleReq.UploadFile ∧
        com.ErrorMessage = "" ∧ com.FilePath = "" ∧ com.UploadFileID = "" ∧
        com.OutputFile = "" ∧ com.OutputFileID = "" ∧ com.LangflowRunID = "" ∧
        com.FinishedAt = none ∧
        (emptyRepo.faults = [] →
          (TaskCreate emptyRepo (some sampleReq)).repo.writes
            = emptyRepo.writes ++ [{ com with ID := emptyRepo.nextID }] ∧
          (TaskCreate emptyRepo (some sampleReq)).repo.row = some { com with ID := emptyRepo.nextID })) ∧
    ((TaskCreate emptyRepo (some { sampleReq with DownloadFile := "" })).err
        = some ErrParameterErrorCode ∧
      (TaskCreate emptyRepo (some { sampleReq with DownloadFile := "" })).repo = emptyRepo) :=
  ⟨by decide, by decide, rfl,
    (create_validates_request emptyRepo).2.2 sampleReq (by decide) (by decide),
    by decide⟩

/-! ## On-demand retrieval: refusals and frame -/

theorem GetDownloadFile_error_frame (env : DownloadEnv) (repo : Repo) (disk : Disk)
    (taskID : String) (h : (GetDownloadFile env repo disk taskID).err ≠ none) :
    (GetDownloadFile env repo disk taskID).repo.row = repo.row ∧
    (GetDownloadFile env repo disk taskID).repo.writes = repo.writes := by
  unfold GetDownloadFile at h ⊢
  cases hparse : parseUint taskID with
  | none => simp
  | some n =>
    have hf := Repo.GetById_frame repo n
    simp only [hparse] at h ⊢
    rcases hg : repo.GetById n with ⟨r, t⟩
    rw [hg] at hf
    simp only [hg] at h ⊢
    cases t with
    | none => exact ⟨hf.2, hf.1⟩
    | some taskModel =>
      simp only at h ⊢
      split
      · split <;> exact ⟨hf.2, hf.1⟩
      · split
        · exact ⟨hf.2, hf.1⟩
        · split
          · rename_i h1 h2 h3
            simp [h1, h2, h3] at h
          · rename_i h1 h2 h3
            simp only [h1, h2, h3, if_false] at h
            cases hdl : (DownloadWorkflowResult env disk taskModel.OutputFileID taskModel.OutputFile
                taskModel.DownloadFile).err with
            | none => simp [hdl] at h
            | some e => simp only [hdl]; exact ⟨hf.2, hf.1⟩

/-- C14: `GetDownloadFile` fails with the not-ready error when the task is Running (the text
for a running task) or Failed (the text for an abnormal status), and with the missing-file-id
error when the task is Finished but has no output file id; in these cases no request is
sent to the engine and the store and the disk are left as they were. And on every error
return of `GetDownloadFile`, download and rename failures included, the stored task record
and the list of writes are unchanged. -/
theorem download_refused_when_not_ready (env : DownloadEnv) (repo : Repo) (disk : Disk)
    (task : Task) (taskID : String)
    (hid : parseUint taskID = some task.ID) (hrow : repo.row = some task)
    (hfaults : repo.faults = []) :
    (task.Status = TaskStatus.TaskStatusRunning →
      (GetDownloadFile env repo disk taskID).err = some errTaskRunning ∧
      (GetDownloadFile env repo disk taskID).requests = [] ∧
      (GetDownloadFile env repo disk taskID).repo = repo ∧
      (GetDownloadFile env repo disk taskID).disk = disk) ∧
    (task.Status = TaskStatus.TaskStatusFailed →
      (GetDownloadFile env repo disk taskID).err
        = some (errStatusAbnormal TaskStatus.TaskStatusFailed) ∧
      (GetDownloadFile env repo disk taskID).requests = [] ∧
      (GetDownloadFile env repo disk taskID).repo = repo ∧
      (GetDownloadFile env repo disk taskID).disk = disk) ∧
    (task.Status = TaskStatus.TaskStatusFinished → task.OutputFileID = "" →
      (GetDownloadFile env repo disk taskID).err = some errNoFileID ∧
      (GetDownloadFile env repo disk taskID).requests = [] ∧
      (GetDownloadFile env repo disk taskID).repo = repo ∧
      (GetDownloadFile env repo disk taskID).disk = disk) ∧
    (∀ (env2 : DownloadEnv) (repo2 : Repo) (disk2 : Disk) (taskID2 : String),
      (GetDownloadFile env2 repo2 disk2 taskID2).err ≠ none →
      (GetDownloadFile env2 repo2 disk2 taskID2).repo.row = repo2.row ∧
      (GetDownloadFile env2 repo2 disk2 taskID2).repo.writes = repo2.writes) := by
  have hget := Repo.GetById_ok repo task hrow hfaults
  refine ⟨?_, ?_, ?_, fun env2 repo2 disk2 taskID2 h =>
    GetDownloadFile_error_frame env2 repo2 disk2 taskID2 h⟩
  · intro hs
    simp [GetDownloadFile, hid, hget, hs]
  · intro hs
    simp [GetDownloadFile, hid, hget, hs]
  · intro hs hempty
    simp [GetDownloadFile, hid, hget, hs, hempty]

/-- Witness of C14: the running sample task is refused, and so is a finished task without
output file id; a download that breaks while the body is copied leaves the record as it
was. -/
theorem download_refused_when_not_ready_witness :
    parseUint "3" = some sampleTask.ID ∧ sampleRepo.row = some sampleTask ∧
    sampleRepo.faults = [] ∧ sampleTask.Status = TaskStatus.TaskStatusRunning ∧
    ((GetDownloadFile sampleDownloadEnv sampleRepo emptyDisk "3").err = some errTaskRunning ∧
      (GetDownloadFile sampleDownloadEnv sampleRepo emptyDisk "3").requests = [] ∧
      (GetDownloadFile sampleDownloadEnv sampleRepo emptyDisk "3").repo = sampleRepo ∧
      (GetDownloadFile sampleDownloadEnv sampleRepo emptyDisk "3").disk = emptyDisk) ∧
    (GetDownloadFile brokenCopyEnv finishedRepo emptyDisk "3").err ≠ none ∧
    ((GetDownloadFile brokenCopyEnv finishedRepo emptyDisk "3").repo.row = finishedRepo.row ∧
      (GetDownloadFile brokenCopyEnv finishedRepo emptyDisk "3").repo.writes = finishedRepo.writes) :=
  ⟨by decide, rfl, rfl, rfl,
    (download_refused_when_not_ready sampleDownloadEnv sampleRepo emptyDisk sampleTask "3"
      (by decide) rfl rfl).1 rfl,
    by decide,
    (download_refused_when_not_ready sampleDownloadEnv sampleRepo emptyDisk sampleTask "3"
      (by decide) rfl rfl).2.2.2 brokenCopyEnv finishedRepo emptyDisk "3" (by decide)⟩

/-! ## The local disk and the download -/

theorem lookup_filter_ne (l : List (String × String)) (p q : String) :
    (l.filter (fun kv => kv.1 != p)).lookup q = if q = p then none else l.lookup q := by
  induction l with
  | nil => simp
  | cons kv rest ih =>
    obtain ⟨k, v⟩ := kv
    by_cases hk : k = p
    · subst hk
      have hkk : (k != k) = false := by simp
      simp only [List.filter, hkk]
      rw [ih]
      by_cases hq : q = k
      · simp [hq]
      · have hqk : (q == k) = false := by simpa using hq
        simp [hq, List.lookup, hqk]
    · have hkp : (k != p) = true := by simpa using hk
      by_cases hq : q = k
      · subst hq
        simp [List.filter, hkp, List.lookup, hk]
      · have hqk : (q == k) = false := by simpa using hq
        simp only [List.filter, hkp, List.lookup, hqk, ih]

theorem Disk.read_write (d : Disk) (p q content : String) :
    (d.write p content).read q = if q = p then some content else d.read q := by
  by_cases hq : q = p
  · simp [Disk.write, Disk.read, List.lookup, hq]
  · have hqp : (q == p) = false := by simpa using hq
    simp [Disk.write, Disk.read, List.lookup, hqp, lookup_filter_ne, hq]

theorem Disk.stat_eq (d : Disk) (p : String) : d.stat p = (d.read p).isSome := rfl

theorem Disk.read_mkdirAll (d : Disk) (dir q : String) : (d.mkdirAll dir).read q = d.read q := rfl

theorem Disk.remove_read (d d2 : Disk) (p q : String) (h : d.remove p = some d2) :
    d2.read q = if q = p then none else d.read q := by
  unfold Disk.remove at h
  split at h
  · cases h
    simp [Disk.read, lookup_filter_ne]
  · cases h

theorem Disk.remove_isSome (d : Disk) (p : String) (h : d.stat p = true) :
    ∃ d2, d.remove p = some d2 := by
  simp [Disk.remove, h]

theorem Disk.dirExists_of_mem_dirs (d : Disk) (p : String) (h : p ∈ d.dirs) :
    d.dirExists p = true := by
  unfold Disk.dirExists
  have hany : d.dirs.any (fun q => q == p || (p.data ++ ['/']).isPrefixOf q.data) = true :=
    List.any_eq_true.2 ⟨p, h, by simp⟩
  simp [hany]

theorem Disk.dirExists_mkdirAll (d : Disk) (dir : String) :
    (d.mkdirAll dir).dirExists (filepathClean dir) = true :=
  Disk.dirExists_of_mem_dirs _ _ (by simp [Disk.mkdirAll])

theorem Disk.dirExists_remove (d d2 : Disk) (p : String) (h : d.remove p = some d2) :
    d2.dirExists (parentDir p) = true := by
  unfold Disk.remove at h
  split at h
  · cases h
    exact Disk.dirExists_of_mem_dirs _ _ (by simp)
  · cases h

theorem Disk.dirExists_write (d : Disk) (p path content : String) (h : d.dirExists p = true) :
    (d.write path content).dirExists p = true := by
  unfold Disk.dirExists at h ⊢
  simp only [Bool.or_eq_true] at h ⊢
  rcases h with h | h
  · exact Or.inl h
  · right
    obtain ⟨kv, hkv, hpre⟩ := List.any_eq_true.1 h
    apply List.any_eq_true.2
    by_cases hk : kv.1 = path
    · refine ⟨(path, content), by simp [Disk.write], ?_⟩
      rw [← hk]
      exact hpre
    · refine ⟨kv, ?_, hpre⟩
      simp only [Disk.write, List.mem_cons, List.mem_filter]
      right
      exact ⟨hkv, by simpa using hk⟩

theorem Disk.rename_read (d d2 : Disk) (old new q : String) (h : d.rename old new = some d2)
    (hne : old ≠ new) :
    d2.read q = if q = new then d.read old else if q = old then none else d.read q := by
  unfold Disk.rename at h
  cases hold : d.read old with
  | none => simp [hold] at h
  | some content =>
    simp only [hold, hne, if_false] at h
    by_cases hdir : d.dirExists (parentDir new) = true
    · simp only [hdir, if_true, Option.some.injEq] at h
      subst h
      rw [Disk.read_write]
      by_cases hq : q = new
      · simp [hq]
      · simp [hq, Disk.read, lookup_filter_ne]
    · simp [hdir] at h

theorem Disk.rename_isSome (d : Disk) (old new content : String) (h : d.read old = some content)
    (hdir : d.dirExists (parentDir new) = true) :
    ∃ d2, d.rename old new = some d2 := by
  unfold Disk.rename
  simp only [h]
  by_cases hne : old = new <;> simp [hne, hdir]

theorem Disk.rename_stat_new (d d2 : Disk) (old new : String) (h : d.rename old new = some d2) :
    d2.stat new = true := by
  by_cases hne : old = new
  · subst hne
    unfold Disk.rename at h
    cases hold : d.read old with
    | none => simp [hold] at h
    | some content =>
      simp only [hold, if_true, Option.some.injEq] at h
      subst h
      rw [Disk.stat_eq, hold]
      rfl
  · have hr := Disk.rename_read d d2 old new new h hne
    simp only [if_true] at hr
    unfold Disk.rename at h
    cases hold : d.read old with
    | none => simp [hold] at h
    | some content => rw [Disk.stat_eq, hr, hold]; rfl

theorem Disk.rename_missing_dir (d : Disk) (old new : String) (hne : old ≠ new)
    (hdir : d.dirExists (parentDir new) = false) : d.rename old new = none := by
  unfold Disk.rename
  cases d.read old with
  | none => rfl
  | some content => simp [hne, hdir]

theorem DownloadWorkflowResult_success (env : DownloadEnv) (disk : Disk)
    (fileID tempFileName finalFileName body : String)
    (hreq : env.newRequestErr = none) (hresp : env.response = Except.ok (200, body))
    (hmk : env.mkdirErr = none) (hcr : env.createErr = none) (hcp : env.copyErr = none)
    (hne : filepathJoin env.OutputDir (tempFileName ++ ".xlsx")
      ≠ filepathJoin env.OutputDir (finalFileName ++ ".xlsx"))
    (hdir : (disk.read (filepathJoin env.OutputDir (finalFileName ++ ".xlsx"))).isSome = true ∨
      parentDir (filepathJoin env.OutputDir (finalFileName ++ ".xlsx"))
        = filepathClean env.OutputDir) :
    (DownloadWorkflowResult env disk fileID tempFileName finalFileName).err = none ∧
    (DownloadWorkflowResult env disk fileID tempFileName finalFileName).path
      = filepathJoin env.OutputDir (finalFileName ++ ".xlsx") ∧
    (DownloadWorkflowResult env disk fileID tempFileName finalFileName).disk.read
      (filepathJoin env.OutputDir (finalFileName ++ ".xlsx")) = some body ∧
    (DownloadWorkflowResult env disk fileID tempFileName finalFileName).disk.read
      (filepathJoin env.OutputDir (tempFileName ++ ".xlsx")) = none ∧
    (∀ q, q ≠ filepathJoin env.OutputDir (tempFileName ++ ".xlsx") →
      q ≠ filepathJoin env.OutputDir (finalFileName ++ ".xlsx") →
      (DownloadWorkflowResult env disk fileID tempFileName finalFileName).disk.read q = disk.read q) ∧
    (DownloadWorkflowResult env disk fileID tempFileName finalFileName).renames
      = [(filepathJoin env.OutputDir (tempFileName ++ ".xlsx"),
          filepathJoin env.OutputDir (finalFileName ++ ".xlsx"))] ∧
    (DownloadWorkflowResult env disk fileID tempFileName finalFileName).requests
      = [env.config.BaseURL ++ env.config.FileEndpoint ++ fileID] := by
  generalize htp : filepathJoin env.OutputDir (tempFileName ++ ".xlsx") = tempPath at hne ⊢
  generalize hfp : filepathJoin env.OutputDir (finalFileName ++ ".xlsx") = finalPath at hne hdir ⊢
  generalize hd1 : (disk.mkdirAll env.OutputDir).write tempPath body = disk1
  have hread1 : ∀ q, disk1.read q = if q = tempPath then some body else disk.read q := by
    intro q
    rw [← hd1, Disk.read_write, Disk.read_mkdirAll]
  -- the disk after the download and after the removal of an old artifact
  obtain ⟨disk2, hdisk2, hread2, hdir2⟩ : ∃ disk2 : Disk,
      (if disk1.stat finalPath = true then
        (match disk1.remove finalPath with
          | some removed => removed
          | none => disk1)
        else disk1) = disk2 ∧
      (∀ q, disk2.read q = if q = tempPath then some body
        else if q = finalPath then none else disk.read q) ∧
      disk2.dirExists (parentDir finalPath) = true := by
    refine ⟨_, rfl, ?_, ?_⟩
    · intro q
      by_cases hst : disk1.stat finalPath = true
      · obtain ⟨d2, hd2⟩ := Disk.remove_isSome _ _ hst
        simp only [hst, if_true, hd2]
        rw [Disk.remove_read _ _ _ q hd2, hread1]
        by_cases h1 : q = finalPath
        · have h2 : q ≠ tempPath := fun h => hne (h.symm.trans h1)
          simp [h1, h2, Ne.symm hne]
        · simp [h1]
      · rw [if_neg hst, hread1]
        by_cases h1 : q = tempPath
        · simp [h1]
        · simp only [h1, if_false]
          by_cases h2 : q = finalPath
          · subst h2
            rw [Disk.stat_eq, hread1] at hst
            simp only [h1, if_false] at hst
            cases hr : disk.read q with
            | none => simp
            | some c => simp [hr] at hst
          · simp [h2]
    · by_cases hst : disk1.stat finalPath = true
      · obtain ⟨d2, hd2⟩ := Disk.remove_isSome _ _ hst
        simp only [hst, if_true, hd2]
        exact Disk.dirExists_remove _ _ _ hd2
      · rw [if_neg hst]
        rcases hdir with hold | hparent
        · exfalso
          apply hst
          rw [Disk.stat_eq, hread1, if_neg (Ne.symm hne)]
          exact hold
        · rw [← hd1, hparent]
          exact Disk.dirExists_write _ _ _ _ (Disk.dirExists_mkdirAll disk env.OutputDir)
  have htemp : disk2.read tempPath = some body := by simp [hread2]
  obtain ⟨disk3, hdisk3⟩ := Disk.rename_isSome disk2 tempPath finalPath body htemp hdir2
  have hread3 := fun q => Disk.rename_read disk2 disk3 tempPath finalPath q hdisk3 hne
  have hres : DownloadWorkflowResult env disk fileID tempFileName finalFileName
      = { disk := disk3, path := finalPath, err := none,
          requests := [env.config.BaseURL ++ env.config.FileEndpoint ++ fileID],
          renames := [(tempPath, finalPath)] } := by
    simp only [DownloadWorkflowResult, hreq, hresp, DownloadFromResponse, hmk, hcr, hcp, htp, hfp,
      ne_eq, not_true_eq_false, if_false, hd1, hdisk2, hdisk3]
  rw [hres]
  refine ⟨rfl, rfl, ?_, ?_, ?_, rfl, rfl⟩
  · rw [hread3]
    simp [htemp]
  · rw [hread3]
    simp [hne]
  · intro q h1 h2
    rw [hread3]
    simp [h1, h2, hread2]

theorem DownloadWorkflowResult_ok (env : DownloadEnv) (disk : Disk)
    (fileID tempFileName finalFileName : String)
    (h : (DownloadWorkflowResult env disk fileID tempFileName finalFileName).err = none) :
    (DownloadWorkflowResult env disk fileID tempFileName finalFileName).path
      = filepathJoin env.OutputDir (finalFileName ++ ".xlsx") ∧
    (DownloadWorkflowResult env disk fileID tempFileName finalFileName).disk.stat
      (filepathJoin env.OutputDir (finalFileName ++ ".xlsx")) = true ∧
    (DownloadWorkflowResult env disk fileID tempFileName finalFileName).requests.length = 1 := by
  unfold DownloadWorkflowResult at h ⊢
  cases hreq : env.newRequestErr with
  | some e => simp [hreq] at h
  | none =>
    simp only [hreq] at h ⊢
    cases hresp : env.response with
    | error e => simp [hresp] at h
    | ok r =>
      obtain ⟨code, body⟩ := r
      simp only [hresp] at h ⊢
      by_cases hc : code = 200
      · simp only [hc, ne_eq, not_true_eq_false, if_false] at h ⊢
        rcases hdl : DownloadFromResponse env disk env.OutputDir tempFileName body with ⟨d1, res⟩
        simp only [hdl] at h ⊢
        cases res with
        | error e => simp at h
        | ok tempResult =>
          simp only at h ⊢
          generalize (if d1.stat (filepathJoin env.OutputDir (finalFileName ++ ".xlsx")) = true then
              (match d1.remove (filepathJoin env.OutputDir (finalFileName ++ ".xlsx")) with
                | some removed => removed
                | none => d1)
              else d1) = d2 at h ⊢
          cases hrn : d2.rename tempResult.FilePath
              (filepathJoin env.OutputDir (finalFileName ++ ".xlsx")) with
          | none => simp [hrn] at h
          | some d3 =>
            simp [hrn, Disk.rename_stat_new _ _ _ _ hrn]
      · simp [hc] at h

/-- The rename step fails when the directory of the final path does not exist: with the final
name "sub/cases_1" on an empty disk, the body is written to "outputs/testcase_1.xlsx", the
rename to "outputs/sub/cases_1.xlsx" fails, the temporary file is removed and the error of
the rename is returned. -/
theorem rename_fails_without_directory :
    (DownloadWorkflowResult sampleDownloadEnv emptyDisk "f2neq1" "testcase_1" "sub/cases_1").err
      = some ("failed to rename file from outputs/testcase_1.xlsx to outputs/sub/cases_1.xlsx" ++
          ": no such file or directory") ∧
    (DownloadWorkflowResult sampleDownloadEnv emptyDisk "f2neq1" "testcase_1" "sub/cases_1").path
      = "" ∧
    (DownloadWorkflowResult sampleDownloadEnv emptyDisk "f2neq1" "testcase_1" "sub/cases_1").renames
      = [("outputs/testcase_1.xlsx", "outputs/sub/cases_1.xlsx")] ∧
    (DownloadWorkflowResult sampleDownloadEnv emptyDisk "f2neq1" "testcase_1"
      "sub/cases_1").disk.files = [] := by
  decide

/-- C17, refuted as stated: the temporary name and the final name are both "testcase_1", a
file already exists at the final path, the download returns 200 and the body is written;
the operation removes the freshly written file as the "old" one, the rename then fails, an
error is returned and no file is left at the final path. -/
theorem rename_collision_same_name_counterexample :
    sameNameDisk.read (filepathJoin sampleDownloadEnv.OutputDir ("testcase_1" ++ ".xlsx")) = some "OLD" ∧
    downloadStepFails sampleDownloadEnv = false ∧
    (DownloadWorkflowResult sampleDownloadEnv sameNameDisk "f2neq1" "testcase_1" "testcase_1").err
      ≠ none ∧
    (DownloadWorkflowResult sampleDownloadEnv sameNameDisk "f2neq1" "testcase_1" "testcase_1").disk.read
      (filepathJoin sampleDownloadEnv.OutputDir ("testcase_1" ++ ".xlsx")) = none := by
  decide

/-- C17, amended: for every temporary name and final name whose paths in the output directory
differ, and every disk on which a file already exists at the final path, if the download
returns 200 and the body is written without error (`os.MkdirAll`, `os.Create` and `io.Copy`
return none), then the operation succeeds, returns the final path, the file at the final path
holds the newly downloaded bytes (the old file is replaced), no file remains at the temporary
path and every other file is untouched. The file that exists at the final path is what makes
the rename succeed for every final name: its directory exists, and stays when the old file is
removed. -/
theorem rename_replaces_old_artifact (env : DownloadEnv) (disk : Disk)
    (fileID tempFileName finalFileName body old : String)
    (hreq : env.newRequestErr = none) (hresp : env.response = Except.ok (200, body))
    (hmk : env.mkdirErr = none) (hcr : env.createErr = none) (hcp : env.copyErr = none)
    (hold : disk.read (filepathJoin env.OutputDir (finalFileName ++ ".xlsx")) = some old)
    (hne : filepathJoin env.OutputDir (tempFileName ++ ".xlsx")
      ≠ filepathJoin env.OutputDir (finalFileName ++ ".xlsx")) :
    (DownloadWorkflowResult env disk fileID tempFileName finalFileName).err = none ∧
    (DownloadWorkflowResult env disk fileID tempFileName finalFileName).path
      = filepathJoin env.OutputDir (finalFileName ++ ".xlsx") ∧
    (DownloadWorkflowResult env disk fileID tempFileName finalFileName).disk.read
      (filepathJoin env.OutputDir (finalFileName ++ ".xlsx")) = some body ∧
    (DownloadWorkflowResult env disk fileID tempFileName finalFileName).disk.read
      (filepathJoin env.OutputDir (tempFileName ++ ".xlsx")) = none ∧
    (∀ q, q ≠ filepathJoin env.OutputDir (tempFileName ++ ".xlsx") →
      q ≠ filepathJoin env.OutputDir (finalFileName ++ ".xlsx") →
      (DownloadWorkflowResult env disk fileID tempFileName finalFileName).disk.read q = disk.read q) := by
  have h := DownloadWorkflowResult_success env disk fileID tempFileName finalFileName body
    hreq hresp hmk hcr hcp hne (Or.inl (by rw [hold]; rfl))
  exact ⟨h.1, h.2.1, h.2.2.1, h.2.2.2.1, h.2.2.2.2.1⟩

/-- Witness of the amended C17: the final name "sub/cases_1" lies in a directory of its own;
the old artifact "OLD" at "outputs/sub/cases_1.xlsx" is replaced by the downloaded "NEW". -/
theorem rename_replaces_old_artifact_witness :
    sampleDownloadEnv.newRequestErr = none ∧
    sampleDownloadEnv.response = Except.ok (200, "NEW") ∧
    sampleDownloadEnv.mkdirErr = none ∧ sampleDownloadEnv.createErr = none ∧
    sampleDownloadEnv.copyErr = none ∧
    subDirDisk.read (filepathJoin sampleDownloadEnv.OutputDir ("sub/cases_1" ++ ".xlsx"))
      = some "OLD" ∧
    filepathJoin sampleDownloadEnv.OutputDir ("testcase_1" ++ ".xlsx")
      ≠ filepathJoin sampleDownloadEnv.OutputDir ("sub/cases_1" ++ ".xlsx") ∧
    (DownloadWorkflowResult sampleDownloadEnv subDirDisk "f2neq1" "testcase_1" "sub/cases_1").err
      = none ∧
    (DownloadWorkflowResult sampleDownloadEnv subDirDisk "f2neq1" "testcase_1"
      "sub/cases_1").disk.read
      (filepathJoin sampleDownloadEnv.OutputDir ("sub/cases_1" ++ ".xlsx")) = some "NEW" :=
  ⟨rfl, rfl, rfl, rfl, rfl, by decide, by decide,
    (rename_replaces_old_artifact sampleDownloadEnv subDirDisk "f2neq1" "testcase_1" "sub/cases_1"
      "NEW" "OLD" rfl rfl rfl rfl rfl (by decide) (by decide)).1,
    (rename_replaces_old_artifact sampleDownloadEnv subDirDisk "f2neq1" "testcase_1" "sub/cases_1"
      "NEW" "OLD" rfl rfl rfl rfl rfl (by decide) (by decide)).2.2.1⟩

/-- C18, refuted as stated: the temporary name and the final name are both "testcase_1" and
the copy of the body breaks after two characters; the download step fails and nothing is
renamed, yet the content at the final path has changed from "OLD" to the partial "NE". -/
theorem partial_download_same_name_counterexample :
    downloadStepFails brokenCopyEnv = true ∧
    sameNameDisk.read (filepathJoin brokenCopyEnv.OutputDir ("testcase_1" ++ ".xlsx")) = some "OLD" ∧
    (DownloadWorkflowResult brokenCopyEnv sameNameDisk "f2neq1" "testcase_1" "testcase_1").renames = [] ∧
    (DownloadWorkflowResult brokenCopyEnv sameNameDisk "f2neq1" "testcase_1" "testcase_1").disk.read
      (filepathJoin brokenCopyEnv.OutputDir ("testcase_1" ++ ".xlsx")) = some "NE" := by
  decide

/-- C18, amended: for every temporary name and final name whose paths in the output directory
differ, if the download step fails (request error, status other than 200, or an error while
the body is written to disk) then an error is returned, no rename is performed, and the
content at the final path, like that of every path other than the temporary one, is exactly
what it was before the call. -/
theorem failed_download_leaves_final_path (env : DownloadEnv) (disk : Disk)
    (fileID tempFileName finalFileName : String)
    (hfail : downloadStepFails env = true)
    (hne : filepathJoin env.OutputDir (tempFileName ++ ".xlsx")
      ≠ filepathJoin env.OutputDir (finalFileName ++ ".xlsx")) :
    (DownloadWorkflowResult env disk fileID tempFileName finalFileName).err ≠ none ∧
    (DownloadWorkflowResult env disk fileID tempFileName finalFileName).renames = [] ∧
    (DownloadWorkflowResult env disk fileID tempFileName finalFileName).disk.read
      (filepathJoin env.OutputDir (finalFileName ++ ".xlsx"))
      = disk.read (filepathJoin env.OutputDir (finalFileName ++ ".xlsx")) ∧
    (∀ q, q ≠ filepathJoin env.OutputDir (tempFileName ++ ".xlsx") →
      (DownloadWorkflowResult env disk fileID tempFileName finalFileName).disk.read q = disk.read q) := by
  have hall : (DownloadWorkflowResult env disk fileID tempFileName finalFileName).err ≠ none ∧
      (DownloadWorkflowResult env disk fileID tempFileName finalFileName).renames = [] ∧
      (∀ q, q ≠ filepathJoin env.OutputDir (tempFileName ++ ".xlsx") →
        (DownloadWorkflowResult env disk fileID tempFileName finalFileName).disk.read q
          = disk.read q) := by
    unfold DownloadWorkflowResult
    cases hreq : env.newRequestErr with
    | some e => simp
    | none =>
      cases hresp : env.response with
      | error e => simp
      | ok r =>
        obtain ⟨code, body⟩ := r
        by_cases hc : code = 200
        · subst hc
          simp only [ne_eq, not_true_eq_false, if_false]
          unfold DownloadFromResponse
          cases hmk : env.mkdirErr with
          | some e => simp
          | none =>
            cases hcr : env.createErr with
            | some e => simp [Disk.read_mkdirAll]
            | none =>
              cases hcp : env.copyErr with
              | some pr =>
                obtain ⟨written, e⟩ := pr
                refine ⟨by simp, by simp, ?_⟩
                intro q hq
                simp [Disk.read_write, Disk.read_mkdirAll, hq]
              | none => simp [downloadStepFails, hreq, hresp, hmk, hcr, hcp] at hfail
        · simp [hc]
  exact ⟨hall.1, hall.2.1, hall.2.2 _ (Ne.symm hne), hall.2.2⟩

/-- Witness of the amended C18: the copy breaks while "testcase_1.xlsx" is written; the old
artifact at "outputs/cases_1.xlsx" is untouched. -/
theorem failed_download_leaves_final_path_witness :
    downloadStepFails brokenCopyEnv = true ∧
    filepathJoin brokenCopyEnv.OutputDir ("testcase_1" ++ ".xlsx")
      ≠ filepathJoin brokenCopyEnv.OutputDir ("cases_1" ++ ".xlsx") ∧
    oldArtifactDisk.read (filepathJoin brokenCopyEnv.OutputDir ("cases_1" ++ ".xlsx")) = some "OLD" ∧
    (DownloadWorkflowResult brokenCopyEnv oldArtifactDisk "f2neq1" "testcase_1" "cases_1").disk.read
      (filepathJoin brokenCopyEnv.OutputDir ("cases_1" ++ ".xlsx"))
      = oldArtifactDisk.read (filepathJoin brokenCopyEnv.OutputDir ("cases_1" ++ ".xlsx")) :=
  ⟨by decide, by decide, by decide,
    (failed_download_leaves_final_path brokenCopyEnv oldArtifactDisk "f2neq1" "testcase_1" "cases_1"
      (by decide) (by decide)).2.2.1⟩

/-! ## On-demand retrieval: cache and stored names -/

theorem cleanChars_ne_nil (path : List Char) : cleanChars path ≠ [] := by
  unfold cleanChars
  cases path with
  | nil => simp
  | cons c cs =>
    simp only
    split
    · simp
    · split <;> simp_all

theorem filepathJoin_ne_empty (dir name : String) (hname : name ≠ "") :
    filepathJoin dir name ≠ "" := by
  have hclean : ∀ s : String, filepathClean s ≠ "" := by
    intro s h
    have hd := congrArg String.data h
    exact cleanChars_ne_nil s.data hd
  unfold filepathJoin
  split
  · exact hclean _
  · simp only [hname, ne_eq, not_false_eq_true, if_true]
    exact hclean _

theorem xlsx_name_nonempty (s : String) : s ++ ".xlsx" ≠ "" := by
  intro h
  have hlen := congrArg String.length h
  simp only [String.length_append] at hlen
  have h5 : ".xlsx".length = 5 := by decide
  have h0 : "".length = 0 := by decide
  omega

theorem Repo.GetById_cases (r : Repo) (n : Nat) (hfaults : r.faults = []) :
    r.GetById n = (r, none) ∨ ∃ t, r.GetById n = (r, some t) ∧ r.row = some t ∧ t.ID = n := by
  unfold Repo.GetById Repo.nextFault
  simp only [hfaults]
  cases hrow : r.row with
  | none => simp
  | some t => by_cases h : t.ID = n <;> simp [h]

theorem GetDownloadFile_cache_hit (env : DownloadEnv) (repo : Repo) (disk : Disk) (t : Task)
    (taskID : String) (hparse : parseUint taskID = some t.ID) (hrow : repo.row = some t)
    (hfaults : repo.faults = []) (hs : t.Status = TaskStatus.TaskStatusFinished)
    (hid : t.OutputFileID ≠ "") (hof : t.OutputFile ≠ "") (hst : disk.stat t.OutputFile = true) :
    GetDownloadFile env repo disk taskID =
      { repo := repo, disk := disk, filePath := t.OutputFile,
        fileName := filepathBase t.OutputFile, err := none, requests := [] } := by
  simp [GetDownloadFile, hparse, Repo.GetById_ok repo t hrow hfaults, hs, hid, hof, hst]

theorem GetDownloadFile_success (env : DownloadEnv) (repo : Repo) (disk : Disk) (taskID : String)
    (hfaults : repo.faults = []) (h : (GetDownloadFile env repo disk taskID).err = none) :
    ∃ t : Task, parseUint taskID = some t.ID ∧ repo.row = some t ∧
      t.Status = TaskStatus.TaskStatusFinished ∧ t.OutputFileID ≠ "" ∧
      ((t.OutputFile ≠ "" ∧ disk.stat t.OutputFile = true ∧
          GetDownloadFile env repo disk taskID =
            { repo := repo, disk := disk, filePath := t.OutputFile,
              fileName := filepathBase t.OutputFile, err := none, requests := [] }) ∨
       ((DownloadWorkflowResult env disk t.OutputFileID t.OutputFile t.DownloadFile).err = none ∧
          GetDownloadFile env repo disk taskID =
            { repo := { repo with
                row := some { t with OutputFile :=
                  (DownloadWorkflowResult env disk t.OutputFileID t.OutputFile t.DownloadFile).path },
                writes := repo.writes ++ [{ t with OutputFile :=
                  (DownloadWorkflowResult env disk t.OutputFileID t.OutputFile t.DownloadFile).path }] },
              disk := (DownloadWorkflowResult env disk t.OutputFileID t.OutputFile t.DownloadFile).disk,
              filePath := (DownloadWorkflowResult env disk t.OutputFileID t.OutputFile t.DownloadFile).path,
              fileName := filepathBase
                (DownloadWorkflowResult env disk t.OutputFileID t.OutputFile t.DownloadFile).path,
              err := none,
              requests :=
                (DownloadWorkflowResult env disk t.OutputFileID t.OutputFile t.DownloadFile).requests })) := by
  unfold GetDownloadFile at h ⊢
  cases hparse : parseUint taskID with
  | none => simp [hparse] at h
  | some n =>
    simp only [hparse] at h ⊢
    rcases Repo.GetById_cases repo n hfaults with hg | ⟨t, hg, hrow, hn⟩
    · simp [hg] at h
    · simp only [hg] at h ⊢
      subst hn
      refine ⟨t, rfl, hrow, ?_⟩
      by_cases hs : t.Status = TaskStatus.TaskStatusFinished
      · by_cases hid : t.OutputFileID = ""
        · simp [hs, hid] at h
        · refine ⟨hs, hid, ?_⟩
          by_cases hc : t.OutputFile ≠ "" ∧ disk.stat t.OutputFile = true
          · left
            refine ⟨hc.1, hc.2, ?_⟩
            simp [hs, hid, hc.1, hc.2]
          · right
            simp only [hs, hid, hc, ne_eq, not_true_eq_false, if_false] at h ⊢
            cases hdl : (DownloadWorkflowResult env disk t.OutputFileID t.OutputFile
                t.DownloadFile).err with
            | some e => simp [hdl] at h
            | none => simp [Repo.Update_ok, hfaults]
      · by_cases hr : t.Status = TaskStatus.TaskStatusRunning <;> simp [hs, hr] at h

/-- C15: when a first call of `GetDownloadFile` succeeds (over a store that accepts its
calls), a second call for the same task, on the store and disk the first one left and
whatever the engine would answer, succeeds as a cache hit: it sends no request to the engine,
writes nothing to the store, leaves the disk as it is and returns the same path and file
name. The two calls together send at most one download request. -/
theorem second_download_is_cache_hit (env1 env2 : DownloadEnv) (repo : Repo) (disk : Disk)
    (taskID : String) (hfaults : repo.faults = [])
    (hfirst : (downloadTwice env1 env2 repo disk taskID).1.err = none) :
    (downloadTwice env1 env2 repo disk taskID).2.err = none ∧
    (downloadTwice env1 env2 repo disk taskID).2.requests = [] ∧
    (downloadTwice env1 env2 repo disk taskID).2.repo.writes
      = (downloadTwice env1 env2 repo disk taskID).1.repo.writes ∧
    (downloadTwice env1 env2 repo disk taskID).2.repo.row
      = (downloadTwice env1 env2 repo disk taskID).1.repo.row ∧
    (downloadTwice env1 env2 repo disk taskID).2.disk
      = (downloadTwice env1 env2 repo disk taskID).1.disk ∧
    (downloadTwice env1 env2 repo disk taskID).2.filePath
      = (downloadTwice env1 env2 repo disk taskID).1.filePath ∧
    (downloadTwice env1 env2 repo disk taskID).2.fileName
      = (downloadTwice env1 env2 repo disk taskID).1.fileName ∧
    ((downloadTwice env1 env2 repo disk taskID).1.requests ++
      (downloadTwice env1 env2 repo disk taskID).2.requests).length ≤ 1 := by
  unfold downloadTwice at hfirst ⊢
  simp only at hfirst ⊢
  obtain ⟨t, hparse, hrow, hs, hid, hcase⟩ :=
    GetDownloadFile_success env1 repo disk taskID hfaults hfirst
  rcases hcase with ⟨hof, hst, hres⟩ | ⟨hdl, hres⟩
  · rw [hres]
    simp only
    rw [GetDownloadFile_cache_hit env2 repo disk t taskID hparse hrow hfaults hs hid hof hst]
    simp
  · obtain ⟨hpath, hstat, hreqs⟩ := DownloadWorkflowResult_ok env1 disk _ _ _ hdl
    have hnonempty : (DownloadWorkflowResult env1 disk t.OutputFileID t.OutputFile
        t.DownloadFile).path ≠ "" := by
      rw [hpath]
      exact filepathJoin_ne_empty _ _ (xlsx_name_nonempty _)
    rw [← hpath] at hstat
    generalize DownloadWorkflowResult env1 disk t.OutputFileID t.OutputFile t.DownloadFile = dl
      at hres hstat hreqs hnonempty
    have hcache := GetDownloadFile_cache_hit env2
      { repo with row := some { t with OutputFile := dl.path },
                  writes := repo.writes ++ [{ t with OutputFile := dl.path }] }
      dl.disk { t with OutputFile := dl.path } taskID hparse rfl hfaults hs hid hnonempty hstat
    rw [hres]
    simp only
    rw [hcache]
    simp [hreqs]

/-- Witness of C15: the first call downloads the artifact of the finished sample task; the
second call, against an engine whose copy would break, returns the same path without any
request. -/
theorem second_download_is_cache_hit_witness :
    finishedRepo.faults = [] ∧
    (downloadTwice sampleDownloadEnv brokenCopyEnv finishedRepo emptyDisk "3").1.err = none ∧
    (downloadTwice sampleDownloadEnv brokenCopyEnv finishedRepo emptyDisk "3").1.requests
      = ["http://engine/api/v2/files/f2neq1"] ∧
    ((downloadTwice sampleDownloadEnv brokenCopyEnv finishedRepo emptyDisk "3").2.err = none ∧
      (downloadTwice sampleDownloadEnv brokenCopyEnv finishedRepo emptyDisk "3").2.requests = [] ∧
      (downloadTwice sampleDownloadEnv brokenCopyEnv finishedRepo emptyDisk "3").2.repo.writes
        = (downloadTwice sampleDownloadEnv brokenCopyEnv finishedRepo emptyDisk "3").1.repo.writes ∧
      (downloadTwice sampleDownloadEnv brokenCopyEnv finishedRepo emptyDisk "3").2.repo.row
        = (downloadTwice sampleDownloadEnv brokenCopyEnv finishedRepo emptyDisk "3").1.repo.row ∧
      (downloadTwice sampleDownloadEnv brokenCopyEnv finishedRepo emptyDisk "3").2.disk
        = (downloadTwice sampleDownloadEnv brokenCopyEnv finishedRepo emptyDisk "3").1.disk ∧
      (downloadTwice sampleDownloadEnv brokenCopyEnv finishedRepo emptyDisk "3").2.filePath
        = (downloadTwice sampleDownloadEnv brokenCopyEnv finishedRepo emptyDisk "3").1.filePath ∧
      (downloadTwice sampleDownloadEnv brokenCopyEnv finishedRepo emptyDisk "3").2.fileName
        = (downloadTwice sampleDownloadEnv brokenCopyEnv finishedRepo emptyDisk "3").1.fileName ∧
      ((downloadTwice sampleDownloadEnv brokenCopyEnv finishedRepo emptyDisk "3").1.requests ++
        (downloadTwice sampleDownloadEnv brokenCopyEnv finishedRepo emptyDisk "3").2.requests).length
          ≤ 1) :=
  ⟨rfl, by decide, by decide,
    second_download_is_cache_hit sampleDownloadEnv brokenCopyEnv finishedRepo emptyDisk "3" rfl
      (by decide)⟩

theorem HandleWorkflowCompletion_success (env : DownloadEnv) (repo : Repo) (disk : Disk)
    (task : Task) (hrow : repo.row = some task) (hfaults : repo.faults = [])
    (h : (HandleWorkflowCompletion env repo disk task.ID).err = none) :
    (HandleWorkflowCompletion env repo disk task.ID).repo.row
      = some { task with
          OutputFile := filepathJoin env.OutputDir (task.DownloadFile ++ ".xlsx") } := by
  unfold HandleWorkflowCompletion at h ⊢
  simp only [Repo.GetById_ok repo task hrow hfaults] at h ⊢
  cases hdl : (DownloadWorkflowResult env disk task.OutputFileID task.OutputFile
      task.DownloadFile).err with
  | some e => simp [hdl] at h
  | none =>
    obtain ⟨hpath, _, _⟩ := DownloadWorkflowResult_ok env disk _ _ _ hdl
    simp [Repo.Update_ok, hfaults, hpath]

/-- C19, refuted as stated: after a successful `GetDownloadFile` for the finished sample
task, whose remote output name was "testcase_1", the field that held that name holds the
local path "outputs/cases_1.xlsx"; the remote output name is no longer in the record. The
download name "cases_1" is unchanged. -/
theorem retrieval_loses_output_name_counterexample :
    finishedTask.OutputFile = "testcase_1" ∧
    (GetDownloadFile sampleDownloadEnv finishedRepo emptyDisk "3").err = none ∧
    (GetDownloadFile sampleDownloadEnv finishedRepo emptyDisk "3").repo.row
      = some { finishedTask with OutputFile := "outputs/cases_1.xlsx" } ∧
    ((GetDownloadFile sampleDownloadEnv finishedRepo emptyDisk "3").repo.row.map
      (fun t => t.OutputFile)) ≠ some "testcase_1" ∧
    (HandleWorkflowCompletion sampleDownloadEnv finishedRepo emptyDisk 3).repo.row
      = some { finishedTask with OutputFile := "outputs/cases_1.xlsx" } := by
  decide

/-- C19, amended: after a successful artifact retrieval, by `GetDownloadFile` or by
`HandleWorkflowCompletion` (over a store that accepts its calls), the task record equals the
record before with the field `OutputFile` set to the returned local path: the download name
and every other field are unchanged, and the local output path is stored in the field that
held the remote output name, in place of it. -/
theorem retrieval_stores_path_in_output_file (env : DownloadEnv) (repo : Repo) (disk : Disk)
    (task : Task) (taskID : String) (hrow : repo.row = some task)
    (hfaults : repo.faults = []) :
    ((GetDownloadFile env repo disk taskID).err = none →
      (GetDownloadFile env repo disk taskID).repo.row
        = some { task with OutputFile := (GetDownloadFile env repo disk taskID).filePath }) ∧
    ((HandleWorkflowCompletion env repo disk task.ID).err = none →
      (HandleWorkflowCompletion env repo disk task.ID).repo.row
        = some { task with
            OutputFile := filepathJoin env.OutputDir (task.DownloadFile ++ ".xlsx") }) := by
  refine ⟨?_, HandleWorkflowCompletion_success env repo disk task hrow hfaults⟩
  intro h
  obtain ⟨t, _, hrow2, _, _, hcase⟩ := GetDownloadFile_success env repo disk taskID hfaults h
  have ht : t = task := Option.some.inj (hrow2.symm.trans hrow)
  subst ht
  rcases hcase with ⟨_, _, hres⟩ | ⟨_, hres⟩
  · rw [hres]
    exact hrow
  · rw [hres]

/-- Witness of the amended C19 on the finished sample task. -/
theorem retrieval_stores_path_in_output_file_witness :
    finishedRepo.row = some finishedTask ∧ finishedRepo.faults = [] ∧
    (GetDownloadFile sampleDownloadEnv finishedRepo emptyDisk "3").err = none ∧
    (GetDownloadFile sampleDownloadEnv finishedRepo emptyDisk "3").repo.row
      = some { finishedTask with
          OutputFile := (GetDownloadFile sampleDownloadEnv finishedRepo emptyDisk "3").filePath } :=
  ⟨rfl, rfl, by decide,
    (retrieval_stores_path_in_output_file sampleDownloadEnv finishedRepo emptyDisk finishedTask "3"
      rfl rfl).1 (by decide)⟩

/-! ## Paths: the base name of a joined path -/

theorem splitSep_ne_nil (p : List Char) : splitSep p ≠ [] := by
  cases p with
  | nil => simp [splitSep]
  | cons c cs =>
    unfold splitSep
    split
    · simp
    · split <;> simp

theorem splitSep_no_sep (n : List Char) (h : '/' ∉ n) : splitSep n = [n] := by
  induction n with
  | nil => rfl
  | cons c cs ih =>
    have hc : c ≠ '/' := fun hc => h (by simp [hc])
    have hcs : '/' ∉ cs := fun hm => h (List.mem_cons_of_mem c hm)
    simp [splitSep, ih hcs, hc]

theorem splitSep_append_sep (d n : List Char) (h : '/' ∉ n) :
    splitSep (d ++ '/' :: n) = splitSep d ++ [n] := by
  induction d with
  | nil => simp [splitSep, splitSep_no_sep n h]
  | cons c cs ih =>
    cases hs : splitSep cs with
    | nil => exact absurd hs (splitSep_ne_nil cs)
    | cons e es =>
      by_cases hc : c = '/'
      · simp [splitSep, ih, hs, hc]
      · simp [splitSep, ih, hs, hc]

theorem cleanStack_append (rooted : Bool) (out xs ys : List (List Char)) :
    cleanStack rooted out (xs ++ ys) = cleanStack rooted (cleanStack rooted out xs) ys := by
  induction xs generalizing out with
  | nil => rfl
  | cons e es ih =>
    simp only [List.cons_append, cleanStack]
    split
    · exact ih out
    · split
      · cases out with
        | nil => cases rooted <;> simp [ih]
        | cons top below => by_cases ht : top = ['.', '.'] <;> simp [ht, ih]
      · exact ih (e :: out)

theorem cleanStack_real (rooted : Bool) (out : List (List Char)) (n : List Char)
    (h0 : n ≠ []) (h1 : n ≠ ['.']) (h2 : n ≠ ['.', '.']) :
    cleanStack rooted out [n] = n :: out := by
  simp [cleanStack, h0, h1, h2]

theorem joinSep_append_singleton (ys : List (List Char)) (n : List Char) :
    joinSep (ys ++ [n]) = if ys = [] then n else joinSep ys ++ '/' :: n := by
  induction ys with
  | nil => simp [joinSep]
  | cons e es ih =>
    cases es with
    | nil => simp [joinSep]
    | cons e2 es2 =>
      simp only [List.cons_append, joinSep] at ih ⊢
      simp [ih]

theorem cleanChars_last (p : List Char) (xs : List (List Char)) (n : List Char)
    (hsplit : splitSep p = xs ++ [n])
    (h0 : n ≠ []) (h1 : n ≠ ['.']) (h2 : n ≠ ['.', '.']) :
    cleanChars p = n ∨ ∃ q, cleanChars p = q ++ '/' :: n := by
  cases p with
  | nil =>
    simp only [splitSep] at hsplit
    cases xs with
    | nil => simp at hsplit; exact absurd hsplit h0
    | cons x xs2 => simp at hsplit
  | cons c cs =>
    unfold cleanChars
    simp only [hsplit, cleanStack_append, cleanStack_real _ _ n h0 h1 h2, List.reverse_cons,
      joinSep_append_singleton]
    by_cases hr : c = '/'
    · right
      simp only [hr, decide_True, if_true]
      split
      · exact ⟨[], rfl⟩
      · exact ⟨'/' :: joinSep (cleanStack true [] xs).reverse, rfl⟩
    · simp only [hr, decide_False, Bool.false_eq_true, if_false]
      split
      · left
        simp [h0]
      · right
        refine ⟨joinSep (cleanStack false [] xs).reverse, ?_⟩
        simp

theorem takeWhile_append_stop (p : Char → Bool) (l r : List Char) (a : Char)
    (hl : ∀ x ∈ l, p x = true) (ha : p a = false) :
    (l ++ a :: r).takeWhile p = l ∧ l.takeWhile p = l := by
  induction l with
  | nil => simp [List.takeWhile, ha]
  | cons c cs ih =>
    have hc := hl c (List.mem_cons_self c cs)
    have hcs := ih (fun x hx => hl x (List.mem_cons_of_mem c hx))
    refine ⟨?_, ?_⟩
    · rw [List.cons_append, List.takeWhile_cons, hc, if_pos rfl, hcs.1]
    · rw [List.takeWhile_cons, hc, if_pos rfl, hcs.2]

theorem baseChars_last (q n : List Char) (h0 : n ≠ []) (hn : '/' ∉ n) :
    filepathBase (String.mk n) = String.mk n ∧
    filepathBase (String.mk (q ++ '/' :: n)) = String.mk n := by
  have hrev : ∀ x ∈ n.reverse, (fun c : Char => decide (c ≠ '/')) x = true := by
    intro x hx
    have hxn : x ∈ n := List.mem_reverse.1 hx
    have hne : x ≠ '/' := fun h => hn (h ▸ hxn)
    simpa using hne
  obtain ⟨a, as, hcons⟩ : ∃ a as, n.reverse = a :: as := by
    cases hr : n.reverse with
    | nil => simp at hr; exact absurd hr h0
    | cons a as => exact ⟨a, as, rfl⟩
  have ha : a ≠ '/' := by
    have := hrev a (by rw [hcons]; simp)
    simpa using this
  have hdrop1 : n.reverse.dropWhile (fun c => decide (c = '/')) = n.reverse := by
    rw [hcons]
    simp [List.dropWhile, ha]
  have hdrop2 : (n.reverse ++ '/' :: q.reverse).dropWhile (fun c => decide (c = '/'))
      = n.reverse ++ '/' :: q.reverse := by
    rw [hcons]
    simp [List.dropWhile, ha]
  have htake := takeWhile_append_stop (fun c : Char => decide (c ≠ '/')) n.reverse q.reverse '/'
    hrev (by simp)
  have hkey1 : ((n.reverse.dropWhile (fun c => decide (c = '/'))).takeWhile
      (fun c => decide (c ≠ '/'))).reverse = n := by
    rw [hdrop1, htake.2, List.reverse_reverse]
  have hkey2 : (((q ++ '/' :: n).reverse.dropWhile (fun c => decide (c = '/'))).takeWhile
      (fun c => decide (c ≠ '/'))).reverse = n := by
    have hr : (q ++ '/' :: n).reverse = n.reverse ++ '/' :: q.reverse := by simp
    rw [hr, hdrop2, htake.1, List.reverse_reverse]
  obtain ⟨c2, cs2, hnn⟩ : ∃ c2 cs2, n = c2 :: cs2 := by
    cases n with
    | nil => exact absurd rfl h0
    | cons c2 cs2 => exact ⟨c2, cs2, rfl⟩
  constructor
  · unfold filepathBase
    simp only [hkey1]
  · unfold filepathBase
    simp only [hkey2]
    rw [hnn]
    cases q <;> rfl

theorem filepathBase_join (dir name : String) (h0 : name.data ≠ []) (hn : '/' ∉ name.data)
    (h1 : name.data ≠ ['.']) (h2 : name.data ≠ ['.', '.']) :
    filepathBase (filepathJoin dir name) = name := by
  have hname : name ≠ "" := by
    intro h
    apply h0
    rw [h]
  have hclean : ∀ p : List Char, (∃ xs, splitSep p = xs ++ [name.data]) →
      filepathBase (String.mk (cleanChars p)) = name := by
    intro p ⟨xs, hxs⟩
    rcases cleanChars_last p xs name.data hxs h0 h1 h2 with h | ⟨q, h⟩
    · rw [h]
      exact (baseChars_last [] name.data h0 hn).1
    · rw [h]
      exact (baseChars_last q name.data h0 hn).2
  unfold filepathJoin filepathClean
  split
  · apply hclean
    refine ⟨splitSep dir.data, ?_⟩
    have hd : (dir ++ "/" ++ name).data = dir.data ++ '/' :: name.data := by
      simp [String.data_append]
    rw [hd]
    exact splitSep_append_sep dir.data name.data hn
  · apply hclean
    exact ⟨[], by simp [splitSep_no_sep name.data hn]⟩

theorem cleanStack_nonempty (rooted : Bool) (out es : List (List Char))
    (h : ∀ e ∈ out, e ≠ []) : ∀ e ∈ cleanStack rooted out es, e ≠ [] := by
  induction es generalizing out with
  | nil => simpa [cleanStack] using h
  | cons x xs ih =>
    unfold cleanStack
    split
    · exact ih out h
    · rename_i hx
      have hx0 : x ≠ [] := fun h0 => hx (Or.inl h0)
      have hpush : ∀ e ∈ x :: out, e ≠ [] := by
        intro e he
        rcases List.mem_cons.1 he with he | he
        · rw [he]
          exact hx0
        · exact h e he
      split
      · cases out with
        | nil =>
          cases rooted
          · exact ih _ hpush
          · exact ih _ h
        | cons top below =>
          by_cases ht : top = ['.', '.']
          · simp only [ht, if_true]
            exact ih _ (by simpa [ht] using hpush)
          · simp only [ht, if_false]
            exact ih _ (fun e he => h e (List.mem_cons_of_mem top he))
      · exact ih _ hpush

theorem joinSep_ne_nil (l : List (List Char)) (hl : l ≠ []) (h : ∀ e ∈ l, e ≠ []) :
    joinSep l ≠ [] := by
  cases l with
  | nil => exact absurd rfl hl
  | cons e es =>
    cases es with
    | nil => simpa [joinSep] using h e (by simp)
    | cons e2 es2 => simp [joinSep]

theorem dropWhile_append_stop (p : Char → Bool) (l r : List Char) (a : Char)
    (hl : ∀ x ∈ l, p x = true) (ha : p a = false) :
    (l ++ a :: r).dropWhile p = a :: r ∧ l.dropWhile p = [] := by
  induction l with
  | nil => simp [List.dropWhile, ha]
  | cons c cs ih =>
    have hc := hl c (List.mem_cons_self c cs)
    have hcs := ih (fun x hx => hl x (List.mem_cons_of_mem c hx))
    refine ⟨?_, ?_⟩
    · rw [List.cons_append, List.dropWhile_cons, hc, if_pos rfl, hcs.1]
    · rw [List.dropWhile_cons, hc, if_pos rfl, hcs.2]

theorem parentDir_last (q n : List Char) (hn : '/' ∉ n) :
    parentDir (String.mk n) = "." ∧
    parentDir (String.mk (q ++ '/' :: n)) = if q = [] then "/" else String.mk q := by
  have hrev : ∀ x ∈ n.reverse, (fun c : Char => decide (c ≠ '/')) x = true := by
    intro x hx
    have hxn : x ∈ n := List.mem_reverse.1 hx
    have hne : x ≠ '/' := fun h => hn (h ▸ hxn)
    simpa using hne
  have hdrop := dropWhile_append_stop (fun c : Char => decide (c ≠ '/')) n.reverse q.reverse '/'
    hrev (by simp)
  constructor
  · unfold parentDir
    simp only [hdrop.2]
  · have hr : (q ++ '/' :: n).reverse = n.reverse ++ '/' :: q.reverse := by simp
    unfold parentDir
    simp only [hr, hdrop.1, List.reverse_eq_nil_iff, List.reverse_reverse]

theorem parentDir_cleanChars (c : Char) (cs n : List Char)
    (h0 : n ≠ []) (hn : '/' ∉ n) (h1 : n ≠ ['.']) (h2 : n ≠ ['.', '.']) :
    parentDir (String.mk (cleanChars ((c :: cs) ++ '/' :: n))) = String.mk (cleanChars (c :: cs)) := by
  have hsplit : splitSep (c :: (cs ++ '/' :: n)) = splitSep (c :: cs) ++ [n] :=
    splitSep_append_sep (c :: cs) n hn
  have hS := cleanStack_nonempty (decide (c = '/')) [] (splitSep (c :: cs)) (by simp)
  simp only [List.cons_append, cleanChars, hsplit, cleanStack_append,
    cleanStack_real _ _ n h0 h1 h2, List.reverse_cons, joinSep_append_singleton]
  generalize cleanStack (decide (c = '/')) [] (splitSep (c :: cs)) = S at hS ⊢
  by_cases hr : c = '/'
  · simp only [hr, decide_True, if_true]
    by_cases hnil : S.reverse = []
    · simp only [hnil, if_true, joinSep]
      exact ((parentDir_last [] n hn).2).trans (by simp)
    · simp only [hnil, if_false]
      have := (parentDir_last ('/' :: joinSep S.reverse) n hn).2
      simpa using this
  · simp only [hr, decide_False, Bool.false_eq_true, if_false]
    by_cases hnil : S.reverse = []
    · simp only [hnil, if_true, joinSep]
      rw [if_neg h0]
      exact (parentDir_last [] n hn).1
    · have hj : joinSep S.reverse ≠ [] :=
        joinSep_ne_nil _ hnil (fun e he => hS e (List.mem_reverse.1 he))
      simp only [hnil, if_false, hj]
      have := (parentDir_last (joinSep S.reverse) n hn).2
      simpa [hj] using this

theorem parentDir_join (dir name : String) (h0 : name.data ≠ []) (hn : '/' ∉ name.data)
    (h1 : name.data ≠ ['.']) (h2 : name.data ≠ ['.', '.']) :
    parentDir (filepathJoin dir name) = filepathClean dir := by
  have hname : name ≠ "" := by
    intro h
    apply h0
    rw [h]
  unfold filepathJoin filepathClean
  by_cases hd : dir = ""
  · subst hd
    simp only [ne_eq, not_true_eq_false, if_false, hname, not_false_eq_true, if_true]
    have hclean : cleanChars name.data = name.data := by
      have hsplit := splitSep_no_sep name.data hn
      cases hnd : name.data with
      | nil => exact absurd hnd h0
      | cons c cs =>
        have hc : c ≠ '/' := fun hc => hn (by rw [hnd, hc]; simp)
        rw [hnd] at hsplit h0 h1 h2
        simp [cleanChars, hsplit, cleanStack_real _ _ (c :: cs) h0 h1 h2, joinSep, hc]
    rw [hclean]
    exact (parentDir_last [] name.data hn).1
  · simp only [ne_eq, hd, not_false_eq_true, if_true]
    have hdd : (dir ++ "/" ++ name).data = dir.data ++ '/' :: name.data := by
      simp [String.data_append]
    rw [hdd]
    cases hdata : dir.data with
    | nil => exact absurd (String.ext hdata) hd
    | cons c cs => exact parentDir_cleanChars c cs name.data h0 hn h1 h2

/-! ## End to end: the name of the local artifact -/

theorem digitChar_ne_sep (m : Nat) (h : m < 10) : Nat.digitChar m ≠ '/' := by
  interval_cases m <;> decide

theorem toDigitsCore_no_sep (fuel n : Nat) (ds : List Char) (hds : '/' ∉ ds) :
    '/' ∉ Nat.toDigitsCore 10 fuel n ds := by
  induction fuel generalizing n ds with
  | zero => simpa [Nat.toDigitsCore] using hds
  | succ f ih =>
    have hd : '/' ∉ Nat.digitChar (n % 10) :: ds := by
      intro hm
      rcases List.mem_cons.1 hm with h | h
      · exact digitChar_ne_sep (n % 10) (Nat.mod_lt n (by decide)) h.symm
      · exact hds h
    unfold Nat.toDigitsCore
    simp only
    split
    · exact hd
    · exact ih _ _ hd

theorem toString_no_sep (n : Nat) : '/' ∉ (toString n).data := by
  have h : (toString n).data = Nat.toDigits 10 n := rfl
  rw [h]
  exact toDigitsCore_no_sep _ _ [] (by simp)

theorem artifact_name_shape (D : String) (ts : Nat) (hD : '/' ∉ D.data) :
    (D ++ "_" ++ toString ts ++ ".xlsx").data ≠ [] ∧
    '/' ∉ (D ++ "_" ++ toString ts ++ ".xlsx").data ∧
    (D ++ "_" ++ toString ts ++ ".xlsx").data ≠ ['.'] ∧
    (D ++ "_" ++ toString ts ++ ".xlsx").data ≠ ['.', '.'] := by
  have hlen : 5 ≤ (D ++ "_" ++ toString ts ++ ".xlsx").data.length := by
    simp only [String.data_append, List.length_append]
    have h5 : ['.', 'x', 'l', 's', 'x'].length = 5 := rfl
    omega
  refine ⟨?_, ?_, ?_, ?_⟩
  · intro h
    rw [h] at hlen
    simp at hlen
  · simp only [String.data_append, List.mem_append, not_or]
    exact ⟨⟨⟨hD, by decide⟩, toString_no_sep ts⟩, by decide⟩
  · intro h
    rw [h] at hlen
    simp at hlen
  · intro h
    rw [h] at hlen
    simp at hlen

theorem artifact_paths_differ (dir D : String) (ts : Nat) (hD : '/' ∉ D.data)
    (hne : D ≠ "testcase") :
    filepathJoin dir ("testcase_" ++ toString ts ++ ".xlsx")
      ≠ filepathJoin dir (D ++ "_" ++ toString ts ++ ".xlsx") := by
  intro h
  have hlit : ("testcase_" : String) = "testcase" ++ "_" := by decide
  rw [hlit] at h
  obtain ⟨a0, an, a1, a2⟩ := artifact_name_shape "testcase" ts (by decide)
  obtain ⟨b0, bn, b1, b2⟩ := artifact_name_shape D ts hD
  have hbase := congrArg filepathBase h
  rw [filepathBase_join dir _ a0 an a1 a2, filepathBase_join dir _ b0 bn b1 b2] at hbase
  have hdata := congrArg String.data hbase
  simp only [String.data_append, List.append_assoc] at hdata
  have hD2 : D.data = ("testcase" : String).data := (List.append_cancel_right hdata).symm
  exact hne (String.ext hD2)

theorem monitorLoop_row (env : Env) (task : Task) (repo : Repo) (sigs : List Signal)
    (hfaults : repo.faults = []) (hrow : repo.row = some task) :
    (monitorLoop env task repo sigs).repo.faults = [] ∧
    ∃ t, (monitorLoop env task repo sigs).repo.row = some t ∧ t.ID = task.ID ∧
      t.OutputFile = task.OutputFile ∧ t.DownloadFile = task.DownloadFile := by
  induction sigs with
  | nil => exact ⟨hfaults, task, hrow, rfl, rfl, rfl⟩
  | cons s ss ih =>
    cases s with
    | event e =>
      by_cases h1 : e.Event = "end"
      · by_cases hname : task.OutputFile = ""
        · simp [monitorLoop, h1, onEnd, hname, markFinished, Repo.Update_ok, hfaults]
        · cases hfind : findFileIDByName env.getFileList task.OutputFile with
          | error err => simp [monitorLoop, h1, onEnd, hname, hfind, Repo.Update_ok, hfaults]
          | ok fileID =>
            simp [monitorLoop, h1, onEnd, hname, hfind, markFinished, Repo.Update_ok, hfaults]
      · by_cases h2 : e.Event = "error"
        · simp [monitorLoop, h2, onError, Repo.Update_ok, hfaults]
        · simpa [monitorLoop, h1, h2] using ih
    | errorClosed => simpa [monitorLoop] using ih
    | eventClosed => simp [monitorLoop, onChannelClosed, Repo.Update_ok, hfaults]
    | streamErr m => simp [monitorLoop, onStreamErr, Repo.Update_ok, hfaults]
    | timeout => simp [monitorLoop, onTimeout, Repo.Update_ok, hfaults]

theorem GetDownloadFile_download (env : DownloadEnv) (repo : Repo) (disk : Disk) (t : Task)
    (taskID : String) (hparse : parseUint taskID = some t.ID) (hrow : repo.row = some t)
    (hfaults : repo.faults = []) (hs : t.Status = TaskStatus.TaskStatusFinished)
    (hid : t.OutputFileID ≠ "") (hmiss : disk.stat t.OutputFile = false)
    (hdl : (DownloadWorkflowResult env disk t.OutputFileID t.OutputFile t.DownloadFile).err = none) :
    (GetDownloadFile env repo disk taskID).err = none ∧
    (GetDownloadFile env repo disk taskID).filePath
      = (DownloadWorkflowResult env disk t.OutputFileID t.OutputFile t.DownloadFile).path ∧
    (GetDownloadFile env repo disk taskID).fileName
      = filepathBase (DownloadWorkflowResult env disk t.OutputFileID t.OutputFile t.DownloadFile).path ∧
    (GetDownloadFile env repo disk taskID).disk
      = (DownloadWorkflowResult env disk t.OutputFileID t.OutputFile t.DownloadFile).disk := by
  simp [GetDownloadFile, hparse, Repo.GetById_ok repo t hrow hfaults, hs, hid, hmiss, hdl]

/-- C16, refuted as stated: a task is created with the download name `测试用例`, its run
reaches "end" and the output is resolved; `GetDownloadFile` then produces the file
"outputs/测试用例_1.xlsx" (1 being the timestamp taken by `RunWorkflow`) and returns the
file name "测试用例_1.xlsx", not "测试用例.xlsx". -/
theorem artifact_name_counterexample :
    (retrieveAfterRun sampleEnv sampleDownloadEnv emptyRepo emptyDisk chineseReq
        [Signal.event endEvent] "3").err = none ∧
    (retrieveAfterRun sampleEnv sampleDownloadEnv emptyRepo emptyDisk chineseReq
        [Signal.event endEvent] "3").fileName = "测试用例_1.xlsx" ∧
    (retrieveAfterRun sampleEnv sampleDownloadEnv emptyRepo emptyDisk chineseReq
        [Signal.event endEvent] "3").fileName ≠ chineseReq.DownloadFile ++ ".xlsx" ∧
    (retrieveAfterRun sampleEnv sampleDownloadEnv emptyRepo emptyDisk chineseReq
        [Signal.event endEvent] "3").filePath = "outputs/测试用例_1.xlsx" ∧
    (retrieveAfterRun sampleEnv sampleDownloadEnv emptyRepo emptyDisk chineseReq
        [Signal.event endEvent] "3").filePath
      ≠ filepathJoin sampleDownloadEnv.OutputDir (chineseReq.DownloadFile ++ ".xlsx") := by
  decide

/-- C16, amended: end to end, for a task created with a download name D that contains no path
separator and is not "testcase", whose run ends Finished with a resolved output file id,
`GetDownloadFile` (the download succeeding, no file lying at the relative path named like the
remote output) produces the file named D, an underscore, the millisecond timestamp taken by
`RunWorkflow`, and ".xlsx" inside the output directory: the returned path is the join of the
output directory with that name, the returned file name is that name, and the file holds
the downloaded bytes. -/
theorem artifact_named_with_timestamp (env : Env) (denv : DownloadEnv) (repo : Repo) (disk : Disk)
    (req : TaskCreateRequest) (sigs : List Signal) (taskID body : String)
    (hfaults : repo.faults = []) (hd : req.DownloadFile ≠ "") (hp : req.FilePath ≠ "")
    (hparse : parseUint taskID = some repo.nextID)
    (hfin : ∃ t, (runPipeline env repo req sigs).repo.row = some t ∧
      t.Status = TaskStatus.TaskStatusFinished ∧ t.OutputFileID ≠ "")
    (hnocache : disk.stat ("testcase_" ++ toString env.timestamp) = false)
    (hreq : denv.newRequestErr = none) (hresp : denv.response = Except.ok (200, body))
    (hmk : denv.mkdirErr = none) (hcr : denv.createErr = none) (hcp : denv.copyErr = none)
    (hslash : '/' ∉ req.DownloadFile.data) (hname : req.DownloadFile ≠ "testcase") :
    (retrieveAfterRun env denv repo disk req sigs taskID).err = none ∧
    (retrieveAfterRun env denv repo disk req sigs taskID).filePath
      = filepathJoin denv.OutputDir (req.DownloadFile ++ "_" ++ toString env.timestamp ++ ".xlsx") ∧
    (retrieveAfterRun env denv repo disk req sigs taskID).fileName
      = req.DownloadFile ++ "_" ++ toString env.timestamp ++ ".xlsx" ∧
    (retrieveAfterRun env denv repo disk req sigs taskID).disk.read
      (filepathJoin denv.OutputDir (req.DownloadFile ++ "_" ++ toString env.timestamp ++ ".xlsx"))
      = some body := by
  obtain ⟨t, htrow, hts, htid⟩ := hfin
  rcases runPipeline_detail env repo req sigs hfaults hd hp with
    ⟨_, hrow, _⟩ | ⟨p, i, _, hrepo, _⟩
  · rw [hrow] at htrow
    have ht := Option.some.inj htrow
    rw [← ht] at hts
    simp at hts
  · obtain ⟨hf2, t2, hrow2, hid2, hof2, hdf2⟩ := monitorLoop_row env
      (uploadedRecord env req repo.nextID p i)
      { repo with
        row := some (uploadedRecord env req repo.nextID p i), nextID := repo.nextID + 1,
        writes := repo.writes ++
          [createdRecord req repo.nextID, uploadedRecord env req repo.nextID p i] } sigs hfaults rfl
    rw [← hrepo] at hf2 hrow2
    have ht : t2 = t := Option.some.inj (hrow2.symm.trans htrow)
    subst ht
    have hid3 : t2.ID = repo.nextID := hid2
    have hof3 : t2.OutputFile = "testcase_" ++ toString env.timestamp := hof2
    have hdf3 : t2.DownloadFile = req.DownloadFile ++ "_" ++ toString env.timestamp := hdf2
    have hne := artifact_paths_differ denv.OutputDir req.DownloadFile env.timestamp hslash hname
    obtain ⟨n0, nn, n1, n2⟩ := artifact_name_shape req.DownloadFile env.timestamp hslash
    have hsucc := DownloadWorkflowResult_success denv disk t2.OutputFileID t2.OutputFile
      t2.DownloadFile body hreq hresp hmk hcr hcp (by rw [hof3, hdf3]; exact hne)
      (Or.inr (by rw [hdf3]; exact parentDir_join _ _ n0 nn n1 n2))
    have hget := GetDownloadFile_download denv (runPipeline env repo req sigs).repo disk t2 taskID
      (by rw [hid3]; exact hparse) hrow2 hf2 hts htid (by rw [hof3]; exact hnocache) hsucc.1
    unfold retrieveAfterRun
    rw [hget.1, hget.2.1, hget.2.2.1, hget.2.2.2, hsucc.2.1, hdf3]
    refine ⟨rfl, rfl, filepathBase_join _ _ n0 nn n1 n2, ?_⟩
    have hread := hsucc.2.2.1
    rw [hdf3] at hread
    exact hread

/-- Witness of the amended C16: the download name `测试用例` gives the artifact
"测试用例_1.xlsx" in the output directory. -/
theorem artifact_named_with_timestamp_witness :
    emptyRepo.faults = [] ∧ chineseReq.DownloadFile ≠ "" ∧ chineseReq.FilePath ≠ "" ∧
    parseUint "3" = some emptyRepo.nextID ∧
    emptyDisk.stat ("testcase_" ++ toString sampleEnv.timestamp) = false ∧
    '/' ∉ chineseReq.DownloadFile.data ∧ chineseReq.DownloadFile ≠ "testcase" ∧
    (retrieveAfterRun sampleEnv sampleDownloadEnv emptyRepo emptyDisk chineseReq
        [Signal.event endEvent] "3").fileName
      = chineseReq.DownloadFile ++ "_" ++ toString sampleEnv.timestamp ++ ".xlsx" ∧
    (retrieveAfterRun sampleEnv sampleDownloadEnv emptyRepo emptyDisk chineseReq
        [Signal.event endEvent] "3").disk.read
      (filepathJoin sampleDownloadEnv.OutputDir
        (chineseReq.DownloadFile ++ "_" ++ toString sampleEnv.timestamp ++ ".xlsx")) = some "NEW" :=
  ⟨rfl, by decide, by decide, by decide, by decide, by decide, by decide,
    (artifact_named_with_timestamp sampleEnv sampleDownloadEnv emptyRepo emptyDisk chineseReq
      [Signal.event endEvent] "3" "NEW" rfl (by decide) (by decide) (by decide)
      ⟨_, rfl, by decide, by decide⟩ (by decide) rfl rfl rfl rfl rfl (by decide) (by decide)).2.2.1,
    (artifact_named_with_timestamp sampleEnv sampleDownloadEnv emptyRepo emptyDisk chineseReq
      [Signal.event endEvent] "3" "NEW" rfl (by decide) (by decide) (by decide)
      ⟨_, rfl, by decide, by decide⟩ (by decide) rfl rfl rfl rfl rfl (by decide) (by decide)).2.2.2⟩

/-! ## The stream reader -/

theorem readerLoop_append (decode : String → Option LangflowStreamEvent) (a b : List String) :
    readerLoop decode (a ++ b) = readerLoop decode a ++ readerLoop decode b := by
  induction a with
  | nil => rfl
  | cons text rest ih =>
    simp only [List.cons_append, readerLoop]
    split
    · exact ih
    · split
      · exact ih
      · simp [ih]

theorem readerLoop_dropped (decode : String → Option LangflowStreamEvent) (bad : String)
    (b : List String) (hbad : droppedLine decode bad) :
    readerLoop decode (bad :: b) = readerLoop decode b := by
  rcases hbad with h | h
  · simp [readerLoop, h]
  · simp only [readerLoop, h]
    split <;> rfl

theorem readerLoop_eq_specEvents (decode : String → Option LangflowStreamEvent)
    (lines : List String) : readerLoop decode lines = specEvents decode lines := by
  induction lines with
  | nil => rfl
  | cons text rest ih =>
    unfold specEvents at ih ⊢
    by_cases hblank : trimSpace text = ""
    · simp [readerLoop, hblank, ih]
    · cases hdec : decode (trimSpace text) with
      | none => simp [readerLoop, hblank, hdec, ih, List.filterMap]
      | some event => simp [readerLoop, hblank, hdec, ih, List.filterMap]

theorem readerStream_dropped (decode : String → Option LangflowStreamEvent)
    (a b : List String) (bad : String) (scanErr : Option String) (hbad : droppedLine decode bad) :
    readerStream decode (a ++ bad :: b) scanErr = readerStream decode (a ++ b) scanErr := by
  unfold readerStream
  rw [readerLoop_append, readerLoop_dropped decode bad b hbad, ← readerLoop_append]

/-! ## The listing lookup -/

theorem find_none_of_no_name (files : List LangflowFileInfo) (name : String)
    (h : ∀ f ∈ files, f.Name ≠ name) :
    files.find? (fun file => file.Name == name) = none := by
  induction files with
  | nil => rfl
  | cons g gs ih =>
    have hg : (g.Name == name) = false := by simpa using h g (List.mem_cons_self g gs)
    simp only [List.find?, hg]
    exact ih (fun x hx => h x (List.mem_cons_of_mem g hx))

theorem find_some_name (files : List LangflowFileInfo) (name : String) (f : LangflowFileInfo)
    (h : files.find? (fun file => file.Name == name) = some f) : f ∈ files ∧ f.Name = name := by
  refine ⟨List.mem_of_find?_eq_some h, ?_⟩
  have := List.find?_some h
  simpa using this

/-- C21: `findFileIDByName` returns the id of the first entry of the listing, in listing
order, whose name equals the given name exactly; it returns an error if and only if the
listing call failed or no entry of the listing has that name, and in the second case the
error is "file not found". -/
theorem find_file_id_first_exact_match (name : String) :
    (∀ (before after : List LangflowFileInfo) (f : LangflowFileInfo),
      (∀ g ∈ before, g.Name ≠ name) → f.Name = name →
        findFileIDByName (Except.ok (before ++ f :: after)) name = Except.ok f.ID) ∧
    (∀ (listing : Except String (List LangflowFileInfo)),
      (∃ e, findFileIDByName listing name = Except.error e) ↔
        ((∃ e, listing = Except.error e) ∨
          ∃ files, listing = Except.ok files ∧ ∀ f ∈ files, f.Name ≠ name)) ∧
    (∀ e, findFileIDByName (Except.error e) name = Except.error ("failed to get file list: " ++ e)) ∧
    (∀ files : List LangflowFileInfo, (∀ f ∈ files, f.Name ≠ name) →
      findFileIDByName (Except.ok files) name = Except.error ("file not found: " ++ name)) := by
  refine ⟨?_, ?_, ?_, ?_⟩
  · intro before after f hbefore hf
    simp [findFileIDByName, find_first_named before after f name hbefore hf]
  · intro listing
    cases listing with
    | error e => simp [findFileIDByName]
    | ok files =>
      cases hfind : files.find? (fun file => file.Name == name) with
      | none =>
        have hall : ∀ f ∈ files, f.Name ≠ name := by
          intro f hf
          have := List.find?_eq_none.1 hfind f hf
          simpa using this
        simp only [findFileIDByName, hfind]
        constructor
        · intro _
          exact Or.inr ⟨files, rfl, hall⟩
        · intro _
          exact ⟨_, rfl⟩
      | some f =>
        obtain ⟨hmem, hname⟩ := find_some_name files name f hfind
        simp only [findFileIDByName, hfind]
        constructor
        · rintro ⟨e, he⟩
          cases he
        · rintro (⟨e, he⟩ | ⟨files2, hfiles, hall⟩)
          · cases he
          · cases hfiles
            exact absurd hname (hall f hmem)
  · intro e
    rfl
  · intro files hall
    simp [findFileIDByName, find_none_of_no_name files name hall]

/-- Witness of C21: in a listing with entries that differ from "testcase_1" by case, by an
extension and by a prefix, the lookup returns the id of the first entry named exactly
"testcase_1", not that of the later entry with the same name. -/
theorem find_file_id_first_exact_match_witness :
    (∀ g ∈ nearMissListing.take 3, g.Name ≠ "testcase_1") ∧
    (LangflowFileInfo.mk "a4" "testcase_1" "engine/a4" 1 none).Name = "testcase_1" ∧
    findFileIDByName (Except.ok (nearMissListing.take 3 ++
      LangflowFileInfo.mk "a4" "testcase_1" "engine/a4" 1 none :: nearMissListing.drop 4))
        "testcase_1" = Except.ok "a4" :=
  ⟨by decide, rfl,
    (find_file_id_first_exact_match "testcase_1").1 (nearMissListing.take 3) (nearMissListing.drop 4)
      (LangflowFileInfo.mk "a4" "testcase_1" "engine/a4" 1 none) (by decide) rfl⟩

/-! ## The file slot of the run request -/

/-- C22: when the configured file slot name is empty, `RunWorkflow` returns an error, hands no
run request to the engine and starts no monitor, whatever the upload, the store and the
engine do; a run request is sent only when the file slot name is not empty, and a monitor is
started only after a run request was sent. -/
theorem no_file_slot_no_run (env : Env) (repo : Repo) (taskID : Nat)
    (filePath downloadFileName : String) (customPrompt : Option String) :
    (env.config.FileComponentID = "" →
      (RunWorkflow env repo taskID filePath downloadFileName customPrompt).err ≠ none ∧
      (RunWorkflow env repo taskID filePath downloadFileName customPrompt).request = none ∧
      (RunWorkflow env repo taskID filePath downloadFileName customPrompt).monitorStarted = false) ∧
    ((RunWorkflow env repo taskID filePath downloadFileName customPrompt).request ≠ none →
      env.config.FileComponentID ≠ "") ∧
    ((RunWorkflow env repo taskID filePath downloadFileName customPrompt).monitorStarted = true →
      (RunWorkflow env repo taskID filePath downloadFileName customPrompt).request ≠ none) := by
  have key : ∀ p n, env.config.FileComponentID = "" →
      buildRunRequest env.config p n customPrompt = none := by
    intro p n h
    simp [buildRunRequest, h]
  unfold RunWorkflow
  cases env.uploadFile with
  | error e => simp
  | ok pr =>
    obtain ⟨p, i⟩ := pr
    dsimp only
    cases hget : repo.GetById taskID with
    | mk repo1 found =>
      cases found with
      | none => simp
      | some updateTask =>
        dsimp only
        by_cases hupd : (repo1.Update { updateTask with
            FilePath := p, UploadFileID := i, OutputFile := "testcase_" ++ toString env.timestamp,
            DownloadFile := downloadFileName ++ "_" ++ toString env.timestamp }).2 = true
        · simp [hupd]
        · simp only [hupd]
          cases hbuild : buildRunRequest env.config p ("testcase_" ++ toString env.timestamp)
              customPrompt with
          | none => simp
          | some body =>
            have hslot : env.config.FileComponentID ≠ "" := by
              intro h
              rw [key p _ h] at hbuild
              cases hbuild
            cases env.newRequestErr with
            | some e => simp [hslot]
            | none =>
              cases env.runResponse with
              | error e => simp [hslot]
              | ok r =>
                obtain ⟨code, text⟩ := r
                by_cases hc : code = 200 <;> simp [hc, hslot]

/-- Witness of C22: with the file slot left out of the sample configuration, the run of the
sample task returns an error (with an empty text), sends nothing and starts no monitor. -/
theorem no_file_slot_no_run_witness :
    noSlotEnv.config.FileComponentID = "" ∧
    (RunWorkflow noSlotEnv sampleRepo 3 "uploads/report.docx" "cases" none).err = some "" ∧
    (RunWorkflow noSlotEnv sampleRepo 3 "uploads/report.docx" "cases" none).err ≠ none ∧
    (RunWorkflow noSlotEnv sampleRepo 3 "uploads/report.docx" "cases" none).request = none ∧
    (RunWorkflow noSlotEnv sampleRepo 3 "uploads/report.docx" "cases" none).monitorStarted = false :=
  ⟨rfl, rfl,
    (no_file_slot_no_run noSlotEnv sampleRepo 3 "uploads/report.docx" "cases" none).1 rfl⟩

/-! ## The slots of the run request -/

theorem lookup_mapSet (m : JsonMap) (k key : String) (v : JsonValue) :
    List.lookup key (mapSet m k v) = if key = k then some v else List.lookup key m := by
  unfold mapSet
  by_cases h : key = k
  · subst h
    simp [List.lookup]
  · have hb : (key == k) = false := by simpa using h
    simp only [List.lookup, hb, if_neg h]
    induction m with
    | nil => rfl
    | cons kv rest ih =>
      obtain ⟨a, b⟩ := kv
      by_cases ha : a = k
      · subst ha
        have hka : (key == a) = false := by simpa using h
        simp [List.filter, List.lookup, hka, ih]
      · have hak : (a != k) = true := by simpa using ha
        simp only [List.filter, hak, List.lookup]
        rw [ih]

theorem buildRunRequest_lookup (config : CustomConfig) (p n : String) (cp : Option String)
    (hfile : config.FileComponentID ≠ "") :
    ∃ body, buildRunRequest config p n cp = some body ∧
      body.InputType = "text" ∧ body.OutputType = "text" ∧
      body.InputValue = "根据需求文档生成测试用例" ∧
      ∀ key, List.lookup key body.Tweaks =
        if cp.isSome = true ∧ config.PromptComponentID ≠ "" ∧ key = config.PromptComponentID
        then cp.map templateBinding
        else if key = config.SaveFileComponentID then some (fileNameBinding n)
        else if key = config.FileComponentID then some (pathBinding p)
        else none := by
  cases cp with
  | none =>
    refine ⟨_, by simp only [buildRunRequest, hfile, ne_eq, not_false_eq_true, if_true]; rfl,
      rfl, rfl, rfl, ?_⟩
    intro key
    simp [lookup_mapSet, fileNameBinding, pathBinding]
  | some text =>
    by_cases hp : config.PromptComponentID = ""
    · refine ⟨_, by simp only [buildRunRequest, hfile, hp, ne_eq, not_false_eq_true, if_true,
        not_true_eq_false, if_false]; rfl, rfl, rfl, rfl, ?_⟩
      intro key
      simp [lookup_mapSet, fileNameBinding, pathBinding, hp]
    · refine ⟨_, by simp only [buildRunRequest, hfile, hp, ne_eq, not_false_eq_true, if_true]; rfl,
        rfl, rfl, rfl, ?_⟩
      intro key
      by_cases hk : key = config.PromptComponentID
      · simp [lookup_mapSet, hk, hp, templateBinding]
      · simp [lookup_mapSet, hk, hp, fileNameBinding, pathBinding]

theorem Repo.Update_row (r : Repo) (t : Task) (h : (r.Update t).2 = false) :
    (r.Update t).1.row = some t := by
  unfold Repo.Update Repo.nextFault at h ⊢
  cases hf : r.faults with
  | nil => simp
  | cons b bs =>
    cases b with
    | false => simp
    | true => simp [hf] at h

theorem RunWorkflow_request (env : Env) (repo : Repo) (taskID : Nat)
    (filePath downloadFileName : String) (customPrompt : Option String) (body : LangflowRunRequest)
    (h : (RunWorkflow env repo taskID filePath downloadFileName customPrompt).request = some body) :
    ∃ p i t, env.uploadFile = Except.ok (p, i) ∧
      buildRunRequest env.config p ("testcase_" ++ toString env.timestamp) customPrompt = some body ∧
      (RunWorkflow env repo taskID filePath downloadFileName customPrompt).repo.row = some t ∧
      t.FilePath = p ∧ t.OutputFile = "testcase_" ++ toString env.timestamp := by
  unfold RunWorkflow at h ⊢
  cases hup : env.uploadFile with
  | error e => simp [hup] at h
  | ok pr =>
    obtain ⟨p, i⟩ := pr
    simp only [hup] at h ⊢
    cases hget : repo.GetById taskID with
    | mk repo1 found =>
      cases found with
      | none => simp [hget] at h
      | some updateTask =>
        simp only [hget] at h ⊢
        by_cases hupd : (repo1.Update { updateTask with
            FilePath := p, UploadFileID := i, OutputFile := "testcase_" ++ toString env.timestamp,
            DownloadFile := downloadFileName ++ "_" ++ toString env.timestamp }).2 = true
        · simp [hupd] at h
        · have hrow := Repo.Update_row repo1 _ (by simpa using hupd)
          simp only [hupd] at h ⊢
          cases hbuild : buildRunRequest env.config p ("testcase_" ++ toString env.timestamp)
              customPrompt with
          | none => simp [hbuild] at h
          | some built =>
            simp only [hbuild] at h ⊢
            cases hnew : env.newRequestErr with
            | some e => simp [hnew] at h
            | none =>
              simp only [hnew] at h ⊢
              cases hresp : env.runResponse with
              | error e =>
                simp only [hresp] at h ⊢
                refine ⟨p, i, { updateTask with
                  FilePath := p, UploadFileID := i,
                  OutputFile := "testcase_" ++ toString env.timestamp,
                  DownloadFile := downloadFileName ++ "_" ++ toString env.timestamp },
                  rfl, ?_, hrow, rfl, rfl⟩
                rw [hbuild]
                simpa using h
              | ok r =>
                obtain ⟨code, text⟩ := r
                simp only [hresp] at h ⊢
                refine ⟨p, i, { updateTask with
                  FilePath := p, UploadFileID := i,
                  OutputFile := "testcase_" ++ toString env.timestamp,
                  DownloadFile := downloadFileName ++ "_" ++ toString env.timestamp },
                  rfl, ?_, ?_, rfl, rfl⟩
                · rw [hbuild]
                  by_cases hc : code = 200
                  · simpa [hc] using h
                  · simpa [hc] using h
                · by_cases hc : code = 200
                  · simpa [hc] using hrow
                  · simpa [hc] using hrow

/-- C23, refuted as stated: the file slot is configured and a custom prompt text is supplied,
yet the request `RunWorkflow` sends binds only the save and file slots and has no entry for
the prompt slot, because the configuration names no prompt slot; and when the configuration
names the same slot for the file and for the output name, that slot carries the output name,
not the remote path. -/
theorem prompt_slot_unbound_counterexample :
    noPromptSlotEnv.config.FileComponentID ≠ "" ∧
    (RunWorkflow noPromptSlotEnv sampleRepo 3 "uploads/report.docx" "cases" (some "P")).request.map
        (fun body => List.lookup noPromptSlotEnv.config.PromptComponentID body.Tweaks) = some none ∧
    (RunWorkflow noPromptSlotEnv sampleRepo 3 "uploads/report.docx" "cases" (some "P")).request.map
        (fun body => body.Tweaks.map Prod.fst) = some ["Save-1", "File-1"] ∧
    sharedSlotEnv.config.FileComponentID ≠ "" ∧
    (RunWorkflow sharedSlotEnv sampleRepo 3 "uploads/report.docx" "cases" none).request.map
        (fun body => List.lookup sharedSlotEnv.config.FileComponentID body.Tweaks)
      = some (some (fileNameBinding "testcase_1")) :=
  ⟨by decide, rfl, rfl, by decide, rfl⟩

/-- C23, amended: for every configuration whose file slot name is not empty and whose three
slot names differ from one another, the request body `RunWorkflow` builds, for every remote
path and output name, binds the file slot to the remote path and the save slot to the output
name; when a custom prompt text is supplied and the prompt slot name is not empty it binds the
prompt slot to that text; when no custom prompt is supplied or the prompt slot name is empty
it has no prompt entry; it has no other entry. Every request `RunWorkflow` sends is that body
for the remote path the upload returned and the output name recorded on the task. -/
theorem run_request_slots (env : Env) (customPrompt : Option String)
    (hfile : env.config.FileComponentID ≠ "")
    (hfs : env.config.FileComponentID ≠ env.config.SaveFileComponentID)
    (hpf : env.config.PromptComponentID ≠ env.config.FileComponentID)
    (hps : env.config.PromptComponentID ≠ env.config.SaveFileComponentID) :
    (∀ p n : String, ∃ body, buildRunRequest env.config p n customPrompt = some body ∧
      List.lookup env.config.FileComponentID body.Tweaks = some (pathBinding p) ∧
      List.lookup env.config.SaveFileComponentID body.Tweaks = some (fileNameBinding n) ∧
      (∀ text, customPrompt = some text → env.config.PromptComponentID ≠ "" →
        List.lookup env.config.PromptComponentID body.Tweaks = some (templateBinding text)) ∧
      ((customPrompt = none ∨ env.config.PromptComponentID = "") →
        List.lookup env.config.PromptComponentID body.Tweaks = none) ∧
      (∀ key, key ≠ env.config.FileComponentID → key ≠ env.config.SaveFileComponentID →
        key ≠ env.config.PromptComponentID → List.lookup key body.Tweaks = none)) ∧
    (∀ (repo : Repo) (taskID : Nat) (filePath downloadFileName : String) (body : LangflowRunRequest),
      (RunWorkflow env repo taskID filePath downloadFileName customPrompt).request = some body →
      ∃ p i t, env.uploadFile = Except.ok (p, i) ∧
        (RunWorkflow env repo taskID filePath downloadFileName customPrompt).repo.row = some t ∧
        t.FilePath = p ∧
        buildRunRequest env.config p t.OutputFile customPrompt = some body) := by
  constructor
  · intro p n
    obtain ⟨body, hbody, _, _, _, hlookup⟩ := buildRunRequest_lookup env.config p n customPrompt hfile
    refine ⟨body, hbody, ?_, ?_, ?_, ?_, ?_⟩
    · rw [hlookup]
      simp [hpf.symm, hfs]
    · rw [hlookup]
      simp [hps.symm]
    · intro text htext hp
      rw [hlookup]
      simp [htext, hp]
    · intro hno
      rw [hlookup]
      rcases hno with hno | hno
      · simp [hno, hps, hpf]
      · rw [if_neg (fun h => h.2.1 hno), if_neg hps, if_neg hpf]
    · intro key hkf hks hkp
      rw [hlookup]
      simp [hkf, hks, hkp]
  · intro repo taskID filePath downloadFileName body hsent
    obtain ⟨p, i, t, hup, hbuild, hrow, hpath, hname⟩ :=
      RunWorkflow_request env repo taskID filePath downloadFileName customPrompt body hsent
    exact ⟨p, i, t, hup, hrow, hpath, by rw [hname]; exact hbuild⟩

/-- Witness of C23: with the sample configuration (slots "File-1", "Save-1", "Prompt-1") and
the custom prompt "P", the body binds the three slots to the remote path, the output name and
the prompt text. -/
theorem run_request_slots_witness :
    sampleEnv.config.FileComponentID ≠ "" ∧
    sampleEnv.config.FileComponentID ≠ sampleEnv.config.SaveFileComponentID ∧
    sampleEnv.config.PromptComponentID ≠ sampleEnv.config.FileComponentID ∧
    sampleEnv.config.PromptComponentID ≠ sampleEnv.config.SaveFileComponentID ∧
    (∃ body, buildRunRequest sampleEnv.config "engine/report.docx" "testcase_1" (some "P") = some body ∧
      List.lookup "File-1" body.Tweaks = some (pathBinding "engine/report.docx") ∧
      List.lookup "Save-1" body.Tweaks = some (fileNameBinding "testcase_1") ∧
      List.lookup "Prompt-1" body.Tweaks = some (templateBinding "P")) ∧
    (RunWorkflow sampleEnv sampleRepo 3 "uploads/report.docx" "cases" (some "P")).request.map
        (fun body => body.Tweaks.map Prod.fst) = some ["Prompt-1", "Save-1", "File-1"] := by
  refine ⟨by decide, by decide, by decide, by decide, ?_, rfl⟩
  obtain ⟨body, hbody, hf, hs, hp, _, _⟩ :=
    (run_request_slots sampleEnv (some "P") (by decide) (by decide) (by decide) (by decide)).1
      "engine/report.docx" "testcase_1"
  exact ⟨body, hbody, hf, hs, hp "P" rfl (by decide)⟩

/-! ## Paging of the task listing -/

/-- C24, refuted as stated: a page size of 0 becomes 20, not 1, and a page size of 500 becomes
20, not 100. -/
theorem page_size_not_clamped_counterexample :
    (TaskList2Query (pageReq 1 0)).PageSize = 20 ∧ min (max (0 : Int) 1) 100 = 1 ∧
    (TaskList2Query (pageReq 1 500)).PageSize = 20 ∧ min (max (500 : Int) 1) 100 = 100 ∧
    (TaskList2Query (pageReq 1 0)).PageSize ≠ min (max (0 : Int) 1) 100 ∧
    (TaskList2Query (pageReq 1 500)).PageSize ≠ min (max (500 : Int) 1) 100 := by
  decide

/-- C24, amended: for every integer page and page size, `TaskList2Query` returns the page
`max(page, 1)`, the requested page size when it lies in [1,100] and the default 20 otherwise,
so the resulting page size always lies in [1,100] and values in range pass through
unchanged; the filter fields are copied unmodified. -/
theorem list_query_paging (req : TaskListRequest) :
    (TaskList2Query req).Page = max req.Page 1 ∧
    (TaskList2Query req).PageSize
      = (if 1 ≤ req.PageSize ∧ req.PageSize ≤ 100 then req.PageSize else 20) ∧
    (1 ≤ (TaskList2Query req).PageSize ∧ (TaskList2Query req).PageSize ≤ 100) ∧
    (TaskList2Query req).TaskID = req.TaskID ∧
    (TaskList2Query req).Status = req.Status ∧
    (TaskList2Query req).OriginalFilename = req.OriginalFilename := by
  obtain ⟨page, size, id, status, name⟩ := req
  unfold TaskList2Query
  dsimp only
  by_cases hp : page < 1 <;> by_cases hs : (size < 1 ∨ size > 100)
  · simp only [hp, hs, if_true]
    refine ⟨by rw [max_def]; split <;> omega, by split <;> omega, by omega, ?_⟩
    simp
  · simp only [hp, hs, if_true, if_false]
    refine ⟨by rw [max_def]; split <;> omega, by split <;> omega, by omega, ?_⟩
    simp
  · simp only [hp, hs, if_true, if_false]
    refine ⟨by rw [max_def]; split <;> omega, by split <;> omega, by omega, ?_⟩
    simp
  · simp only [hp, hs, if_false]
    refine ⟨by rw [max_def]; split <;> omega, by split <;> omega, by omega, ?_⟩
    simp

theorem TaskList2Query_pageSize_range (req : TaskListRequest) :
    1 ≤ (TaskList2Query req).PageSize ∧ (TaskList2Query req).PageSize ≤ 100 := by
  obtain ⟨page, size, id, status, name⟩ := req
  unfold TaskList2Query
  dsimp only
  by_cases hp : page < 1 <;> by_cases hs : (size < 1 ∨ size > 100)
  · simp only [hp, hs, if_true]
    omega
  · simp only [hp, hs, if_true, if_false]
    omega
  · simp only [hp, hs, if_true, if_false]
    omega
  · simp only [hp, hs, if_false]
    omega

theorem wrapInt64_of_range (x : Int) (hlo : -(2 ^ 63) ≤ x) (hhi : x < 2 ^ 63) : wrapInt64 x = x := by
  unfold wrapInt64
  norm_num at hlo hhi ⊢
  omega

theorem wrapInt64_add_sub (a b : Int) : wrapInt64 (wrapInt64 (a + b) - 1) = wrapInt64 (a + b - 1) := by
  unfold wrapInt64
  norm_num
  omega

theorem ceil_div_bounds (total p : Int) (h0 : 0 ≤ total) (hp : 1 ≤ p) :
    0 ≤ (total + p - 1) / p ∧ (total + p - 1) / p ≤ total + p - 1 ∧
    total ≤ (total + p - 1) / p * p ∧
    ((total + p - 1) / p - 1) * p < total ∧
    ((total + p - 1) / p = 0 ↔ total = 0) := by
  have hpos : 0 < p := by omega
  have hdiv := Int.ediv_add_emod (total + p - 1) p
  have hmod0 := Int.emod_nonneg (total + p - 1) (by omega : p ≠ 0)
  have hmodlt := Int.emod_lt_of_pos (total + p - 1) hpos
  have hq0 : 0 ≤ (total + p - 1) / p := Int.ediv_nonneg (by omega) (by omega)
  have hle : (total + p - 1) / p ≤ total + p - 1 := by
    have h1 : (total + p - 1) / p * 1 ≤ (total + p - 1) / p * p :=
      Int.mul_le_mul_of_nonneg_left hp hq0
    have h2 : (total + p - 1) / p * p = p * ((total + p - 1) / p) := Int.mul_comm _ _
    omega
  have hcomm : (total + p - 1) / p * p = p * ((total + p - 1) / p) := Int.mul_comm _ _
  refine ⟨hq0, hle, by omega, ?_, ?_⟩
  · have : ((total + p - 1) / p - 1) * p = (total + p - 1) / p * p - p := by ring
    omega
  · constructor
    · intro hq
      rw [hq] at hcomm hdiv
      simp at hdiv
      omega
    · intro ht
      subst ht
      apply Int.ediv_eq_zero_of_lt <;> omega

/-- C30, refuted as stated: when the store counts 9223372036854775807 matching records (the
largest `int64`) and the page size is 20, the sum `total + pageSize - 1` wraps around and
`TaskList` reports a negative number of pages, so `total_pages * page_size` is below the
total. -/
theorem total_pages_overflow_counterexample :
    (0 : Int) ≤ 9223372036854775807 ∧
    pagingOf (TaskList (countingStore 9223372036854775807) (some (pageReq 1 20)))
      = some (9223372036854775807, 20, -461168601842738789) ∧
    ¬ ((-461168601842738789 : Int) * 20 ≥ 9223372036854775807) := by
  decide

/-- C30, amended: `TaskList` never divides by zero, whatever the request and the store
answer. When the store reports a count `total ≥ 0` for which `total + page_size` does not
exceed 2^63 (so that the sum in `int64` does not wrap around), the response carries that
total, the page size of the query, which lies in [1,100], and as `total_pages` the ceiling
of `total / page_size`: `total_pages * page_size ≥ total`, `(total_pages - 1) * page_size <
total` when `total > 0`, and `total_pages` is 0 exactly when `total` is 0. -/
theorem total_pages_is_ceiling (list : TaskQuery → Except String (List Task × Int))
    (req : TaskListRequest) :
    (TaskList list (some req)).isSome = true ∧
    (∀ (tasks : List Task) (total : Int),
      list (TaskList2Query req) = Except.ok (tasks, total) →
      0 ≤ total → total + (TaskList2Query req).PageSize ≤ 2 ^ 63 →
      ∃ resp, TaskList list (some req) = some (Except.ok resp) ∧
        resp.Data.Total = total ∧
        resp.Data.PageSize = (TaskList2Query req).PageSize ∧
        resp.Data.Page = (TaskList2Query req).Page ∧
        (1 ≤ resp.Data.PageSize ∧ resp.Data.PageSize ≤ 100) ∧
        resp.Data.TotalPages = (total + resp.Data.PageSize - 1) / resp.Data.PageSize ∧
        resp.Data.TotalPages * resp.Data.PageSize ≥ total ∧
        (total > 0 → (resp.Data.TotalPages - 1) * resp.Data.PageSize < total) ∧
        (resp.Data.TotalPages = 0 ↔ total = 0)) := by
  obtain ⟨hp1, hp100⟩ := TaskList2Query_pageSize_range req
  have hsize : (if (TaskList2Query req).PageSize ≤ 0 then (20 : Int) else (TaskList2Query req).PageSize)
      = (TaskList2Query req).PageSize := by
    rw [if_neg (by omega)]
  constructor
  · unfold TaskList
    dsimp only
    rw [hsize]
    cases list (TaskList2Query req) with
    | error e => rfl
    | ok r =>
      obtain ⟨tasks, total⟩ := r
      have hne : (TaskList2Query req).PageSize ≠ 0 := by omega
      simp [divInt64, hne]
  · intro tasks total hlist h0 hmax
    obtain ⟨hq0, hqle, hge, hlt, hzero⟩ := ceil_div_bounds total (TaskList2Query req).PageSize h0 hp1
    have hmaxlit : total + (TaskList2Query req).PageSize ≤ 9223372036854775808 := by
      norm_num at hmax
      exact hmax
    have hne : (TaskList2Query req).PageSize ≠ 0 := by omega
    have hsum : wrapInt64 (wrapInt64 (total + (TaskList2Query req).PageSize) - 1)
        = total + (TaskList2Query req).PageSize - 1 := by
      rw [wrapInt64_add_sub]
      apply wrapInt64_of_range
      · norm_num
        omega
      · norm_num
        omega
    have hquot : Int.tdiv (total + (TaskList2Query req).PageSize - 1) (TaskList2Query req).PageSize
        = (total + (TaskList2Query req).PageSize - 1) / (TaskList2Query req).PageSize :=
      Int.tdiv_eq_ediv (by omega) (by omega)
    have hwq : wrapInt64 ((total + (TaskList2Query req).PageSize - 1) / (TaskList2Query req).PageSize)
        = (total + (TaskList2Query req).PageSize - 1) / (TaskList2Query req).PageSize := by
      apply wrapInt64_of_range
      · norm_num
        omega
      · norm_num
        omega
    refine ⟨{ Code := 0, Message := "查询成功",
              Data := { List := tasks, Total := total, Page := (TaskList2Query req).Page,
                        PageSize := (TaskList2Query req).PageSize,
                        TotalPages := (total + (TaskList2Query req).PageSize - 1)
                          / (TaskList2Query req).PageSize } }, ?_, rfl, rfl, rfl, ⟨hp1, hp100⟩, rfl,
            hge, fun _ => hlt, hzero⟩
    unfold TaskList
    dsimp only
    rw [hlist]
    dsimp only
    rw [hsize, hsum]
    simp [divInt64, hne, hquot, hwq]

/-- Witness of C30: 41 matching records at page size 20 make 3 pages, and no record makes no
page; a page size of 0 is answered with the default 20. -/
theorem total_pages_is_ceiling_witness :
    countingStore 41 (TaskList2Query (pageReq 1 20)) = Except.ok ([], 41) ∧
    (0 : Int) ≤ 41 ∧ (41 : Int) + (TaskList2Query (pageReq 1 20)).PageSize ≤ 2 ^ 63 ∧
    pagingOf (TaskList (countingStore 41) (some (pageReq 1 20))) = some (41, 20, 3) ∧
    pagingOf (TaskList (countingStore 0) (some (pageReq 1 0))) = some (0, 20, 0) ∧
    (∃ resp, TaskList (countingStore 41) (some (pageReq 1 20)) = some (Except.ok resp) ∧
      resp.Data.TotalPages * resp.Data.PageSize ≥ 41 ∧
      (resp.Data.TotalPages - 1) * resp.Data.PageSize < 41) := by
  refine ⟨rfl, by decide, by decide, by decide, by decide, ?_⟩
  obtain ⟨resp, hresp, _, _, _, _, _, hge, hlt, _⟩ :=
    (total_pages_is_ceiling (countingStore 41) (pageReq 1 20)).2 [] 41 rfl (by decide) (by decide)
  exact ⟨resp, hresp, hge, hlt (by decide)⟩

/-! ## Failure of the run after the upload -/

/-- C25, the code at a failing input: the upload succeeds (remote path "engine/report.docx",
file id "f1"), `RunWorkflow` persists the post-upload record and then fails because the engine
answers the run request with status 500. The background unit of `TaskCreate` then saves its
own copy of the record, taken at creation, with status Failed: the persisted Failed record
has an empty remote path, upload file id and output name and the download name without
timestamp, so it differs from the post-upload record in more than the status, and a later
`TaskDelete` hands no file id to the engine: the uploaded file "f1" is not deleted. When the
failure is reported by the monitor instead (an "error" event), the record is reloaded before
it is saved, the fields are kept and `TaskDelete` deletes "f1". -/
theorem run_failure_erases_upload_fields :
    (runPipeline badStatusEnv emptyRepo sampleReq []).repo.writes.map
        (fun t => (t.Status, remoteFields t))
      = [(TaskStatus.TaskStatusRunning, "", "", "", "cases"),
         (TaskStatus.TaskStatusRunning, "engine/report.docx", "f1", "testcase_1", "cases_1"),
         (TaskStatus.TaskStatusFailed, "", "", "", "cases")] ∧
    (runPipeline badStatusEnv emptyRepo sampleReq []).repo.row.map
        (fun t => (t.Status, t.ErrorMessage, remoteFields t))
      = some (TaskStatus.TaskStatusFailed, "", "", "", "", "cases") ∧
    (TaskDelete (runPipeline badStatusEnv emptyRepo sampleReq []).repo emptyDisk (some { TaskID := 3 })).err
      = none ∧
    (TaskDelete (runPipeline badStatusEnv emptyRepo sampleReq []).repo emptyDisk
        (some { TaskID := 3 })).remoteDeletes = [] ∧
    (runPipeline sampleEnv emptyRepo sampleReq [Signal.event errorEvent]).repo.row.map
        (fun t => (t.Status, t.ErrorMessage, remoteFields t))
      = some (TaskStatus.TaskStatusFailed, "X", "engine/report.docx", "f1", "testcase_1", "cases_1") ∧
    (TaskDelete (runPipeline sampleEnv emptyRepo sampleReq [Signal.event errorEvent]).repo emptyDisk
        (some { TaskID := 3 })).remoteDeletes = ["f1"] := by
  refine ⟨by decide, by decide, by decide, by decide, by decide, by decide⟩

/-! ## The two names recorded by `RunWorkflow` -/

/-- C26, the code at a failing input: for the download name "testcase", `RunWorkflow` records
the same text "testcase_1" as remote output name and as download name (1 being the timestamp
it took), so `GetDownloadFile` passes the same path "outputs/testcase_1.xlsx" as temporary
and as final path. The download is written to that path, removed as the file "already at the
destination", and the rename then fails: the call returns an error after one request to the
engine and no file is left at the final path. -/
theorem same_names_for_testcase :
    testcaseReq.DownloadFile ≠ "" ∧
    (runPipeline sampleEnv emptyRepo testcaseReq [Signal.event endEvent]).repo.row.map
        (fun t => (t.Status, t.OutputFileID, t.OutputFile, t.DownloadFile))
      = some (TaskStatus.TaskStatusFinished, "f2neq1", "testcase_1", "testcase_1") ∧
    filepathJoin sampleDownloadEnv.OutputDir ("testcase_1" ++ ".xlsx") = "outputs/testcase_1.xlsx" ∧
    downloadStepFails sampleDownloadEnv = false ∧
    (retrieveAfterRun sampleEnv sampleDownloadEnv emptyRepo emptyDisk testcaseReq
        [Signal.event endEvent] "3").err
      = some ("下载文件失败: failed to rename file from outputs/testcase_1.xlsx to " ++
          "outputs/testcase_1.xlsx: no such file or directory") ∧
    (retrieveAfterRun sampleEnv sampleDownloadEnv emptyRepo emptyDisk testcaseReq
        [Signal.event endEvent] "3").requests.length = 1 ∧
    (retrieveAfterRun sampleEnv sampleDownloadEnv emptyRepo emptyDisk testcaseReq
        [Signal.event endEvent] "3").disk.read "outputs/testcase_1.xlsx" = none ∧
    (retrieveAfterRun sampleEnv sampleDownloadEnv emptyRepo emptyDisk sampleReq
        [Signal.event endEvent] "3").err = none ∧
    (retrieveAfterRun sampleEnv sampleDownloadEnv emptyRepo emptyDisk sampleReq
        [Signal.event endEvent] "3").disk.read "outputs/cases_1.xlsx" = some "NEW" := by
  decide

/-! ## The line scanner -/

theorem rawLinesAux_line (cur xs rest : List Char) (h : '\n' ∉ xs) :
    rawLinesAux cur (xs ++ '\n' :: rest) = (cur.reverse ++ xs) :: rawLinesAux [] rest := by
  induction xs generalizing cur with
  | nil => simp [rawLinesAux]
  | cons x xs ih =>
    have hx : x ≠ '\n' := fun hx => h (by simp [hx])
    have hxs : '\n' ∉ xs := fun hm => h (List.mem_cons_of_mem x hm)
    have hstep : rawLinesAux cur (x :: (xs ++ '\n' :: rest))
        = rawLinesAux (x :: cur) (xs ++ '\n' :: rest) := by
      simp only [rawLinesAux, if_neg hx]
    rw [List.cons_append, hstep, ih (x :: cur) hxs]
    simp

theorem length_le_utf8ByteSize (cs : List Char) : cs.length ≤ (String.mk cs).utf8ByteSize := by
  induction cs with
  | nil => simp [String.utf8ByteSize, String.utf8ByteSize.go]
  | cons c cs ih =>
    have hc := Char.utf8Size_pos c
    simp only [String.utf8ByteSize, String.utf8ByteSize.go, List.length_cons] at ih ⊢
    omega

theorem scanLines_too_long (xs rest : List Char) (h : '\n' ∉ xs)
    (hlen : MaxScanTokenSize ≤ xs.length) :
    scanLines (String.mk (xs ++ '\n' :: rest)) = ([], some ErrTooLong) := by
  have hsize := length_le_utf8ByteSize xs
  unfold scanLines
  rw [rawLinesAux_line [] xs rest h]
  simp only [List.reverse_nil, List.nil_append, scanTokens]
  rw [if_pos (by omega)]

theorem endBody_data (n : Nat) :
    endBody n = String.mk ((endLineWith n).data ++ '\n' :: []) := by
  apply String.ext
  simp [endBody, String.data_append]

theorem endLineWith_no_newline (n : Nat) : '\n' ∉ (endLineWith n).data := by
  intro h
  simp only [endLineWith, String.data_append, List.mem_append, List.mem_replicate] at h
  rcases h with (h | ⟨_, h⟩) | h
  · revert h
    decide
  · revert h
    decide
  · revert h
    decide

theorem endLineWith_length (n : Nat) : n ≤ (endLineWith n).data.length := by
  simp only [endLineWith, String.data_append, List.length_append, List.length_replicate]
  omega

/-- C27, the code at a failing input: the response body is one well-formed "end" event line
whose payload carries a text of 65536 letters, so the line is longer than the 65536 bytes the
scanner's buffer can hold. Whatever `json.Unmarshal` would make of the line, the scanner
yields no line and stops with "token too long", the reader sends that as a read error, and the
monitor marks the task Failed with "Error reading stream for task" instead of taking the
"end" branch. The same event line with a text of 8 letters is decoded and the task ends
Finished. -/
theorem long_line_fails_task (decode : String → Option LangflowStreamEvent) (spins : Nat) :
    MaxScanTokenSize = 65536 ∧
    scanLines (endBody 65536) = ([], some ErrTooLong) ∧
    (readBody decode (endBody 65536)).events = [] ∧
    (readBody decode (endBody 65536)).scanErr = some "bufio.Scanner: token too long" ∧
    (monitorWorkflowStatus sampleEnv sampleRepo 3
        (selectTrace (readBody decode (endBody 65536)) { timeoutAt := none, spins := spins })).fired
      = [Outcome.readError] ∧
    (monitorWorkflowStatus sampleEnv sampleRepo 3
        (selectTrace (readBody decode (endBody 65536))
          { timeoutAt := none, spins := spins })).repo.row.map (fun t => (t.Status, t.ErrorMessage))
      = some (TaskStatus.TaskStatusFailed, "Error reading stream for task") ∧
    (readBody endDecode (endBody 8)).scanErr = none ∧
    (monitorWorkflowStatus sampleEnv sampleRepo 3
        (selectTrace (readBody endDecode (endBody 8)) { timeoutAt := none, spins := 0 })).fired
      = [Outcome.endEvent] ∧
    (monitorWorkflowStatus sampleEnv sampleRepo 3
        (selectTrace (readBody endDecode (endBody 8))
          { timeoutAt := none, spins := 0 })).repo.row.map (fun t => (t.Status, t.ErrorMessage))
      = some (TaskStatus.TaskStatusFinished, "") := by
  have hscan : scanLines (endBody 65536) = ([], some ErrTooLong) := by
    rw [endBody_data]
    exact scanLines_too_long _ [] (endLineWith_no_newline 65536) (endLineWith_length 65536)
  have hread : readBody decode (endBody 65536) = { events := [], scanErr := some ErrTooLong } := by
    unfold readBody
    rw [hscan]
    rfl
  have htrace : selectTrace (readBody decode (endBody 65536)) { timeoutAt := none, spins := spins }
      = [Signal.streamErr ("stream reading error: " ++ ErrTooLong)] := by
    rw [hread]
    rfl
  refine ⟨rfl, hscan, by rw [hread], by rw [hread]; rfl, ?_, ?_, by decide, by decide, by decide⟩
  · rw [htrace]
    decide
  · rw [htrace]
    decide

/-! ## The stream reader over a response body -/

theorem dropWhile_reverse_append_singleton {α : Type} (p : α → Bool) (c : α) (r : List α)
    (hc : p c = true) :
    ((r ++ [c]).dropWhile p).reverse.dropWhile p = ((r.dropWhile p).reverse).dropWhile p := by
  induction r with
  | nil => simp [List.dropWhile, hc]
  | cons x r ih =>
    by_cases hx : p x = true
    · simpa [List.dropWhile, hx] using ih
    · simp [List.dropWhile, hx, List.dropWhile_append, hc]

theorem trimSpace_dropCR (cs : List Char) :
    trimSpace (String.mk (dropCR cs)) = trimSpace (String.mk cs) := by
  unfold dropCR
  split
  · rename_i rest hrev
    have hcs : cs = rest.reverse ++ ['\r'] := by
      have := congrArg List.reverse hrev
      simpa using this
    unfold trimSpace
    rw [hcs]
    simp only
    rw [dropWhile_reverse_append_singleton isSpace '\r' rest.reverse (by decide)]
  · rfl

theorem rawLinesAux_no_newline (cur xs : List Char) (h : '\n' ∉ xs) :
    rawLinesAux cur xs = if cur.reverse ++ xs = [] then [] else [cur.reverse ++ xs] := by
  induction xs generalizing cur with
  | nil => simp [rawLinesAux]
  | cons x xs ih =>
    have hx : x ≠ '\n' := fun hx => h (by simp [hx])
    have hxs : '\n' ∉ xs := fun hm => h (List.mem_cons_of_mem x hm)
    simp only [rawLinesAux, if_neg hx]
    rw [ih (x :: cur) hxs]
    simp

theorem rawLinesAux_bodyOfLines (lines : List String) (last : String)
    (hlines : ∀ l ∈ lines, '\n' ∉ l.data) (hlast : '\n' ∉ last.data) :
    rawLinesAux [] (bodyOfLines lines last).data
      = lines.map String.data ++ (if last.data = [] then [] else [last.data]) := by
  unfold bodyOfLines
  simp only
  induction lines with
  | nil =>
    simpa using rawLinesAux_no_newline [] last.data hlast
  | cons l rest ih =>
    have hl : '\n' ∉ l.data := hlines l (List.mem_cons_self l rest)
    have hrest : ∀ x ∈ rest, '\n' ∉ x.data := fun x hx => hlines x (List.mem_cons_of_mem l hx)
    have hshape : (l :: rest).flatMap (fun l => l.data ++ ['\n']) ++ last.data
        = l.data ++ '\n' :: (rest.flatMap (fun l => l.data ++ ['\n']) ++ last.data) := by
      simp [List.flatMap_cons]
    rw [hshape, rawLinesAux_line [] l.data _ hl, ih hrest]
    simp

theorem scanTokens_fit (raws : List (List Char))
    (h : ∀ raw ∈ raws, (String.mk raw).utf8ByteSize < MaxScanTokenSize) :
    scanTokens raws = (raws.map (fun raw => String.mk (dropCR raw)), none) := by
  induction raws with
  | nil => rfl
  | cons raw rest ih =>
    have hraw := h raw (List.mem_cons_self raw rest)
    have hrest := ih (fun x hx => h x (List.mem_cons_of_mem raw hx))
    simp only [scanTokens, hrest, List.map_cons]
    rw [if_neg (by omega)]

theorem specEvents_dropCR (decode : String → Option LangflowStreamEvent)
    (raws : List (List Char)) :
    specEvents decode (raws.map (fun raw => String.mk (dropCR raw)))
      = specEvents decode (raws.map String.mk) := by
  unfold specEvents
  simp only [List.map_map]
  congr 2
  apply List.map_congr_left
  intro raw _
  exact trimSpace_dropCR raw

theorem specEvents_append (decode : String → Option LangflowStreamEvent) (a b : List String) :
    specEvents decode (a ++ b) = specEvents decode a ++ specEvents decode b := by
  simp [specEvents]

theorem specEvents_dropped (decode : String → Option LangflowStreamEvent) (bad : String)
    (hbad : droppedLine decode bad) : specEvents decode [bad] = [] := by
  rcases hbad with h | h
  · simp [specEvents, h]
  · by_cases hb : trimSpace bad = ""
    · simp [specEvents, hb]
    · simp [specEvents, hb, h]

theorem map_mk_data (lines : List String) :
    List.map (String.mk ∘ String.data) lines = lines := by
  induction lines with
  | nil => rfl
  | cons x xs ih => simp [ih]

theorem readBody_bodyOfLines (decode : String → Option LangflowStreamEvent)
    (lines : List String) (last : String)
    (hlines : ∀ l ∈ lines, fitsScanner l) (hlast : fitsScanner last) :
    readBody decode (bodyOfLines lines last)
      = { events := specEvents decode (lines ++ [last]), scanErr := none } := by
  have hraw := rawLinesAux_bodyOfLines lines last (fun l hl => (hlines l hl).1) hlast.1
  have hfit : ∀ raw ∈ rawLinesAux [] (bodyOfLines lines last).data,
      (String.mk raw).utf8ByteSize < MaxScanTokenSize := by
    intro raw hmem
    rw [hraw, List.mem_append] at hmem
    rcases hmem with hmem | hmem
    · obtain ⟨l, hl, rfl⟩ := List.mem_map.1 hmem
      exact (hlines l hl).2
    · by_cases hempty : last.data = []
      · simp [hempty] at hmem
      · simp only [hempty, if_false, List.mem_singleton] at hmem
        rw [hmem]
        exact hlast.2
  have hscan : scanLines (bodyOfLines lines last)
      = ((rawLinesAux [] (bodyOfLines lines last).data).map (fun raw => String.mk (dropCR raw)),
          none) := scanTokens_fit _ hfit
  unfold readBody readerStream
  rw [hscan]
  simp only
  rw [readerLoop_eq_specEvents, specEvents_dropCR, hraw]
  congr 1
  by_cases hempty : last.data = []
  · have hl : last = "" := String.ext hempty
    subst hl
    simp only [List.map_append, List.map_map, if_true, List.append_nil, specEvents_append]
    have hnil : specEvents decode [""] = [] := specEvents_dropped decode "" (Or.inl rfl)
    rw [hnil, List.append_nil]
    congr 1
    exact map_mk_data lines
  · simp only [hempty, if_false, List.map_append, List.map_map, List.map_cons, List.map_nil]
    congr 1
    congr 1
    exact map_mk_data lines

theorem exists_bodyOfLines (cs : List Char) :
    ∃ (lines : List String) (last : String), (∀ l ∈ lines, '\n' ∉ l.data) ∧ '\n' ∉ last.data ∧
      String.mk cs = bodyOfLines lines last := by
  induction cs with
  | nil => exact ⟨[], "", by simp, by simp, rfl⟩
  | cons c cs ih =>
    obtain ⟨lines, last, hlines, hlast, hbody⟩ := ih
    have hcs : cs = lines.flatMap (fun l => l.data ++ ['\n']) ++ last.data := by
      have := congrArg String.data hbody
      simpa [bodyOfLines] using this
    by_cases hc : c = '\n'
    · refine ⟨"" :: lines, last, ?_, hlast, ?_⟩
      · intro l hl
        rcases List.mem_cons.1 hl with h | h
        · rw [h]
          simp
        · exact hlines l h
      · apply String.ext
        simp [bodyOfLines, hcs, hc, List.flatMap_cons]
    · cases lines with
      | nil =>
        refine ⟨[], String.mk (c :: last.data), by simp, ?_, ?_⟩
        · intro h
          rcases List.mem_cons.1 h with h | h
          · exact hc h.symm
          · exact hlast h
        · apply String.ext
          simp [bodyOfLines, hcs]
      | cons l rest =>
        refine ⟨String.mk (c :: l.data) :: rest, last, ?_, hlast, ?_⟩
        · intro x hx
          rcases List.mem_cons.1 hx with h | h
          · rw [h]
            intro hm
            rcases List.mem_cons.1 hm with hm | hm
            · exact hc hm.symm
            · exact hlines l (List.mem_cons_self l rest) hm
          · exact hlines x (List.mem_cons_of_mem l h)
        · apply String.ext
          simp [bodyOfLines, hcs, List.flatMap_cons]

theorem replicate_x_dropWhile (n : Nat) :
    (List.replicate n 'x').dropWhile isSpace = List.replicate n 'x' := by
  cases n with
  | zero => rfl
  | succ n =>
    rw [List.replicate_succ, List.dropWhile_cons_of_neg (by decide)]

theorem junkLine_dropped (n : Nat) : droppedLine sampleDecode (junkLine n) := by
  have htrim : trimSpace (junkLine n) = junkLine n := by
    unfold trimSpace junkLine
    simp only
    rw [replicate_x_dropWhile, List.reverse_replicate, replicate_x_dropWhile,
      List.reverse_replicate]
  have hne : ∀ s : String, s.data.head? = some '\x7b' → junkLine n ≠ s := by
    intro s hs h
    have hd := congrArg (fun s => s.data.head?) h
    simp only [junkLine, hs] at hd
    cases n with
    | zero => simp at hd
    | succ n => simp [List.replicate_succ] at hd
  right
  rw [htrim]
  unfold sampleDecode
  rw [if_neg (hne "\x7b\"event\":\"end\"\x7d" rfl),
    if_neg (hne "\x7b\"event\":\"token\",\"data\":\x7b\"chunk\":\"a\"\x7d\x7d" rfl)]

theorem junkBody_data (n : Nat) :
    junkBody n = String.mk (List.replicate n 'x' ++ '\n' :: endOnlyBody.data) := by
  apply String.ext
  simp [junkBody, junkLine, String.data_append]

theorem junkBody_scan (n : Nat) (hn : MaxScanTokenSize ≤ n) :
    scanLines (junkBody n) = ([], some ErrTooLong) := by
  rw [junkBody_data]
  refine scanLines_too_long _ _ ?_ (by simpa using hn)
  intro h
  have := (List.mem_replicate.1 h).2
  revert this
  decide

/-- C20, the claim at a failing input: the body holds the line of an "end" event; the reader
delivers that event and the monitor marks the task Finished. With a malformed line of 65536
letters inserted before that line (a line `sampleDecode` rejects, so one the claim says is
dropped), the scanner stops with "token too long" at the inserted line: the reader delivers
no event at all, reports a read error, and the monitor marks the task Failed with
"Error reading stream for task". The inserted line changed the delivered events, ended the
stream and failed the task. -/
theorem long_malformed_line_counterexample :
    droppedLine sampleDecode (junkLine 65536) ∧
    junkBody 65536 = junkLine 65536 ++ "\n" ++ endOnlyBody ∧
    readBody sampleDecode endOnlyBody = { events := [endEvent], scanErr := none } ∧
    (monitorWorkflowStatus sampleEnv sampleRepo 3
        (selectTrace (readBody sampleDecode endOnlyBody)
          { timeoutAt := none, spins := 0 })).repo.row.map (fun t => (t.Status, t.ErrorMessage))
      = some (TaskStatus.TaskStatusFinished, "") ∧
    readBody sampleDecode (junkBody 65536)
      = { events := [], scanErr := some "bufio.Scanner: token too long" } ∧
    (monitorWorkflowStatus sampleEnv sampleRepo 3
        (selectTrace (readBody sampleDecode (junkBody 65536))
          { timeoutAt := none, spins := 0 })).fired = [Outcome.readError] ∧
    (monitorWorkflowStatus sampleEnv sampleRepo 3
        (selectTrace (readBody sampleDecode (junkBody 65536))
          { timeoutAt := none, spins := 0 })).repo.row.map (fun t => (t.Status, t.ErrorMessage))
      = some (TaskStatus.TaskStatusFailed, "Error reading stream for task") := by
  have hread : readBody sampleDecode (junkBody 65536)
      = { events := [], scanErr := some ErrTooLong } := by
    unfold readBody
    rw [junkBody_scan 65536 (by decide)]
    rfl
  have htrace : selectTrace (readBody sampleDecode (junkBody 65536))
      { timeoutAt := none, spins := 0 }
      = [Signal.streamErr ("stream reading error: " ++ ErrTooLong)] := by
    rw [hread]
    rfl
  refine ⟨junkLine_dropped 65536, rfl, rfl, by decide, hread, ?_, ?_⟩
  · rw [htrace]
    decide
  · rw [htrace]
    decide

/-- C20, amended to lines that fit the scanner. A body read to its end is a sequence of lines
ended by newlines followed by the text after the last newline, and every body is of this form.
When every line has fewer than 65536 bytes, the reader goroutine delivers exactly the events
obtained by trimming each line, discarding the blank lines, decoding each remaining line and
dropping the lines that fail to decode, in line order, and the scanner reports no error.
Hence inserting or removing a blank or malformed line of fewer than 65536 bytes, between the
lines or as the text after the last newline, leaves the delivered events and the absence of a
read error unchanged, and the monitor reaches the same result for every engine, store and
schedule: such a line neither ends the stream nor fails the task. -/
theorem reader_delivers_decoded_events (decode : String → Option LangflowStreamEvent) :
    (∀ body : String, ∃ (lines : List String) (last : String),
      (∀ l ∈ lines, '\n' ∉ l.data) ∧ '\n' ∉ last.data ∧ body = bodyOfLines lines last) ∧
    (∀ (lines : List String) (last : String),
      (∀ l ∈ lines, fitsScanner l) → fitsScanner last →
      readBody decode (bodyOfLines lines last)
        = { events := specEvents decode (lines ++ [last]), scanErr := none }) ∧
    (∀ (a b : List String) (bad last : String),
      (∀ l ∈ a, fitsScanner l) → (∀ l ∈ b, fitsScanner l) → fitsScanner last →
      fitsScanner bad → droppedLine decode bad →
      readBody decode (bodyOfLines (a ++ bad :: b) last)
        = readBody decode (bodyOfLines (a ++ b) last) ∧
      (readBody decode (bodyOfLines (a ++ bad :: b) last)).scanErr = none ∧
      ∀ (env : Env) (repo : Repo) (taskID : Nat) (sch : Schedule),
        monitorWorkflowStatus env repo taskID
            (selectTrace (readBody decode (bodyOfLines (a ++ bad :: b) last)) sch)
          = monitorWorkflowStatus env repo taskID
            (selectTrace (readBody decode (bodyOfLines (a ++ b) last)) sch)) ∧
    (∀ (lines : List String) (bad : String),
      (∀ l ∈ lines, fitsScanner l) → fitsScanner bad → droppedLine decode bad →
      readBody decode (bodyOfLines lines bad) = readBody decode (bodyOfLines lines "") ∧
      (readBody decode (bodyOfLines lines bad)).scanErr = none ∧
      ∀ (env : Env) (repo : Repo) (taskID : Nat) (sch : Schedule),
        monitorWorkflowStatus env repo taskID
            (selectTrace (readBody decode (bodyOfLines lines bad)) sch)
          = monitorWorkflowStatus env repo taskID
            (selectTrace (readBody decode (bodyOfLines lines "")) sch)) := by
  have hempty : fitsScanner "" := ⟨by simp, by decide⟩
  refine ⟨?_, readBody_bodyOfLines decode, ?_, ?_⟩
  · intro body
    obtain ⟨lines, last, h1, h2, h3⟩ := exists_bodyOfLines body.data
    exact ⟨lines, last, h1, h2, h3⟩
  · intro a b bad last ha hb hlast hbad hdrop
    have hab : ∀ l ∈ a ++ b, fitsScanner l := by
      intro l hl
      rcases List.mem_append.1 hl with h | h
      · exact ha l h
      · exact hb l h
    have habad : ∀ l ∈ a ++ bad :: b, fitsScanner l := by
      intro l hl
      rcases List.mem_append.1 hl with h | h
      · exact ha l h
      · rcases List.mem_cons.1 h with h | h
        · rw [h]
          exact hbad
        · exact hb l h
    have heq : readBody decode (bodyOfLines (a ++ bad :: b) last)
        = readBody decode (bodyOfLines (a ++ b) last) := by
      rw [readBody_bodyOfLines decode _ last habad hlast,
        readBody_bodyOfLines decode _ last hab hlast]
      have hcons : a ++ bad :: b = a ++ ([bad] ++ b) := rfl
      rw [hcons]
      simp only [specEvents_append, specEvents_dropped decode bad hdrop, List.nil_append]
    refine ⟨heq, ?_, ?_⟩
    · rw [readBody_bodyOfLines decode _ last habad hlast]
    · intro env repo taskID sch
      rw [heq]
  · intro lines bad hlines hbad hdrop
    have heq : readBody decode (bodyOfLines lines bad) = readBody decode (bodyOfLines lines "") := by
      rw [readBody_bodyOfLines decode lines bad hlines hbad,
        readBody_bodyOfLines decode lines "" hlines hempty]
      simp only [specEvents_append, specEvents_dropped decode bad hdrop,
        specEvents_dropped decode "" (Or.inl rfl)]
    refine ⟨heq, ?_, ?_⟩
    · rw [readBody_bodyOfLines decode lines bad hlines hbad]
    · intro env repo taskID sch
      rw [heq]

/-- Witness of C20: the body holds a token line ended by a carriage return, a malformed line
and the "end" line, each ended by a newline. The malformed line fits the scanner and is
dropped: the body is read like the body without it, with no read error, and the events
delivered are the token event and the "end" event. -/
theorem reader_delivers_decoded_events_witness :
    (∀ l ∈ ["  \x7b\"event\":\"token\",\"data\":\x7b\"chunk\":\"a\"\x7d\x7d\r"], fitsScanner l) ∧
    (∀ l ∈ ["", "\x7b\"event\":\"end\"\x7d"], fitsScanner l) ∧
    fitsScanner "" ∧ fitsScanner "not json" ∧ droppedLine sampleDecode "not json" ∧
    readBody sampleDecode
        (bodyOfLines (["  \x7b\"event\":\"token\",\"data\":\x7b\"chunk\":\"a\"\x7d\x7d\r"] ++
          "not json" :: ["", "\x7b\"event\":\"end\"\x7d"]) "")
      = readBody sampleDecode
        (bodyOfLines (["  \x7b\"event\":\"token\",\"data\":\x7b\"chunk\":\"a\"\x7d\x7d\r"] ++
          ["", "\x7b\"event\":\"end\"\x7d"]) "") ∧
    bodyOfLines (["  \x7b\"event\":\"token\",\"data\":\x7b\"chunk\":\"a\"\x7d\x7d\r"] ++
          "not json" :: ["", "\x7b\"event\":\"end\"\x7d"]) ""
      = "  \x7b\"event\":\"token\",\"data\":\x7b\"chunk\":\"a\"\x7d\x7d\r\nnot json\n\n\x7b\"event\":\"end\"\x7d\n" ∧
    readBody sampleDecode
        (bodyOfLines (["  \x7b\"event\":\"token\",\"data\":\x7b\"chunk\":\"a\"\x7d\x7d\r"] ++
          "not json" :: ["", "\x7b\"event\":\"end\"\x7d"]) "")
      = { events := [tokenEvent, endEvent], scanErr := none } :=
  ⟨by decide, by decide, by decide, by decide, Or.inr rfl,
    ((reader_delivers_decoded_events sampleDecode).2.2.1
      ["  \x7b\"event\":\"token\",\"data\":\x7b\"chunk\":\"a\"\x7d\x7d\r"]
      ["", "\x7b\"event\":\"end\"\x7d"] "not json" ""
      (by decide) (by decide) (by decide) (by decide) (Or.inr rfl)).1,
    by decide, rfl⟩

/-! ## Regular expressions: the preferred match -/

theorem head?_flatMap_cons {α β : Type} (a : α) (tail : List α) (f : α → List β) (r : β)
    (h : (f a).head? = some r) : ((a :: tail).flatMap f).head? = some r := by
  cases hfa : f a with
  | nil => simp [hfa] at h
  | cons b bs =>
    rw [hfa] at h
    simp only [List.head?_cons, Option.some.injEq] at h
    simp [List.flatMap_cons, hfa, h]

theorem run_cls_cons (k : CharClass) (a : Char) (s : List Char) (c : Caps)
    (h : k.test a = true) : (Regex.cls k).run (a :: s) c = [(s, c)] := by
  simp [Regex.run, h]

theorem run_cls_fail (k : CharClass) (a : Char) (s : List Char) (c : Caps)
    (h : k.test a = false) : (Regex.cls k).run (a :: s) c = [] := by
  simp [Regex.run, h]

theorem run_cls_stop (k : CharClass) (y : List Char) (c : Caps)
    (hy : ∀ b, y.head? = some b → k.test b = false) : (Regex.cls k).run y c = [] := by
  cases y with
  | nil => rfl
  | cons b y => exact run_cls_fail k b y c (hy b rfl)

theorem run_cat_cons (a r : Regex) (rs : List Regex) (s : List Char) (c : Caps) :
    (Regex.cat a (r :: rs)).run s c
      = (a.run s c).flatMap (fun m => (Regex.cat r rs).run m.1 m.2) := rfl

theorem run_cat_lit (ch : Char) (r : Regex) (rs : List Regex) (s : List Char) (c : Caps) :
    (Regex.cat (Regex.cls (CharClass.lit ch)) (r :: rs)).run (ch :: s) c
      = (Regex.cat r rs).run s c := by
  rw [run_cat_cons, run_cls_cons _ _ _ _ (by simp [CharClass.test])]
  simp

theorem run_plus (greedy : Bool) (r : Regex) (s : List Char) (c : Caps) :
    (Regex.plus greedy r).run s c
      = (r.run s c).flatMap (fun m => starLoop r.run greedy m.1.length m.1 m.2) := rfl

theorem run_star (greedy : Bool) (r : Regex) (s : List Char) (c : Caps) :
    (Regex.star greedy r).run s c = starLoop r.run greedy s.length s c := rfl

theorem run_group (index : Nat) (r : Regex) (s : List Char) (c : Caps) :
    (Regex.group index r).run s c
      = (r.run s c).map (fun m => (m.1, setCap m.2 index (s.take (s.length - m.1.length)))) := rfl

theorem starLoop_greedy_head (k : CharClass) (x y : List Char) (c : Caps) (fuel : Nat)
    (hx : ∀ a ∈ x, k.test a = true) (hy : ∀ b, y.head? = some b → k.test b = false)
    (hfuel : x.length ≤ fuel) :
    ∃ tail, starLoop (Regex.cls k).run true fuel (x ++ y) c = (y, c) :: tail := by
  induction x generalizing fuel with
  | nil =>
    cases fuel with
    | zero => exact ⟨[], rfl⟩
    | succ fuel =>
      refine ⟨[], ?_⟩
      simp [starLoop, run_cls_stop k y c hy]
  | cons a x ih =>
    cases fuel with
    | zero => simp at hfuel
    | succ fuel =>
      obtain ⟨tail, htail⟩ := ih fuel (fun b hb => hx b (List.mem_cons_of_mem a hb))
        (by simpa using hfuel)
      refine ⟨tail ++ [((a :: x) ++ y, c)], ?_⟩
      have hstep : (Regex.cls k).run (a :: (x ++ y)) c = [(x ++ y, c)] :=
        run_cls_cons k a _ c (hx a (List.mem_cons_self a x))
      simp [starLoop, hstep, htail]

theorem plus_greedy_head (k : CharClass) (x y : List Char) (c : Caps)
    (hx : ∀ a ∈ x, k.test a = true) (hx0 : x ≠ [])
    (hy : ∀ b, y.head? = some b → k.test b = false) :
    ∃ tail, (Regex.plus true (Regex.cls k)).run (x ++ y) c = (y, c) :: tail := by
  cases x with
  | nil => exact absurd rfl hx0
  | cons a x =>
    obtain ⟨tail, htail⟩ := starLoop_greedy_head k x y c (x ++ y).length
      (fun b hb => hx b (List.mem_cons_of_mem a hb)) hy (by simp)
    refine ⟨tail, ?_⟩
    have hstep : (Regex.cls k).run (a :: (x ++ y)) c = [(x ++ y, c)] :=
      run_cls_cons k a _ c (hx a (List.mem_cons_self a x))
    rw [List.cons_append, run_plus, hstep]
    simpa using htail

theorem star_greedy_stop (k : CharClass) (y : List Char) (c : Caps)
    (hy : ∀ b, y.head? = some b → k.test b = false) :
    (Regex.star true (Regex.cls k)).run y c = [(y, c)] := by
  rw [run_star]
  cases hlen : y.length with
  | zero => simp [starLoop]
  | succ n => simp [starLoop, run_cls_stop k y c hy]

theorem starLoop_lazy_head {β : Type} (k : CharClass) (F : MatchState → List β)
    (x y : List Char) (c : Caps) (fuel : Nat) (r : β)
    (hx : ∀ a ∈ x, k.test a = true) (hfuel : x.length ≤ fuel)
    (hfail : ∀ u v, x = u ++ v → v ≠ [] → F (v ++ y, c) = [])
    (hok : (F (y, c)).head? = some r) :
    ((starLoop (Regex.cls k).run false fuel (x ++ y) c).flatMap F).head? = some r := by
  induction x generalizing fuel with
  | nil =>
    cases fuel with
    | zero => simpa [starLoop] using hok
    | succ fuel =>
      simp only [List.nil_append, starLoop, Bool.false_eq_true, if_false]
      exact head?_flatMap_cons _ _ F r hok
  | cons a x ih =>
    cases fuel with
    | zero => simp at hfuel
    | succ fuel =>
      have hstep : (Regex.cls k).run (a :: (x ++ y)) c = [(x ++ y, c)] :=
        run_cls_cons k a _ c (hx a (List.mem_cons_self a x))
      have hnow : F ((a :: x) ++ y, c) = [] := hfail [] (a :: x) rfl (by simp)
      have hrest := ih fuel (fun b hb => hx b (List.mem_cons_of_mem a hb)) (by simpa using hfuel)
        (fun u v huv hv => hfail (a :: u) v (by simp [huv]) hv)
      simp only [List.cons_append] at hnow
      simp [starLoop, hstep, List.flatMap_cons, hnow, hrest]

theorem flatMap_map_fun {α β γ : Type} (l : List α) (g : α → β) (G : β → List γ) :
    (l.map g).flatMap G = l.flatMap (fun m => G (g m)) := by
  induction l with
  | nil => rfl
  | cons a l ih => simp [List.flatMap_cons, ih]

theorem take_consumed (x y : List Char) : (x ++ y).take ((x ++ y).length - y.length) = x := by
  simp

theorem lazy_group_head {β : Type} (k : CharClass) (index : Nat) (G : MatchState → List β)
    (x y : List Char) (c : Caps) (r : β)
    (hx : ∀ a ∈ x, k.test a = true) (hx0 : x ≠ [])
    (hfail : ∀ u v c', x = u ++ v → u ≠ [] → v ≠ [] → G (v ++ y, c') = [])
    (hok : (G (y, setCap c index x)).head? = some r) :
    (((Regex.group index (Regex.plus false (Regex.cls k))).run (x ++ y) c).flatMap G).head?
      = some r := by
  cases x with
  | nil => exact absurd rfl hx0
  | cons a x =>
    have hstep : (Regex.cls k).run (a :: (x ++ y)) c = [(x ++ y, c)] :=
      run_cls_cons k a _ c (hx a (List.mem_cons_self a x))
    rw [run_group, flatMap_map_fun, List.cons_append, run_plus, hstep]
    simp only [List.flatMap_cons, List.flatMap_nil, List.append_nil]
    apply starLoop_lazy_head k _ x y c _ r (fun b hb => hx b (List.mem_cons_of_mem a hb))
      (by simp)
    · intro u v huv hv
      exact hfail (a :: u) v _ (by simp [huv]) (by simp) hv
    · have htake := take_consumed (a :: x) y
      simp only [List.cons_append] at htake
      simp only [htake]
      exact hok

theorem fieldRe_tail_fails (name u v tailText : List Char) (c : Caps)
    (hstar : ¬ (['*', '*'] <:+: name)) (huv : name = u ++ v) (hv : v ≠ []) (r : Regex)
    (rs : List Regex) :
    (Regex.cat (Regex.cls (CharClass.lit '*'))
      (Regex.cls (CharClass.lit '*') :: Regex.cls (CharClass.oneOf ['：', ':']) :: r :: rs)).run
        (v ++ '*' :: '*' :: '：' :: tailText) c = [] := by
  cases v with
  | nil => exact absurd rfl hv
  | cons a v1 =>
    by_cases ha : a = '*'
    · subst ha
      rw [List.cons_append, run_cat_lit]
      cases v1 with
      | nil =>
        rw [List.nil_append, run_cat_lit, run_cat_cons,
          run_cls_fail _ _ _ _ (by decide)]
        rfl
      | cons b v2 =>
        by_cases hb : b = '*'
        · subst hb
          exact absurd ⟨u, v2, by simp [huv]⟩ hstar
        · rw [List.cons_append, run_cat_cons,
            run_cls_fail _ _ _ _ (by simpa [CharClass.test] using hb)]
          rfl
    · rw [List.cons_append, run_cat_cons,
        run_cls_fail _ _ _ _ (by simpa [CharClass.test] using ha)]
      rfl

theorem fieldRe_head (digits name desc rest : List Char)
    (hd : ∀ a ∈ digits, CharClass.digit.test a = true) (hd0 : digits ≠ [])
    (hn0 : name ≠ []) (hnl : '\n' ∉ name) (hstar : ¬ (['*', '*'] <:+: name))
    (hde0 : desc ≠ []) (hdl : '\n' ∉ desc)
    (hsp : ∀ b, desc.head? = some b → CharClass.space.test b = false)
    (hrest : ∀ b, rest.head? = some b → b = '\n') :
    (templateFieldRe.run
        (digits ++ '.' :: ' ' :: '*' :: '*' :: (name ++ '*' :: '*' :: '：' :: (desc ++ rest))) []).head?
      = some (rest, setCap (setCap [] 1 name) 2 desc) := by
  unfold templateFieldRe
  obtain ⟨t1, h1⟩ := plus_greedy_head CharClass.digit digits
    ('.' :: ' ' :: '*' :: '*' :: (name ++ '*' :: '*' :: '：' :: (desc ++ rest))) [] hd hd0
    (by intro b hb; simp only [List.head?_cons, Option.some.injEq] at hb; subst hb; decide)
  rw [run_cat_cons, h1]
  apply head?_flatMap_cons
  dsimp only
  rw [run_cat_lit]
  obtain ⟨t2, h2⟩ := plus_greedy_head CharClass.space [' ']
    ('*' :: '*' :: (name ++ '*' :: '*' :: '：' :: (desc ++ rest))) []
    (by intro a ha; simp only [List.mem_singleton] at ha; subst ha; decide) (by simp)
    (by intro b hb; simp only [List.head?_cons, Option.some.injEq] at hb; subst hb; decide)
  simp only [List.cons_append, List.nil_append] at h2
  rw [run_cat_cons, h2]
  apply head?_flatMap_cons
  dsimp only
  rw [run_cat_lit, run_cat_lit, run_cat_cons]
  apply lazy_group_head CharClass.dot 1 _ name _ [] _
    (by intro a ha
        have hne : a ≠ '\n' := fun h => hnl (h ▸ ha)
        simpa [CharClass.test] using hne) hn0
  · intro u v c' huv _ hv
    exact fieldRe_tail_fails name u v (desc ++ rest) c' hstar huv hv _ _
  · dsimp only
    rw [run_cat_lit, run_cat_lit, run_cat_cons, run_cls_cons _ _ _ _ (by decide)]
    simp only [List.flatMap_cons, List.flatMap_nil, List.append_nil]
    have hhead : ∀ b, (desc ++ rest).head? = some b → CharClass.space.test b = false := by
      intro b hb
      cases desc with
      | nil => exact absurd rfl hde0
      | cons d ds => exact hsp b (by simpa using hb)
    rw [run_cat_cons, star_greedy_stop CharClass.space (desc ++ rest) _ hhead]
    simp only [List.flatMap_cons, List.flatMap_nil, List.append_nil]
    obtain ⟨t3, h3⟩ := plus_greedy_head CharClass.dot desc rest (setCap [] 1 name)
      (by intro a ha
          have hne : a ≠ '\n' := fun h => hdl (h ▸ ha)
          simpa [CharClass.test] using hne) hde0
      (by intro b hb
          rw [hrest b hb]
          decide)
    show ((Regex.group 2 (Regex.plus true (Regex.cls CharClass.dot))).run (desc ++ rest)
      (setCap [] 1 name)).head? = _
    rw [run_group, h3]
    simp

theorem search_of_head (re : Regex) (s : List Char) (m : MatchState)
    (h : (re.run s []).head? = some m) : re.search s = some ([], m) := by
  cases s with
  | nil => simp [Regex.search, h]
  | cons a s => simp [Regex.search, h]

theorem search_skip (re : Regex) (a : Char) (s : List Char) (h : re.run (a :: s) [] = []) :
    re.search (a :: s) = (re.search s).map (fun r => (a :: r.1, r.2)) := by
  simp [Regex.search, h]

theorem fieldRe_stop (s : List Char) (h : ∀ b, s.head? = some b → b = '\n') :
    templateFieldRe.run s [] = [] := by
  unfold templateFieldRe
  rw [run_cat_cons, run_plus, run_cls_stop CharClass.digit s []
    (by intro b hb; rw [h b hb]; decide)]
  rfl

theorem digitChar_is_digit (m : Nat) (h : m < 10) :
    CharClass.digit.test (Nat.digitChar m) = true := by
  interval_cases m <;> decide

theorem toDigitsCore_digits (fuel n : Nat) (ds : List Char)
    (hds : ∀ a ∈ ds, CharClass.digit.test a = true) :
    ∀ a ∈ Nat.toDigitsCore 10 fuel n ds, CharClass.digit.test a = true := by
  induction fuel generalizing n ds with
  | zero => simpa [Nat.toDigitsCore] using hds
  | succ f ih =>
    have hd : ∀ a ∈ Nat.digitChar (n % 10) :: ds, CharClass.digit.test a = true := by
      intro a ha
      rcases List.mem_cons.1 ha with h | h
      · rw [h]
        exact digitChar_is_digit (n % 10) (Nat.mod_lt n (by decide))
      · exact hds a h
    unfold Nat.toDigitsCore
    simp only
    split
    · exact hd
    · exact ih _ _ hd

theorem toDigitsCore_ne_nil (fuel n : Nat) (ds : List Char) (h : fuel ≠ 0 ∨ ds ≠ []) :
    Nat.toDigitsCore 10 fuel n ds ≠ [] := by
  induction fuel generalizing n ds with
  | zero =>
    rcases h with h | h
    · exact absurd rfl h
    · simpa [Nat.toDigitsCore] using h
  | succ f ih =>
    unfold Nat.toDigitsCore
    simp only
    split
    · simp
    · exact ih _ _ (Or.inr (by simp))

theorem toString_digits (n : Nat) :
    (toString n).data ≠ [] ∧ ∀ a ∈ (toString n).data, CharClass.digit.test a = true := by
  have h : (toString n).data = Nat.toDigits 10 n := rfl
  rw [h]
  exact ⟨toDigitsCore_ne_nil _ _ [] (Or.inl (by simp)), toDigitsCore_digits _ _ [] (by simp)⟩

theorem stringsJoin_data (l : String) (ls : List String) :
    (stringsJoin (l :: ls) "\n").data = l.data ++ sepLines ls := by
  induction ls generalizing l with
  | nil => simp [stringsJoin, sepLines]
  | cons b rest ih =>
    have hsep : ("\n" : String).data = ['\n'] := rfl
    simp only [stringsJoin, String.data_append, ih b, sepLines, hsep]
    simp

theorem fieldLine_data (i : Nat) (f : CaseTemplateField) :
    (toString (i + 1) ++ ". **" ++ f.Name ++ "**：" ++ f.Description).data
      = (toString (i + 1)).data ++ '.' :: ' ' :: '*' :: '*' ::
          (f.Name.data ++ '*' :: '*' :: '：' :: (f.Description.data ++ [])) := by
  have h1 : (". **" : String).data = ['.', ' ', '*', '*'] := rfl
  have h2 : ("**：" : String).data = ['*', '*', '：'] := rfl
  simp only [String.data_append, h1, h2]
  simp

theorem sepLines_head (ls : List String) : ∀ b, (sepLines ls).head? = some b → b = '\n' := by
  intro b hb
  cases ls with
  | nil => simp [sepLines] at hb
  | cons a rest =>
    simp only [sepLines, List.head?_cons, Option.some.injEq] at hb
    exact hb.symm

theorem fieldLine_head (i : Nat) (f : CaseTemplateField) (hf : roundTripField f)
    (rest : List Char) (hrest : ∀ b, rest.head? = some b → b = '\n') :
    (templateFieldRe.run
        ((toString (i + 1) ++ ". **" ++ f.Name ++ "**：" ++ f.Description).data ++ rest) []).head?
      = some (rest, setCap (setCap [] 1 f.Name.data) 2 f.Description.data) := by
  obtain ⟨hn0, hnl, hstar, hde0, hdl, hsp⟩ := hf
  obtain ⟨hd0, hd⟩ := toString_digits (i + 1)
  have hshape : (toString (i + 1) ++ ". **" ++ f.Name ++ "**：" ++ f.Description).data ++ rest
      = (toString (i + 1)).data ++ '.' :: ' ' :: '*' :: '*' ::
          (f.Name.data ++ '*' :: '*' :: '：' :: (f.Description.data ++ rest)) := by
    rw [fieldLine_data]
    simp
  rw [hshape]
  exact fieldRe_head _ _ _ rest hd hd0 hn0 hnl hstar hde0 hdl hsp hrest

theorem submatches_field (whole name desc : List Char) :
    fieldOfMatch (submatches 2 whole (setCap (setCap [] 1 name) 2 desc))
      = some { Name := String.mk name, Description := String.mk desc } := by
  simp [submatches, setCap, List.range_succ, List.lookup, fieldOfMatch]

theorem findAllLoop_step (re : Regex) (n fuel : Nat) (s before rest : List Char) (caps : Caps)
    (flag : Bool) (hsearch : re.search s = some (before, rest, caps))
    (hne : rest.length ≠ s.length) :
    findAllLoop re n (fuel + 1) s flag
      = submatches n ((s.drop before.length).take (s.length - before.length - rest.length)) caps
          :: findAllLoop re n fuel rest true := by
  simp [findAllLoop, hsearch, hne]

theorem findAllLoop_fields (fs : List CaseTemplateField) (i fuel : Nat) (flag : Bool)
    (hvalid : ∀ f ∈ fs, roundTripField f)
    (hfuel : (sepLines (fieldLines i fs)).length < fuel) :
    (findAllLoop templateFieldRe 2 fuel (sepLines (fieldLines i fs)) flag).filterMap fieldOfMatch
      = fs := by
  induction fs generalizing i fuel flag with
  | nil =>
    cases fuel with
    | zero => rfl
    | succ fuel =>
      have hnone : templateFieldRe.search [] = none := by
        simp [Regex.search, fieldRe_stop [] (by simp)]
      simp [fieldLines, sepLines, findAllLoop, hnone]
  | cons f fs ih =>
    cases fuel with
    | zero => simp at hfuel
    | succ fuel =>
      have hf := hvalid f (List.mem_cons_self f fs)
      have hhead := fieldLine_head i f hf (sepLines (fieldLines (i + 1) fs))
        (sepLines_head _)
      have hsearch : templateFieldRe.search
          ('\n' :: ((toString (i + 1) ++ ". **" ++ f.Name ++ "**：" ++ f.Description).data
            ++ sepLines (fieldLines (i + 1) fs)))
          = some (['\n'], sepLines (fieldLines (i + 1) fs),
              setCap (setCap [] 1 f.Name.data) 2 f.Description.data) := by
        rw [search_skip _ _ _ (fieldRe_stop _ (by simp)), search_of_head _ _ _ hhead]
        rfl
      have hlen : (sepLines (fieldLines (i + 1) fs)).length
          < fuel := by
        simp only [fieldLines, sepLines, List.length_cons, List.length_append] at hfuel
        omega
      simp only [fieldLines, sepLines]
      rw [findAllLoop_step _ _ _ _ _ _ _ _ hsearch (by simp; omega)]
      rw [List.filterMap_cons, submatches_field]
      simp only
      rw [ih (i + 1) fuel true (fun g hg => hvalid g (List.mem_cons_of_mem f hg)) hlen]

theorem parse_build_fields (fields : List CaseTemplateField)
    (hvalid : ∀ f ∈ fields, roundTripField f) :
    parseTemplateContent (buildTemplateContent fields) = fields := by
  cases fields with
  | nil => decide
  | cons f fs =>
    have hf := hvalid f (List.mem_cons_self f fs)
    have hhead := fieldLine_head 0 f hf (sepLines (fieldLines 1 fs)) (sepLines_head _)
    have hdata : (buildTemplateContent (f :: fs)).data
        = (toString (0 + 1) ++ ". **" ++ f.Name ++ "**：" ++ f.Description).data
            ++ sepLines (fieldLines 1 fs) := by
      simp only [buildTemplateContent, fieldLines]
      rw [stringsJoin_data]
    have hsearch := search_of_head _ _ _ hhead
    unfold parseTemplateContent FindAllStringSubmatch
    rw [hdata, findAllLoop_step _ _ _ _ _ _ _ _ hsearch (by simp; omega)]
    rw [List.filterMap_cons, submatches_field]
    simp only
    rw [findAllLoop_fields fs 1 _ true (fun g hg => hvalid g (List.mem_cons_of_mem f hg))]
    have hlen : (buildTemplateContent (f :: fs)).length
        = ((toString (0 + 1) ++ ". **" ++ f.Name ++ "**：" ++ f.Description).data
            ++ sepLines (fieldLines 1 fs)).length := congrArg List.length hdata
    have h4 : (". **" : String).data.length = 4 := rfl
    simp only [String.data_append, List.length_append, h4] at hlen
    omega

/-! ## Case templates: round trip and prompt building -/

/-- C28, the code at failing inputs: for a template content without `$` the numbered list of
the base prompt is replaced by the content and a newline, as claimed. For the content
"1. **金额**：以 $1 元计", built from a field whose description mentions `$1`, the result is
not the base prompt with the list replaced by that content: `ReplaceAllString` expands the
`$1` inside the content to the section header. For a content holding `$\x7bname\x7d` the
reference is dropped. This holds whatever the Unicode tables say about letters. -/
theorem prompt_expands_dollar_in_content (table : Char → Bool) :
    samplePrompt table "1. **金额**：总价" = Except.ok (promptWithList "1. **金额**：总价\n") ∧
    buildTemplateContent [{ Name := "金额", Description := "以 $1 元计" }] = "1. **金额**：以 $1 元计" ∧
    samplePrompt table "1. **金额**：以 $1 元计"
      = Except.ok (promptWithList ("1. **金额**：以 " ++ sectionHeader ++ " 元计\n")) ∧
    promptWithList ("1. **金额**：以 " ++ sectionHeader ++ " 元计\n")
      ≠ promptWithList ("1. **金额**：以 $1 元计" ++ "\n") ∧
    samplePrompt table "1. **步骤**：打开 $\x7bname\x7d 页面"
      = Except.ok (promptWithList "1. **步骤**：打开  页面\n") ∧
    promptWithList "1. **步骤**：打开  页面\n"
      ≠ promptWithList ("1. **步骤**：打开 $\x7bname\x7d 页面" ++ "\n") :=
  ⟨rfl, by decide, rfl, by decide, rfl, by decide⟩

/-- C29: for every list of fields whose names and descriptions are not empty and hold no
newline, whose names do not contain "**" and whose descriptions do not start with a
whitespace character of the class `\s`, parsing the content built from the fields gives back
the fields, in order; so the item listed for a template stored by `Create` shows the fields
it was created with. -/
theorem template_fields_round_trip (fields : List CaseTemplateField)
    (hvalid : ∀ f ∈ fields, roundTripField f) :
    parseTemplateContent (buildTemplateContent fields) = fields ∧
    (∀ name : String,
      (listItem (createTemplate { Name := name, Fields := fields })).Fields = fields ∧
      (listItem (createTemplate { Name := name, Fields := fields })).Name = name) ∧
    (∀ t : CaseTemplate, t.Content = (createTemplate { Name := t.Name, Fields := fields }).Content →
      (listItem t).Fields = fields) := by
  have h := parse_build_fields fields hvalid
  refine ⟨h, fun name => ⟨h, rfl⟩, ?_⟩
  intro t ht
  simp only [listItem, ht, createTemplate]
  exact h

/-- Witness of C29: three fields, among them a name ending in a star and a description that
contains the text of another numbered field, come back unchanged. -/
theorem template_fields_round_trip_witness :
    (∀ f ∈ sampleFields, roundTripField f) ∧
    buildTemplateContent sampleFields
      = "1. **用例编号**：唯一标识\n2. **a***：x  2. **b**：c\n3. *****：d: **e**：f " ∧
    parseTemplateContent (buildTemplateContent sampleFields) = sampleFields := by
  have hvalid : ∀ f ∈ sampleFields, roundTripField f := by
    intro f hf
    simp only [sampleFields, List.mem_cons, List.mem_singleton, List.not_mem_nil, or_false] at hf
    rcases hf with rfl | rfl | rfl
    · refine ⟨by decide, by decide, by decide, by decide, by decide, ?_⟩
      intro b hb
      simp only [List.head?, Option.some.injEq] at hb
      subst hb
      decide
    · refine ⟨by decide, by decide, by decide, by decide, by decide, ?_⟩
      intro b hb
      simp only [List.head?, Option.some.injEq] at hb
      subst hb
      decide
    · refine ⟨by decide, by decide, by decide, by decide, by decide, ?_⟩
      intro b hb
      simp only [List.head?, Option.some.injEq] at hb
      subst hb
      decide
  exact ⟨hvalid, by decide, (template_fields_round_trip sampleFields hvalid).1⟩

end FlowTestEngine
